import Mathlib

/-!
# ebftpd: ASCII translation, configuration loading, group cache, credits and files

A shallow embedding of

* `src/src/ftp/util.cpp`  (`ftp::util::LFtoCRLF`, `ftp::util::CRLFtoLF`),
* `src/src/cfg/config.cpp` (the current configuration parser: `Config::Config`, `Parse`,
  `ParseGlobal`, `ParseSection`, `ParameterCheck`, `SanityCheck`, `IsBouncer`, `SectionMatch`),
* `src/cfg/config.cpp` (the first-generation parser: `Config::Config`, `Parse`, `SetSetting`),
* `src/src/db/group/groupcache.cpp` (`GroupCache::GIDToName`, `NameToGID`, `Replicate`,
  `Populate`) and `src/src/db/group.cpp` (the `Save` methods, `Serialize<acl::Group>`,
  `Unserialize<acl::Group>`),
* `src/src/cmd/site/give.cpp` (`GIVECommand::Execute`),
* `src/fs/file.cpp` (`DeleteFile`, `RenameFile`, `CreateFile`, `AppendFile`, `OpenFile`),

followed by the properties proved about them.  Buffers are lists of bytes, `std::string` is
`String`, a thrown exception is a returned value, and the static counter `latestVersion` is
passed in and out explicitly.  Log output is not part of the model.
-/

/-! ## Definitions: `ftp::util` -/

namespace ftp.util

/-- The carriage-return byte `'\r'`. -/
def CR : UInt8 := 13

/-- The line-feed byte `'\n'`. -/
def LF : UInt8 := 10

/-- Models `ftp::util::LFtoCRLF`: the loop `for (i = 0; i < len; ++i)` over the source buffer,
pushing a CR before `source[i]` when it is an LF, `i != 0` and `source[i - 1]` is not a CR.  The
accumulator is `dest` (cleared before the loop). -/
def LFtoCRLF (source : List UInt8) : List UInt8 :=
  (List.range source.length).foldl
    (fun dest i =>
      let dest := if source.getD i 0 = LF ∧ i ≠ 0 ∧ source.getD (i - 1) 0 ≠ CR
                  then dest ++ [CR] else dest
      dest ++ [source.getD i 0])
    []

/-- Models `ftp::util::CRLFtoLF`: the loop over the source buffer pushing every byte that is
not a CR. -/
def CRLFtoLF (source : List UInt8) : List UInt8 :=
  (List.range source.length).foldl
    (fun dest i => if source.getD i 0 ≠ CR then dest ++ [source.getD i 0] else dest)
    []

/-- Every LF byte of a buffer is immediately preceded by a CR byte: whenever the buffer splits
around an LF, the part before it ends in CR. -/
def EveryLFAfterCR (out : List UInt8) : Prop :=
  ∀ pre post, out = pre ++ LF :: post → ∃ pre', pre = pre' ++ [CR]

end ftp.util

/-! ## Definitions: library functions the parsers call -/

deriving instance DecidableEq for Except

namespace boost

/-- Models `boost::to_lower` in the "C" locale. -/
def to_lower (s : String) : String := ⟨s.data.map Char.toLower⟩

/-- Models `boost::to_upper` in the "C" locale. -/
def to_upper (s : String) : String := ⟨s.data.map Char.toUpper⟩

/-- Models `boost::join(toks, " ")`. -/
def join (toks : List String) : String := String.intercalate " " toks

/-- Models `std::isspace` in the "C" locale, as used by `boost::trim`. -/
def isspace (c : Char) : Bool :=
  c = ' ' || c = '\t' || c = '\n' || c = '\x0b' || c = '\x0c' || c = '\r'

/-- Models `boost::trim`. -/
def trim (s : List Char) : List Char :=
  ((s.dropWhile isspace).reverse.dropWhile isspace).reverse

/-- Models `boost::is_any_of("\t ")`. -/
def isSeparator (c : Char) : Bool := c = '\t' || c = ' '

/-- Models `boost::split(toks, line, boost::is_any_of("\t "), boost::token_compress_on)`: the tokens
between maximal runs of separators.  `cur` is the token being read (reversed) and `inSep` says
whether the previous character was a separator. -/
def splitCompress : List Char → List Char → Bool → List String
  | [], cur, _ => [⟨cur.reverse⟩]
  | c :: cs, cur, inSep =>
    if isSeparator c then
      if inSep then splitCompress cs cur true
      else ⟨cur.reverse⟩ :: splitCompress cs [] true
    else splitCompress cs (c :: cur) false

/-- Models `boost::replace_all(token, pat, rep)` on the characters of a token: occurrences are
replaced from left to right, without overlap.  `skip` counts the characters of a replaced
occurrence that are still to be dropped. -/
def replaceAllAux (pat rep : List Char) : Nat → List Char → List Char
  | _, [] => []
  | skip + 1, _ :: cs => replaceAllAux pat rep skip cs
  | 0, c :: cs =>
    if pat ≠ [] ∧ pat.isPrefixOf (c :: cs) then rep ++ replaceAllAux pat rep (pat.length - 1) cs
    else c :: replaceAllAux pat rep 0 cs

/-- Models `boost::replace_all(token, "[:space:]", " ")`. -/
def replaceSpace (token : String) : String :=
  ⟨replaceAllAux "[:space:]".data " ".data 0 token.data⟩

/-- The value of a non-empty string of decimal digits. -/
def digitsValue : List Char → Option Nat
  | [] => none
  | cs => if cs.all Char.isDigit then some (cs.foldl (fun n c => 10 * n + (c.toNat - 48)) 0)
          else none

/-- Models `boost::lexical_cast<int>`: an optional sign and decimal digits, nothing else, within the
range of a 32-bit `int`; `none` is `boost::bad_lexical_cast`. -/
def lexical_cast_int (s : String) : Option Int :=
  match s.data with
  | '-' :: ds =>
    match digitsValue ds with
    | some n => if n ≤ 2147483648 then some (-(n : Int)) else none
    | none => none
  | '+' :: ds =>
    match digitsValue ds with
    | some n => if n ≤ 2147483647 then some (n : Int) else none
    | none => none
  | ds =>
    match digitsValue ds with
    | some n => if n ≤ 2147483647 then some (n : Int) else none
    | none => none

/-- Models `boost::lexical_cast<long long>`: an optional sign and decimal digits, nothing else,
within the range of a signed 64-bit integer; `none` is `boost::bad_lexical_cast`. -/
def lexical_cast_ll (s : String) : Option Int :=
  match s.data with
  | '-' :: ds =>
    match digitsValue ds with
    | some n => if n ≤ 9223372036854775808 then some (-(n : Int)) else none
    | none => none
  | '+' :: ds =>
    match digitsValue ds with
    | some n => if n ≤ 9223372036854775807 then some (n : Int) else none
    | none => none
  | ds =>
    match digitsValue ds with
    | some n => if n ≤ 9223372036854775807 then some (n : Int) else none
    | none => none

/-- Models `boost::split(toks, line, boost::is_any_of("\t "))` without token compression: every
separator ends a token.  `cur` is the token being read, reversed. -/
def split : List Char → List Char → List String
  | [], cur => [⟨cur.reverse⟩]
  | c :: cs, cur => if isSeparator c then ⟨cur.reverse⟩ :: split cs [] else split cs (c :: cur)

end boost

namespace std

/-- Models the pre-increment `++n` of an `int` (32 bits): the value after the increment, where
signed overflow, undefined in C++, is taken to wrap around in two's complement. -/
def preIncrement (n : Int) : Int := (n + 1 + 2147483648) % 4294967296 - 2147483648

/-- The lines `std::getline` reads from a stream holding `text`; `cur` is the line being read,
reversed. -/
def getlinesAux : List Char → List Char → List String
  | [], [] => []
  | [], cur => [⟨cur.reverse⟩]
  | c :: cs, cur =>
    if c = '\n' then ⟨cur.reverse⟩ :: getlinesAux cs [] else getlinesAux cs (c :: cur)

/-- The lines of a file with the given contents. -/
def getlines (text : String) : List String := getlinesAux text.data []

/-- Models `std::string::operator<` on the characters of two strings: lexicographic order. -/
def stringLess : List Char → List Char → Bool
  | [], [] => false
  | [], _ :: _ => true
  | _ :: _, [] => false
  | a :: as, b :: bs =>
    decide (a.toNat < b.toNat) || (decide (a.toNat = b.toNat) && stringLess as bs)

end std

/-! ## Definitions: the current configuration parser (`src/src/cfg/config.cpp`) -/

namespace cfg

open boost std

/-- An exception leaving `Config::Parse`.  `ConfigError` is `cfg::ConfigError`; `bad_cast` is
`std::bad_cast` with its subclasses `boost::bad_lexical_cast` and
`boost::numeric::bad_numeric_cast`; `other` is every exception that neither handler of the
constructor catches, and also stands for a read of `toks[0]` on an empty vector. -/
inductive Thrown where
  | ConfigError (message : String)
  | bad_cast
  | other
  deriving DecidableEq, Repr

/-- The way constructing a `Config` fails: a `ConfigError` with its message, the
`RequiredSettingError` of `SanityCheck` with the missing setting, or an exception of `Parse`
that the constructor does not catch. -/
inductive LoadError where
  | ConfigError (message : String)
  | RequiredSettingError (setting : String)
  | uncaught
  deriving DecidableEq, Repr

/-- A value of `fs::Path`, `acl::ACL` or one of the `setting::` classes.  These classes are
declared outside this development, so a value is represented by the arguments its constructor
was given; `default` is a default-constructed value. -/
inductive Value where
  | default
  | make (args : List String)
  deriving DecidableEq, Repr

/-- Models `cfg::WeekStart`. -/
inductive WeekStart where
  | Sunday
  | Monday
  deriving DecidableEq, Repr

/-- Models `cfg::EPSVFxp`, with the names of `util::EnumStrings<cfg::EPSVFxp>::values`. -/
inductive EPSVFxp where
  | Allow
  | Deny
  | Force
  deriving DecidableEq, Repr

/-- Models `cfg::Section`: the name it was constructed with and the three members `ParseSection`
assigns. -/
structure Section where
  name : String
  paths : List String
  separateCredits : Bool
  ratio : Int
  deriving DecidableEq, Repr

/-- The associative container `sections` (its declaration is in the absent `config.hpp`): only
its iteration order matters, so it is the list of its entries in iteration order, and `insert`
says where an entry with a fresh key goes.  A container keeps every entry it had and adds the new
one, which is `perm`. -/
structure SectionMap where
  insert : List (String × Section) → String × Section → List (String × Section)
  perm : ∀ l e, (insert l e).Perm (l ++ [e])

/-- What `config.cpp` uses but does not define.

* `exactArity`: whether the three-argument `ParameterCheck(opt, toks, n)` means exactly `n`
  arguments (an overload passing `n` as maximum) or at least `n` (a default maximum of `-1`);
* `aclKeywords`: the contents of the static set `Config::aclKeywords`;
* `construct opt args`: the exception, if any, thrown by the constructor or factory that option
  `opt` applies to `args` (`fs::Path`, `acl::ACL::FromString`, the `setting::` classes);
* `BoolLexicalCast`: `util::string::BoolLexicalCast`;
* `siteCmdCommand`: `setting::SiteCmd::Command()` of the value built from the given tokens;
* `sectionRatio`, `sectionSeparateCredits`: the members of a freshly constructed `Section`;
* `IsMatch`: `Section::IsMatch`;
* `sectionMap`: the iteration order of `sections`;
* `programFullname`: the constant of `main.hpp`. -/
structure Env where
  exactArity : Bool
  aclKeywords : List String
  construct : String → List String → Option Thrown
  BoolLexicalCast : String → Except Thrown Bool
  siteCmdCommand : List String → String
  sectionRatio : Int
  sectionSeparateCredits : Bool
  IsMatch : Section → String → Bool
  sectionMap : SectionMap
  programFullname : String

/-- The members of `cfg::Config`. -/
structure Config where
  version : Int
  configFile : String
  currentSection : Option String
  settingsCache : List (String × Nat)
  sections : List (String × Section)
  commandACLs : List (String × Value)
  database : Value
  sitepath : Value
  pidfile : Value
  port : Int
  defaultFlags : String
  tlsCertificate : Value
  tlsCiphers : String
  datapath : Value
  banner : Value
  asciiDownloads : Value
  asciiUploads : Value
  freeSpace : Int
  totalUsers : Int
  multiplierMax : Int
  emptyNuke : Int
  maxSitecmdLines : Int
  hideuser : Value
  timezone : Int
  dlIncomplete : Bool
  sitenameLong : String
  sitenameShort : String
  loginPrompt : String
  email : String
  master : List String
  bouncerIp : List String
  bouncerOnly : Bool
  calcCrc : List String
  xdupe : List String
  validIp : List String
  activeAddr : List String
  ignoreType : List String
  bannedUsers : List String
  idleCommands : List String
  noretrieve : List String
  maximumSpeed : List Value
  minimumSpeed : List Value
  simXfers : Value
  secureIp : List Value
  securePass : List Value
  pasvAddr : List Value
  activePorts : Value
  pasvPorts : Value
  allowFxp : List Value
  welcomeMsg : List Value
  goodbyeMsg : List Value
  cdpath : List Value
  alias_ : List Value
  delete_ : List Value
  deleteown : List Value
  overwrite : List Value
  resume : List Value
  rename : List Value
  renameown : List Value
  filemove : List Value
  makedir : List Value
  upload : List Value
  download : List Value
  nuke : List Value
  eventlog : List Value
  dupelog : List Value
  indexed : List Value
  hideinwho : List Value
  freefile : List Value
  nostats : List Value
  hideowner : List Value
  showDiz : List Value
  pathFilter : List Value
  maxUsers : Value
  maxUstats : List Value
  maxGstats : List Value
  showTotals : List Value
  cscript : List Value
  lslong : Value
  hiddenFiles : List Value
  creditcheck : List Value
  creditloss : List Value
  nukedirStyle : Value
  msgpath : List Value
  privpath : List Value
  siteCmd : List Value
  requests : Value
  idleTimeout : Value
  weekStart : WeekStart
  preCheck : List Value
  preDirCheck : List Value
  postCheck : List Value
  epsvFxp : EPSVFxp
  maximumRatio : Int
  cacheReplicate : Int
  dirSizeDepth : Int
  tlsControl : Value
  tlsListing : Value
  tlsData : Value
  tlsFxp : Value
  deriving DecidableEq

/-! Assignments to the members of `Config`, one per member. -/

def Config.setVersion (c : Config) (v : Int) : Config := { c with version := v }
def Config.setConfigFile (c : Config) (v : String) : Config := { c with configFile := v }
def Config.setCurrentSection (c : Config) (v : Option String) : Config :=
  { c with currentSection := v }
def Config.setSettingsCache (c : Config) (v : List (String × Nat)) : Config :=
  { c with settingsCache := v }
def Config.setSections (c : Config) (v : List (String × Section)) : Config :=
  { c with sections := v }
def Config.setCommandACLs (c : Config) (v : List (String × Value)) : Config :=
  { c with commandACLs := v }
def Config.setDatabase (c : Config) (v : Value) : Config := { c with database := v }
def Config.setSitepath (c : Config) (v : Value) : Config := { c with sitepath := v }
def Config.setPidfile (c : Config) (v : Value) : Config := { c with pidfile := v }
def Config.setPort (c : Config) (v : Int) : Config := { c with port := v }
def Config.setDefaultFlags (c : Config) (v : String) : Config := { c with defaultFlags := v }
def Config.setTlsCertificate (c : Config) (v : Value) : Config := { c with tlsCertificate := v }
def Config.setTlsCiphers (c : Config) (v : String) : Config := { c with tlsCiphers := v }
def Config.setDatapath (c : Config) (v : Value) : Config := { c with datapath := v }
def Config.setBanner (c : Config) (v : Value) : Config := { c with banner := v }
def Config.setAsciiDownloads (c : Config) (v : Value) : Config := { c with asciiDownloads := v }
def Config.setAsciiUploads (c : Config) (v : Value) : Config := { c with asciiUploads := v }
def Config.setFreeSpace (c : Config) (v : Int) : Config := { c with freeSpace := v }
def Config.setTotalUsers (c : Config) (v : Int) : Config := { c with totalUsers := v }
def Config.setMultiplierMax (c : Config) (v : Int) : Config := { c with multiplierMax := v }
def Config.setEmptyNuke (c : Config) (v : Int) : Config := { c with emptyNuke := v }
def Config.setMaxSitecmdLines (c : Config) (v : Int) : Config := { c with maxSitecmdLines := v }
def Config.setHideuser (c : Config) (v : Value) : Config := { c with hideuser := v }
def Config.setTimezone (c : Config) (v : Int) : Config := { c with timezone := v }
def Config.setDlIncomplete (c : Config) (v : Bool) : Config := { c with dlIncomplete := v }
def Config.setSitenameLong (c : Config) (v : String) : Config := { c with sitenameLong := v }
def Config.setSitenameShort (c : Config) (v : String) : Config := { c with sitenameShort := v }
def Config.setLoginPrompt (c : Config) (v : String) : Config := { c with loginPrompt := v }
def Config.setEmail (c : Config) (v : String) : Config := { c with email := v }
def Config.setMaster (c : Config) (v : List String) : Config := { c with master := v }
def Config.setBouncerIp (c : Config) (v : List String) : Config := { c with bouncerIp := v }
def Config.setBouncerOnly (c : Config) (v : Bool) : Config := { c with bouncerOnly := v }
def Config.setCalcCrc (c : Config) (v : List String) : Config := { c with calcCrc := v }
def Config.setXdupe (c : Config) (v : List String) : Config := { c with xdupe := v }
def Config.setValidIp (c : Config) (v : List String) : Config := { c with validIp := v }
def Config.setActiveAddr (c : Config) (v : List String) : Config := { c with activeAddr := v }
def Config.setIgnoreType (c : Config) (v : List String) : Config := { c with ignoreType := v }
def Config.setBannedUsers (c : Config) (v : List String) : Config := { c with bannedUsers := v }
def Config.setIdleCommands (c : Config) (v : List String) : Config := { c with idleCommands := v }
def Config.setNoretrieve (c : Config) (v : List String) : Config := { c with noretrieve := v }
def Config.setMaximumSpeed (c : Config) (v : List Value) : Config := { c with maximumSpeed := v }
def Config.setMinimumSpeed (c : Config) (v : List Value) : Config := { c with minimumSpeed := v }
def Config.setSimXfers (c : Config) (v : Value) : Config := { c with simXfers := v }
def Config.setSecureIp (c : Config) (v : List Value) : Config := { c with secureIp := v }
def Config.setSecurePass (c : Config) (v : List Value) : Config := { c with securePass := v }
def Config.setPasvAddr (c : Config) (v : List Value) : Config := { c with pasvAddr := v }
def Config.setActivePorts (c : Config) (v : Value) : Config := { c with activePorts := v }
def Config.setPasvPorts (c : Config) (v : Value) : Config := { c with pasvPorts := v }
def Config.setAllowFxp (c : Config) (v : List Value) : Config := { c with allowFxp := v }
def Config.setWelcomeMsg (c : Config) (v : List Value) : Config := { c with welcomeMsg := v }
def Config.setGoodbyeMsg (c : Config) (v : List Value) : Config := { c with goodbyeMsg := v }
def Config.setCdpath (c : Config) (v : List Value) : Config := { c with cdpath := v }
def Config.setAlias (c : Config) (v : List Value) : Config := { c with alias_ := v }
def Config.setDelete (c : Config) (v : List Value) : Config := { c with delete_ := v }
def Config.setDeleteown (c : Config) (v : List Value) : Config := { c with deleteown := v }
def Config.setOverwrite (c : Config) (v : List Value) : Config := { c with overwrite := v }
def Config.setResume (c : Config) (v : List Value) : Config := { c with resume := v }
def Config.setRename (c : Config) (v : List Value) : Config := { c with rename := v }
def Config.setRenameown (c : Config) (v : List Value) : Config := { c with renameown := v }
def Config.setFilemove (c : Config) (v : List Value) : Config := { c with filemove := v }
def Config.setMakedir (c : Config) (v : List Value) : Config := { c with makedir := v }
def Config.setUpload (c : Config) (v : List Value) : Config := { c with upload := v }
def Config.setDownload (c : Config) (v : List Value) : Config := { c with download := v }
def Config.setNuke (c : Config) (v : List Value) : Config := { c with nuke := v }
def Config.setEventlog (c : Config) (v : List Value) : Config := { c with eventlog := v }
def Config.setDupelog (c : Config) (v : List Value) : Config := { c with dupelog := v }
def Config.setIndexed (c : Config) (v : List Value) : Config := { c with indexed := v }
def Config.setHideinwho (c : Config) (v : List Value) : Config := { c with hideinwho := v }
def Config.setFreefile (c : Config) (v : List Value) : Config := { c with freefile := v }
def Config.setNostats (c : Config) (v : List Value) : Config := { c with nostats := v }
def Config.setHideowner (c : Config) (v : List Value) : Config := { c with hideowner := v }
def Config.setShowDiz (c : Config) (v : List Value) : Config := { c with showDiz := v }
def Config.setPathFilter (c : Config) (v : List Value) : Config := { c with pathFilter := v }
def Config.setMaxUsers (c : Config) (v : Value) : Config := { c with maxUsers := v }
def Config.setMaxUstats (c : Config) (v : List Value) : Config := { c with maxUstats := v }
def Config.setMaxGstats (c : Config) (v : List Value) : Config := { c with maxGstats := v }
def Config.setShowTotals (c : Config) (v : List Value) : Config := { c with showTotals := v }
def Config.setCscript (c : Config) (v : List Value) : Config := { c with cscript := v }
def Config.setLslong (c : Config) (v : Value) : Config := { c with lslong := v }
def Config.setHiddenFiles (c : Config) (v : List Value) : Config := { c with hiddenFiles := v }
def Config.setCreditcheck (c : Config) (v : List Value) : Config := { c with creditcheck := v }
def Config.setCreditloss (c : Config) (v : List Value) : Config := { c with creditloss := v }
def Config.setNukedirStyle (c : Config) (v : Value) : Config := { c with nukedirStyle := v }
def Config.setMsgpath (c : Config) (v : List Value) : Config := { c with msgpath := v }
def Config.setPrivpath (c : Config) (v : List Value) : Config := { c with privpath := v }
def Config.setSiteCmd (c : Config) (v : List Value) : Config := { c with siteCmd := v }
def Config.setRequests (c : Config) (v : Value) : Config := { c with requests := v }
def Config.setIdleTimeout (c : Config) (v : Value) : Config := { c with idleTimeout := v }
def Config.setWeekStart (c : Config) (v : WeekStart) : Config := { c with weekStart := v }
def Config.setPreCheck (c : Config) (v : List Value) : Config := { c with preCheck := v }
def Config.setPreDirCheck (c : Config) (v : List Value) : Config := { c with preDirCheck := v }
def Config.setPostCheck (c : Config) (v : List Value) : Config := { c with postCheck := v }
def Config.setEpsvFxp (c : Config) (v : EPSVFxp) : Config := { c with epsvFxp := v }
def Config.setMaximumRatio (c : Config) (v : Int) : Config := { c with maximumRatio := v }
def Config.setCacheReplicate (c : Config) (v : Int) : Config := { c with cacheReplicate := v }
def Config.setDirSizeDepth (c : Config) (v : Int) : Config := { c with dirSizeDepth := v }
def Config.setTlsControl (c : Config) (v : Value) : Config := { c with tlsControl := v }
def Config.setTlsListing (c : Config) (v : Value) : Config := { c with tlsListing := v }
def Config.setTlsData (c : Config) (v : Value) : Config := { c with tlsData := v }
def Config.setTlsFxp (c : Config) (v : Value) : Config := { c with tlsFxp := v }

/-- The result of running part of the parser on a configuration: the configuration as the call
left it, and the exception it threw, if any. -/
abbrev Outcome := Config × Option Thrown

/-- Models `Config::requiredSettings`. -/
def requiredSettings : List String := ["sitepath", "datapath", "port", "valid_ip"]

/-- Models `Config::ParameterCheck(opt, toks, minimum, maximum)`; the result is the exception
thrown. -/
def ParameterCheck (opt : String) (toks : List String) (minimum maximum : Int) : Option Thrown :=
  let toksSize : Int := toks.length
  if toksSize < minimum ∨ (maximum ≠ -1 ∧ toksSize > maximum) then
    some (Thrown.ConfigError ("Wrong numer of Parameters for " ++ opt))
  else none

/-- The three-argument call `ParameterCheck(opt, toks, minimum)`. -/
def ParameterCheck3 (env : Env) (opt : String) (toks : List String) (minimum : Int) :
    Option Thrown :=
  ParameterCheck opt toks minimum (if env.exactArity then minimum else -1)

/-- Continue with `k` unless the check threw. -/
def checked (c : Config) (check : Option Thrown) (k : Outcome) : Outcome :=
  match check with
  | some e => (c, some e)
  | none => k

/-- Store `c'` unless the constructor of the new value threw; then `c` is left as it was. -/
def built (c : Config) (thrown : Option Thrown) (c' : Config) : Outcome :=
  match thrown with
  | some e => (c, some e)
  | none => (c', none)

/-- The assignment `field = boost::lexical_cast<int>(toks[0])`. -/
def stored (c : Config) (tok : String) (set : Int → Config) : Outcome :=
  match lexical_cast_int tok with
  | some n => (set n, none)
  | none => (c, some Thrown.bad_cast)

/-- The pattern of `maximum_ratio`, `cache_replicate` and `dir_size_depth`: the value is assigned,
and a failed conversion or a negative value becomes a `ConfigError`. -/
def storedNonNegative (c : Config) (tok : String) (set : Int → Config) (message : String) :
    Outcome :=
  match lexical_cast_int tok with
  | some n => if n < 0 then (set n, some (Thrown.ConfigError message)) else (set n, none)
  | none => (c, some (Thrown.ConfigError message))

/-- The assignment `field = util::string::BoolLexicalCast(toks[0])`. -/
def storedBool (env : Env) (c : Config) (tok : String) (set : Bool → Config) : Outcome :=
  match env.BoolLexicalCast tok with
  | Except.ok b => (set b, none)
  | Except.error e => (c, some e)

/-- Models `toks[0]` after a parameter check that guarantees it exists. -/
def first (toks : List String) : String := toks.getD 0 ""

/-- Models `std::map::insert` / `std::unordered_map::insert` on `commandACLs`: the entry is added
unless the key is present. -/
def insertACL (m : List (String × Value)) (key : String) (v : Value) : List (String × Value) :=
  if m.any (fun kv => kv.1 = key) then m else m ++ [(key, v)]

/-- A freshly constructed `Section(name)`. -/
def Section.new (env : Env) (name : String) : Section :=
  { name := name, paths := [], separateCredits := env.sectionSeparateCredits,
    ratio := env.sectionRatio }

/-- Models `settingsCache[opt]++`. -/
def bump (cache : List (String × Nat)) (opt : String) : List (String × Nat) :=
  if cache.any (fun kv => kv.1 = opt) then
    cache.map (fun kv => if kv.1 = opt then (kv.1, kv.2 + 1) else kv)
  else cache ++ [(opt, 1)]

/-- An assignment through the pointer `currentSection`. -/
def updateSection (sections : List (String × Section)) (key : String) (f : Section → Section) :
    List (String × Section) :=
  sections.map (fun kv => if kv.1 = key then (kv.1, f kv.2) else kv)

end cfg

namespace cfg

open boost std

/-- Models `Config::NotImplemented`: the option is reported on the error log and nothing else
happens. -/
def NotImplemented (c : Config) (_opt : String) : Outcome := (c, none)

/-- Models `setting::SiteCmd::Command()` of an element of `siteCmd`. -/
def siteCommand (env : Env) : Value → String
  | Value.make args => env.siteCmdCommand args
  | Value.default => env.siteCmdCommand []

/-- Models `Config::ParseGlobal`, branch by branch in the order of the source.  A branch that
throws returns the configuration as it was at the throw. -/
def ParseGlobal (env : Env) (c : Config) (opt : String) (toks : List String) : Outcome :=
  if opt.data.head? = some '-' then
    checked c (ParameterCheck opt toks 1 (-1))
      (if ⟨opt.data.drop 1⟩ ∈ env.aclKeywords then
         built c (env.construct opt [join toks])
           (c.setCommandACLs
             (insertACL c.commandACLs ⟨opt.data.drop 1⟩ (Value.make [join toks])))
       else
         (c, some (Thrown.ConfigError ("Invalid command acl keyword: " ++ ⟨opt.data.drop 1⟩))))
  else if "custom-".data.isPrefixOf opt.data then
    checked c (ParameterCheck opt toks 1 (-1))
      (if c.siteCmd.all
            (fun sc => decide (to_upper ⟨opt.data.drop 7⟩ ≠ siteCommand env sc)) then
         (c, some (Thrown.ConfigError
           ("Invalid custom command acl keyword: " ++ to_upper ⟨opt.data.drop 7⟩)))
       else
         built c (env.construct opt [join toks])
           (c.setCommandACLs (insertACL c.commandACLs (to_lower opt) (Value.make [join toks]))))
  else if opt = "database" then
    checked c (ParameterCheck opt toks 3 5)
      (built c (env.construct opt toks) (c.setDatabase (Value.make toks)))
  else if opt = "sitepath" then
    checked c (ParameterCheck3 env opt toks 1)
      (built c (env.construct opt [first toks]) (c.setSitepath (Value.make [first toks])))
  else if opt = "pidfile" then
    checked c (ParameterCheck3 env opt toks 1)
      (built c (env.construct opt [first toks]) (c.setPidfile (Value.make [first toks])))
  else if opt = "port" then
    checked c (ParameterCheck3 env opt toks 1)
      (stored c (first toks) (fun n => c.setPort n))
  else if opt = "default_flags" then
    match toks with
    | [] => (c, some Thrown.other)
    | tok :: _ => (c.setDefaultFlags tok, none)
  else if opt = "tls_certificate" then
    checked c (ParameterCheck3 env opt toks 1)
      (built c (env.construct opt [first toks]) (c.setTlsCertificate (Value.make [first toks])))
  else if opt = "tls_ciphers" then
    checked c (ParameterCheck3 env opt toks 1) (c.setTlsCiphers (first toks), none)
  else if opt = "reload_config" then
    NotImplemented c opt
  else if opt = "datapath" then
    checked c (ParameterCheck3 env opt toks 1)
      (built c (env.construct opt [first toks]) (c.setDatapath (Value.make [first toks])))
  else if opt = "pwd_path" then
    NotImplemented c opt
  else if opt = "grp_path" then
    NotImplemented c opt
  else if opt = "banner" then
    checked c (ParameterCheck3 env opt toks 1)
      (built c (env.construct opt [first toks]) (c.setBanner (Value.make [first toks])))
  else if opt = "ascii_downloads" then
    built c (env.construct opt toks) (c.setAsciiDownloads (Value.make toks))
  else if opt = "ascii_uploads" then
    built c (env.construct opt toks) (c.setAsciiUploads (Value.make toks))
  else if opt = "free_space" then
    checked c (ParameterCheck3 env opt toks 1)
      (stored c (first toks) (fun n => c.setFreeSpace n))
  else if opt = "mmap_amount" then
    NotImplemented c opt
  else if opt = "dl_send_file" then
    NotImplemented c opt
  else if opt = "ul_buffered_force" then
    NotImplemented c opt
  else if opt = "total_users" then
    checked c (ParameterCheck3 env opt toks 1)
      (match lexical_cast_int (first toks) with
       | some n => if n < 0 then (c, some Thrown.bad_cast) else (c.setTotalUsers n, none)
       | none => (c, some Thrown.bad_cast))
  else if opt = "multiplier_max" then
    checked c (ParameterCheck3 env opt toks 1)
      (stored c (first toks) (fun n => c.setMultiplierMax n))
  else if opt = "empty_nuke" then
    checked c (ParameterCheck3 env opt toks 1)
      (stored c (first toks) (fun n => c.setEmptyNuke n))
  else if opt = "max_sitecmd_lines" then
    checked c (ParameterCheck3 env opt toks 1)
      (stored c (first toks) (fun n => c.setMaxSitecmdLines n))
  else if opt = "hideuser" then
    checked c (ParameterCheck opt toks 1 (-1))
      (built c (env.construct opt [join toks]) (c.setHideuser (Value.make [join toks])))
  else if opt = "use_dir_size" then
    NotImplemented c opt
  else if opt = "timezone" then
    checked c (ParameterCheck3 env opt toks 1)
      (stored c (first toks) (fun n => c.setTimezone n))
  else if opt = "dl_incomplete" then
    checked c (ParameterCheck3 env opt toks 1)
      (storedBool env c (first toks) (fun b => c.setDlIncomplete b))
  else if opt = "file_dl_count" then
    NotImplemented c opt
  else if opt = "sitename_long" then
    checked c (ParameterCheck3 env opt toks 1) (c.setSitenameLong (first toks), none)
  else if opt = "sitename_short" then
    checked c (ParameterCheck3 env opt toks 1) (c.setSitenameShort (first toks), none)
  else if opt = "login_prompt" then
    checked c (ParameterCheck3 env opt toks 1) (c.setLoginPrompt (first toks), none)
  else if opt = "email" then
    checked c (ParameterCheck3 env opt toks 1) (c.setEmail (first toks), none)
  else if opt = "master" then
    checked c (ParameterCheck opt toks 1 (-1)) (c.setMaster (c.master ++ toks), none)
  else if opt = "bouncer_ip" then
    checked c (ParameterCheck opt toks 1 (-1)) (c.setBouncerIp (c.bouncerIp ++ toks), none)
  else if opt = "bouncer_only" then
    checked c (ParameterCheck3 env opt toks 1)
      (storedBool env c (first toks) (fun b => c.setBouncerOnly b))
  else if opt = "calc_crc" then
    checked c (ParameterCheck opt toks 1 (-1)) (c.setCalcCrc (c.calcCrc ++ toks), none)
  else if opt = "xdupe" then
    checked c (ParameterCheck opt toks 1 (-1)) (c.setXdupe (c.xdupe ++ toks), none)
  else if opt = "valid_ip" then
    checked c (ParameterCheck opt toks 1 (-1)) (c.setValidIp (c.validIp ++ toks), none)
  else if opt = "active_addr" then
    checked c (ParameterCheck opt toks 1 (-1)) (c.setActiveAddr (c.activeAddr ++ toks), none)
  else if opt = "ignore_type" then
    checked c (ParameterCheck opt toks 1 (-1)) (c.setIgnoreType (c.ignoreType ++ toks), none)
  else if opt = "ignore_size" then
    NotImplemented c opt
  else if opt = "banned_users" then
    checked c (ParameterCheck opt toks 1 (-1)) (c.setBannedUsers (c.bannedUsers ++ toks), none)
  else if opt = "idle_commands" then
    checked c (ParameterCheck opt toks 1 (-1))
      (c.setIdleCommands ((c.idleCommands ++ toks).map to_upper), none)
  else if opt = "noretrieve" then
    checked c (ParameterCheck opt toks 1 (-1)) (c.setNoretrieve (c.noretrieve ++ toks), none)
  else if opt = "maximum_speed" then
    checked c (ParameterCheck opt toks 3 (-1))
      (built c (env.construct opt toks) (c.setMaximumSpeed (c.maximumSpeed ++ [Value.make toks])))
  else if opt = "minimum_speed" then
    checked c (ParameterCheck opt toks 3 (-1))
      (built c (env.construct opt toks) (c.setMinimumSpeed (c.minimumSpeed ++ [Value.make toks])))
  else if opt = "sim_xfers" then
    checked c (ParameterCheck3 env opt toks 2)
      (built c (env.construct opt toks) (c.setSimXfers (Value.make toks)))
  else if opt = "secure_ip" then
    checked c (ParameterCheck opt toks 4 (-1))
      (built c (env.construct opt toks) (c.setSecureIp (c.secureIp ++ [Value.make toks])))
  else if opt = "secure_pass" then
    checked c (ParameterCheck opt toks 2 (-1))
      (built c (env.construct opt toks) (c.setSecurePass (c.securePass ++ [Value.make toks])))
  else if opt = "pasv_addr" then
    checked c (ParameterCheck3 env opt toks 1)
      (built c (env.construct opt [first toks])
        (c.setPasvAddr (c.pasvAddr ++ [Value.make [first toks]])))
  else if opt = "active_ports" then
    checked c (ParameterCheck opt toks 1 (-1))
      (built c (env.construct opt toks) (c.setActivePorts (Value.make toks)))
  else if opt = "pasv_ports" then
    built c (env.construct opt toks) (c.setPasvPorts (Value.make toks))
  else if opt = "allow_fxp" then
    checked c (ParameterCheck opt toks 3 (-1))
      (built c (env.construct opt toks) (c.setAllowFxp (c.allowFxp ++ [Value.make toks])))
  else if opt = "welcome_msg" then
    checked c (ParameterCheck opt toks 2 (-1))
      (built c (env.construct opt toks) (c.setWelcomeMsg (c.welcomeMsg ++ [Value.make toks])))
  else if opt = "goodbye_msg" then
    checked c (ParameterCheck opt toks 2 (-1))
      (built c (env.construct opt toks) (c.setGoodbyeMsg (c.goodbyeMsg ++ [Value.make toks])))
  else if opt = "cdpath" then
    checked c (ParameterCheck3 env opt toks 1)
      (built c (env.construct opt [first toks])
        (c.setCdpath (c.cdpath ++ [Value.make [first toks]])))
  else if opt = "alias" then
    checked c (ParameterCheck3 env opt toks 2)
      (built c (env.construct opt toks) (c.setAlias (c.alias_ ++ [Value.make toks])))
  else if opt = "delete" then
    checked c (ParameterCheck opt toks 2 (-1))
      (built c (env.construct opt toks) (c.setDelete (c.delete_ ++ [Value.make toks])))
  else if opt = "deleteown" then
    checked c (ParameterCheck opt toks 2 (-1))
      (built c (env.construct opt toks) (c.setDeleteown (c.deleteown ++ [Value.make toks])))
  else if opt = "overwrite" then
    checked c (ParameterCheck opt toks 2 (-1))
      (built c (env.construct opt toks) (c.setOverwrite (c.overwrite ++ [Value.make toks])))
  else if opt = "resume" then
    checked c (ParameterCheck opt toks 2 (-1))
      (built c (env.construct opt toks) (c.setResume (c.resume ++ [Value.make toks])))
  else if opt = "rename" then
    checked c (ParameterCheck opt toks 2 (-1))
      (built c (env.construct opt toks) (c.setRename (c.rename ++ [Value.make toks])))
  else if opt = "renameown" then
    checked c (ParameterCheck opt toks 2 (-1))
      (built c (env.construct opt toks) (c.setRenameown (c.renameown ++ [Value.make toks])))
  else if opt = "filemove" then
    checked c (ParameterCheck opt toks 2 (-1))
      (built c (env.construct opt toks) (c.setFilemove (c.filemove ++ [Value.make toks])))
  else if opt = "makedir" then
    checked c (ParameterCheck opt toks 2 (-1))
      (built c (env.construct opt toks) (c.setMakedir (c.makedir ++ [Value.make toks])))
  else if opt = "upload" then
    checked c (ParameterCheck opt toks 2 (-1))
      (built c (env.construct opt toks) (c.setUpload (c.upload ++ [Value.make toks])))
  else if opt = "download" then
    checked c (ParameterCheck opt toks 2 (-1))
      (built c (env.construct opt toks) (c.setDownload (c.download ++ [Value.make toks])))
  else if opt = "nuke" then
    checked c (ParameterCheck opt toks 2 (-1))
      (built c (env.construct opt toks) (c.setNuke (c.nuke ++ [Value.make toks])))
  else if opt = "eventlog" then
    checked c (ParameterCheck opt toks 2 (-1))
      (built c (env.construct opt toks) (c.setEventlog (c.eventlog ++ [Value.make toks])))
  else if opt = "dupelog" then
    checked c (ParameterCheck opt toks 2 (-1))
      (built c (env.construct opt toks) (c.setDupelog (c.dupelog ++ [Value.make toks])))
  else if opt = "indexed" then
    checked c (ParameterCheck opt toks 2 (-1))
      (built c (env.construct opt toks) (c.setIndexed (c.indexed ++ [Value.make toks])))
  else if opt = "hideinwho" then
    checked c (ParameterCheck opt toks 2 (-1))
      (built c (env.construct opt toks) (c.setHideinwho (c.hideinwho ++ [Value.make toks])))
  else if opt = "freefile" then
    checked c (ParameterCheck opt toks 2 (-1))
      (built c (env.construct opt toks) (c.setFreefile (c.freefile ++ [Value.make toks])))
  else if opt = "nostats" then
    checked c (ParameterCheck opt toks 2 (-1))
      (built c (env.construct opt toks) (c.setNostats (c.nostats ++ [Value.make toks])))
  else if opt = "hideowner" then
    checked c (ParameterCheck opt toks 2 (-1))
      (built c (env.construct opt toks) (c.setHideowner (c.hideowner ++ [Value.make toks])))
  else if opt = "show_diz" then
    checked c (ParameterCheck opt toks 2 (-1))
      (built c (env.construct opt toks) (c.setShowDiz (c.showDiz ++ [Value.make toks])))
  else if opt = "path-filter" then
    checked c (ParameterCheck opt toks 3 (-1))
      (built c (env.construct opt toks) (c.setPathFilter (c.pathFilter ++ [Value.make toks])))
  else if opt = "max_users" then
    checked c (ParameterCheck3 env opt toks 2)
      (built c (env.construct opt toks) (c.setMaxUsers (Value.make toks)))
  else if opt = "max_ustats" then
    checked c (ParameterCheck opt toks 1 (-1))
      (built c (env.construct opt toks) (c.setMaxUstats (c.maxUstats ++ [Value.make toks])))
  else if opt = "max_gstats" then
    checked c (ParameterCheck opt toks 1 (-1))
      (built c (env.construct opt toks) (c.setMaxGstats (c.maxGstats ++ [Value.make toks])))
  else if opt = "show_totals" then
    checked c (ParameterCheck opt toks 2 (-1))
      (built c (env.construct opt toks) (c.setShowTotals (c.showTotals ++ [Value.make toks])))
  else if opt = "cscript" then
    checked c (ParameterCheck3 env opt toks 3)
      (built c (env.construct opt toks) (c.setCscript (c.cscript ++ [Value.make toks])))
  else if opt = "lslong" then
    checked c (ParameterCheck3 env opt toks 2)
      (built c (env.construct opt toks) (c.setLslong (Value.make toks)))
  else if opt = "hidden_files" then
    checked c (ParameterCheck opt toks 2 (-1))
      (built c (env.construct opt toks) (c.setHiddenFiles (c.hiddenFiles ++ [Value.make toks])))
  else if opt = "creditcheck" then
    checked c (ParameterCheck opt toks 3 (-1))
      (built c (env.construct opt toks) (c.setCreditcheck (c.creditcheck ++ [Value.make toks])))
  else if opt = "creditloss" then
    checked c (ParameterCheck opt toks 4 (-1))
      (built c (env.construct opt toks) (c.setCreditloss (c.creditloss ++ [Value.make toks])))
  else if opt = "nukedir_style" then
    checked c (ParameterCheck3 env opt toks 3)
      (built c (env.construct opt toks) (c.setNukedirStyle (Value.make toks)))
  else if opt = "msg_path" then
    checked c (ParameterCheck opt toks 1 (-1))
      (built c (env.construct opt toks) (c.setMsgpath (c.msgpath ++ [Value.make toks])))
  else if opt = "privpath" then
    checked c (ParameterCheck opt toks 1 (-1))
      (built c (env.construct opt toks) (c.setPrivpath (c.privpath ++ [Value.make toks])))
  else if opt = "site_cmd" then
    checked c (ParameterCheck opt toks 4 5)
      (built c (env.construct opt toks) (c.setSiteCmd (c.siteCmd ++ [Value.make toks])))
  else if opt = "requests" then
    checked c (ParameterCheck3 env opt toks 2)
      (built c (env.construct opt toks) (c.setRequests (Value.make toks)))
  else if opt = "idle_timeout" then
    checked c (ParameterCheck3 env opt toks 3)
      (built c (env.construct opt toks) (c.setIdleTimeout (Value.make toks)))
  else if opt = "week_start" then
    checked c (ParameterCheck3 env opt toks 1)
      (if to_lower (first toks) = "sunday" then (c.setWeekStart WeekStart.Sunday, none)
       else if to_lower (first toks) = "monday" then
         (c.setWeekStart WeekStart.Monday, none)
       else (c, some (Thrown.ConfigError "week_start must be either sunday or monday.")))
  else if opt = "pre_check" then
    checked c (ParameterCheck opt toks 1 2)
      (built c (env.construct opt toks) (c.setPreCheck (c.preCheck ++ [Value.make toks])))
  else if opt = "pre_dir_check" then
    checked c (ParameterCheck opt toks 1 2)
      (built c (env.construct opt toks) (c.setPreDirCheck (c.preDirCheck ++ [Value.make toks])))
  else if opt = "post_check" then
    checked c (ParameterCheck opt toks 1 2)
      (built c (env.construct opt toks) (c.setPostCheck (c.postCheck ++ [Value.make toks])))
  else if opt = "section" then
    checked c (ParameterCheck3 env opt toks 1)
      (if c.sections.any (fun kv => kv.1 = to_upper (first toks)) then
         (c, some (Thrown.ConfigError ("Section " ++ to_upper (first toks) ++ " already exists.")))
       else
         ((c.setSections (env.sectionMap.insert c.sections
               (to_upper (first toks), Section.new env (to_upper (first toks))))).setCurrentSection
             (some (to_upper (first toks))), none))
  else if opt = "epsv_fxp" then
    checked c (ParameterCheck3 env opt toks 1)
      (if to_lower (first toks) = "allow" then (c.setEpsvFxp EPSVFxp.Allow, none)
       else if to_lower (first toks) = "deny" then (c.setEpsvFxp EPSVFxp.Deny, none)
       else if to_lower (first toks) = "force" then (c.setEpsvFxp EPSVFxp.Force, none)
       else (c, some (Thrown.ConfigError "epsv_fxp must be allow, deny or force")))
  else if opt = "maximum_ratio" then
    checked c (ParameterCheck3 env opt toks 1)
      (storedNonNegative c (first toks) (fun n => c.setMaximumRatio n)
        "maximum_ratio must be zero or larger")
  else if opt = "cache_replicate" then
    checked c (ParameterCheck3 env opt toks 1)
      (storedNonNegative c (first toks) (fun n => c.setCacheReplicate n)
        "cache_replicate must be zero or larger")
  else if opt = "dir_size_depth" then
    checked c (ParameterCheck3 env opt toks 1)
      (storedNonNegative c (first toks) (fun n => c.setDirSizeDepth n)
        "dir_size_depth must be zero or larger")
  else if opt = "tls_control" then
    built c (env.construct opt [join toks]) (c.setTlsControl (Value.make [join toks]))
  else if opt = "tls_listing" then
    built c (env.construct opt [join toks]) (c.setTlsListing (Value.make [join toks]))
  else if opt = "tls_data" then
    built c (env.construct opt [join toks]) (c.setTlsData (Value.make [join toks]))
  else if opt = "tls_fxp" then
    built c (env.construct opt [join toks]) (c.setTlsFxp (Value.make [join toks]))
  else
    (c, some (Thrown.ConfigError ("Invalid global config option: " ++ opt)))

/-- Models `Config::ParseSection`.  `currentSection` is the key of the section the pointer
refers to; a branch that dereferences it when it is null is reported as `Thrown.other`. -/
def ParseSection (env : Env) (c : Config) (opt : String) (toks : List String) : Outcome :=
  if opt = "path" then
    checked c (ParameterCheck3 env opt toks 1)
      (match c.currentSection with
       | none => (c, some Thrown.other)
       | some key =>
         built c (env.construct opt [first toks])
           (c.setSections (updateSection c.sections key
             (fun s => { s with paths := s.paths ++ [first toks] }))))
  else if opt = "separate_credits" then
    checked c (ParameterCheck3 env opt toks 1)
      (match c.currentSection with
       | none => (c, some Thrown.other)
       | some key =>
         storedBool env c (first toks) (fun b =>
           c.setSections (updateSection c.sections key
             (fun s => { s with separateCredits := b }))))
  else if opt = "ratio" then
    checked c (ParameterCheck3 env opt toks 1)
      (match c.currentSection with
       | none => (c, some Thrown.other)
       | some key =>
         storedNonNegative c (first toks) (fun n =>
           c.setSections (updateSection c.sections key (fun s => { s with ratio := n })))
           "ratio must be zero or larger")
  else if opt = "endsection" then
    (c.setCurrentSection none, none)
  else
    (c, some (Thrown.ConfigError ("Invalid section config option: " ++ opt)))

/-- The tokens of a line as `Config::Parse` computes them: `boost::trim`, `boost::split` on tabs
and spaces with `token_compress_on`, then `[:space:]` replaced by a space in every token. -/
def tokenize (line : String) : List String :=
  (splitCompress (trim line.data) [] false).map replaceSpace

/-- Models `Config::Parse`. -/
def Parse (env : Env) (c : Config) (line : String) : Outcome :=
  match tokenize line with
  | [] => (c, none)
  | opt :: toks =>
    if opt.length = 0 then (c, none)
    else
      let c1 : Config := c.setSettingsCache (bump c.settingsCache (to_lower opt))
      if c1.currentSection.isSome then ParseSection env c1 (to_lower opt) toks
      else ParseGlobal env c1 (to_lower opt) toks

/-- Models `Config::CheckSetting`. -/
def CheckSetting (c : Config) (name : String) : Bool :=
  c.settingsCache.any (fun kv => kv.1 = name)

/-- Models `Config::SanityCheck`: the first required setting that was never seen is thrown as
`RequiredSettingError`; otherwise the login prompt and the `allow_fxp` list get their
defaults. -/
def SanityCheck (env : Env) (c : Config) : Except LoadError Config :=
  match requiredSettings.find? (fun setting => !CheckSetting c setting) with
  | some setting => Except.error (LoadError.RequiredSettingError setting)
  | none =>
    let c1 : Config :=
      if c.loginPrompt.length = 0 then
        c.setLoginPrompt (c.sitenameLong ++ ": " ++ env.programFullname ++ " connected.")
      else c
    let c2 : Config :=
      if c1.allowFxp.length = 0 then c1.setAllowFxp (c1.allowFxp ++ [Value.default])
      else c1
    Except.ok c2

/-- Models `Config::IsBouncer`. -/
def IsBouncer (c : Config) (ip : String) : Bool :=
  c.bouncerIp.any (fun bip => ip = bip)

/-- Models `Config::SectionMatch`: the first entry, in the iteration order of `sections`, whose
section matches the path. -/
def SectionMatch (env : Env) (c : Config) (path : String) : Option Section :=
  (c.sections.find? (fun kv => env.IsMatch kv.2 path)).map (fun kv => kv.2)

/-- The line with everything from the first `#` on erased. -/
def stripComment (line : String) : String := ⟨line.data.takeWhile (fun ch => ch ≠ '#')⟩

/-- The member initialisers of `Config::Config`; members without an initialiser are
default-constructed.  The two wildcard ACLs `*` and `!*` are taken to parse. -/
def Config.initial (version : Int) (configFile : String) : Config :=
  { version := version
    configFile := configFile
    currentSection := none
    settingsCache := []
    sections := []
    commandACLs := []
    database := Value.default
    sitepath := Value.default
    pidfile := Value.default
    port := -1
    defaultFlags := "3"
    tlsCertificate := Value.default
    tlsCiphers := ""
    datapath := Value.make ["data"]
    banner := Value.default
    asciiDownloads := Value.default
    asciiUploads := Value.default
    freeSpace := 100
    totalUsers := 20
    multiplierMax := 10
    emptyNuke := 102400
    maxSitecmdLines := -1
    hideuser := Value.default
    timezone := 0
    dlIncomplete := true
    sitenameLong := "SITE NAME"
    sitenameShort := "SN"
    loginPrompt := ""
    email := ""
    master := []
    bouncerIp := []
    bouncerOnly := false
    calcCrc := []
    xdupe := []
    validIp := []
    activeAddr := []
    ignoreType := []
    bannedUsers := []
    idleCommands := []
    noretrieve := []
    maximumSpeed := []
    minimumSpeed := []
    simXfers := Value.default
    secureIp := []
    securePass := []
    pasvAddr := []
    activePorts := Value.default
    pasvPorts := Value.default
    allowFxp := []
    welcomeMsg := []
    goodbyeMsg := []
    cdpath := []
    alias_ := []
    delete_ := []
    deleteown := []
    overwrite := []
    resume := []
    rename := []
    renameown := []
    filemove := []
    makedir := []
    upload := []
    download := []
    nuke := []
    eventlog := []
    dupelog := []
    indexed := []
    hideinwho := []
    freefile := []
    nostats := []
    hideowner := []
    showDiz := []
    pathFilter := []
    maxUsers := Value.default
    maxUstats := []
    maxGstats := []
    showTotals := []
    cscript := []
    lslong := Value.default
    hiddenFiles := []
    creditcheck := []
    creditloss := []
    nukedirStyle := Value.default
    msgpath := []
    privpath := []
    siteCmd := []
    requests := Value.default
    idleTimeout := Value.default
    weekStart := WeekStart.Sunday
    preCheck := []
    preDirCheck := []
    postCheck := []
    epsvFxp := EPSVFxp.Allow
    maximumRatio := 10
    cacheReplicate := 0
    dirSizeDepth := 2
    tlsControl := Value.make ["*"]
    tlsListing := Value.make ["*"]
    tlsData := Value.make ["!*"]
    tlsFxp := Value.make ["!*"] }

/-- The loop of `Config::Config` over the lines of the file, from the configuration `c` and the
flag `okay`: a `ConfigError` clears `okay`, a `std::bad_cast` is only logged, any other exception
leaves the constructor. -/
def parseLines (env : Env) : Config → Bool → List String → Except LoadError (Config × Bool)
  | c, okay, [] => Except.ok (c, okay)
  | c, okay, line :: rest =>
    if (stripComment line).length = 0 then parseLines env c okay rest
    else
      match Parse env c (stripComment line) with
      | (c', none) => parseLines env c' okay rest
      | (c', some (Thrown.ConfigError _)) => parseLines env c' false rest
      | (c', some Thrown.bad_cast) => parseLines env c' okay rest
      | (_, some Thrown.other) => Except.error LoadError.uncaught

/-- Models `Config::Config(configFile)`.  `latestVersion` is the static counter before the call and
`io` the contents of the file, `none` when it cannot be opened.  The result is the counter after
the call and either the constructed configuration or the exception thrown.  The counter is a
C++ `int`, bumped by `version(++latestVersion)`. -/
def Config.new (env : Env) (latestVersion : Int) (configFile : String) (io : Option String) :
    Int × Except LoadError Config :=
  (preIncrement latestVersion,
    match io with
    | none => Except.error (LoadError.ConfigError "Unable to open config file.")
    | some text =>
      match parseLines env (Config.initial (preIncrement latestVersion) configFile) true
          (getlines text) with
      | Except.error e => Except.error e
      | Except.ok (c, okay) =>
        if okay then SanityCheck env c
        else Except.error (LoadError.ConfigError "Errors while parsing config file."))

/-- The option keyword `Config::Parse` reads from the line it is given: the first token,
lower-cased; `none` when `Parse` returns before looking at an option. -/
def keywordOf (line : String) : Option String :=
  match tokenize line with
  | [] => none
  | opt :: _ => if opt.length = 0 then none else some (to_lower opt)

/-- The option keyword of a line of the configuration file: the keyword `Parse` reads from the
line without its comment; `none` for a line the constructor skips. -/
def optionKeyword (line : String) : Option String :=
  if (stripComment line).length = 0 then none else keywordOf (stripComment line)

/-- The members no option assigns are the same in both configurations: the version, the file
name and the cache of seen settings. -/
def SameHeader (c c' : Config) : Prop :=
  c'.version = c.version ∧ c'.configFile = c.configFile ∧ c'.settingsCache = c.settingsCache

/-- The results of constructing configurations one after another from the given files, each
construction starting from the counter the previous one left. -/
def constructAll (env : Env) :
    Int → List (String × Option String) → List (Except LoadError Config)
  | _, [] => []
  | latestVersion, (configFile, io) :: rest =>
    (Config.new env latestVersion configFile io).2 ::
      constructAll env (Config.new env latestVersion configFile io).1 rest

/-- The version of a constructed configuration, `none` when the construction failed. -/
def versionOf (r : Except LoadError Config) : Option Int :=
  match r with
  | Except.ok c => some c.version
  | Except.error _ => none

/-- Inserting into a container that iterates in key order, such as `std::map`. -/
def insertSorted : List (String × Section) → String × Section → List (String × Section)
  | [], e => [e]
  | x :: xs, e =>
    if stringLess e.1.data x.1.data then e :: x :: xs else x :: insertSorted xs e

/-- The container that iterates in key order. -/
def sortedMap : SectionMap where
  insert := insertSorted
  perm := by
    intro l e
    induction l with
    | nil => exact List.Perm.refl _
    | cons x xs ih =>
      unfold insertSorted
      split
      · exact (List.perm_append_singleton e (x :: xs)).symm
      · exact List.Perm.cons x ih

/-- An environment in which no constructor throws, `sections` iterates in key order, a section
matches exactly the paths listed for it, and the three-argument parameter check is exact. -/
def plainEnv : Env where
  exactArity := true
  aclKeywords := []
  construct := fun _ _ => none
  BoolLexicalCast := fun s =>
    if to_lower s = "yes" then Except.ok true
    else if to_lower s = "no" then Except.ok false
    else Except.error Thrown.bad_cast
  siteCmdCommand := fun toks => to_upper (first toks)
  sectionRatio := -1
  sectionSeparateCredits := false
  IsMatch := fun s path => s.paths.contains path
  sectionMap := sortedMap
  programFullname := "ebftpd"

/-- A configuration with two sections, `A` and `B`, both listing the path `/x`: what loading
`section B`, `path /x`, `endsection`, `section A`, `path /x`, `endsection` leaves in `sections`
when the container iterates in key order. -/
def twoSections : Config :=
  (Config.initial 1 "ftpd.conf").setSections
    [("A", { name := "A", paths := ["/x"], separateCredits := false, ratio := -1 }),
     ("B", { name := "B", paths := ["/x"], separateCredits := false, ratio := -1 })]

end cfg

/-! ## Definitions: the first-generation configuration parser (`src/cfg/config.cpp`) -/

namespace legacy

open boost std

/-- An exception leaving `Config::Parse` of the first parser: `cfg::NoSetting`, the
`std::out_of_range` of `std::vector::at` and `std::string::at`, `boost::bad_lexical_cast`, or
any other exception of a callee. -/
inductive Exception where
  | NoSetting (what : String)
  | out_of_range
  | bad_lexical_cast
  | other
  deriving DecidableEq, Repr

/-- The way constructing a first-generation `Config` fails: `ConfigFileError`, or an exception
of `Parse` other than `NoSetting`, which the constructor rethrows. -/
inductive LoadError where
  | ConfigFileError
  | rethrown (e : Exception)
  deriving DecidableEq, Repr

/-- Models `cfg::SiteCmdMethod`. -/
inductive SiteCmdMethod where
  | EXEC
  | TEXT
  | IS
  deriving DecidableEq, Repr

/-- A value handed to `InsertSetting`, named after its C++ class, with the arguments of its
constructor. -/
inductive Setting where
  | Path (path : String)
  | ACL (toks : List String)
  | IntWithArguments (i : Int) (toks : List String)
  | Int (i : Int)
  | VectorInt (set : List Int)
  | String (s : String)
  | VectorString (toks : List String)
  | Bool (b : Bool)
  | SecureIpOpt (fields : Int) (allowHostnames needIdent : Bool) (toks : List String)
  | ACLWithPath (path : String) (toks : List String)
  | SpeedLimitOpt (path : String) (upload download : Int) (toks : List String)
  | PasvAddrOpt (addr : String) (primary : Bool)
  | AllowFxpOpt (downloads uploads logging : Bool) (toks : List String)
  | PathWithArgument (path argument : String)
  | ACLWithArgument (argument : String) (toks : List String)
  | StatSectionOpt (keyword directory : String) (separateCredits : Bool)
  | PathFilterOpt (group messageFile : String) (toks : List String)
  | ACLWithInt (num : Int) (toks : List String)
  | IntWithBool (first : Int) (enabled : Bool)
  | RequestsOpt (path : String) (max : Int)
  | CreditcheckOpt (path : String) (ratio : Int) (toks : List String)
  | CreditlossOpt (multiplier : Int) (leechers : Bool) (path : String) (toks : List String)
  | NukedirStyleOpt (format : String) (method emptyKb : Int)
  | MsgPathOpt (path filename : String) (toks : List String)
  | CscriptOpt (command type script : String)
  | SiteCmdOpt (command : String) (method : SiteCmdMethod) (path : String) (toks : List String)
  deriving DecidableEq, Repr

/-- What the first parser uses but does not define: `construct v` is the exception, if any,
thrown while the value `v` is constructed and inserted, and `BoolLexicalCast` is
`util::string::BoolLexicalCast`. -/
structure Env where
  construct : Setting → Option Exception
  BoolLexicalCast : String → Except Exception Bool

/-- The members of the first-generation `cfg::Config`.  `settings` holds, in insertion order,
the values pushed by `InsertSetting` together with the option they were pushed for. -/
structure Config where
  version : Int
  config : String
  settings : List (String × Setting)
  deriving DecidableEq, Repr

/-- Modelled from the spec: `InsertSetting<T>(map, value, opt)`, a template of the absent
`config.hpp`; it is the "per-setting template map insertion keyed by string", pushing the value
onto the vector kept for the option. -/
def InsertSetting (env : Env) (c : Config) (value : Setting) (opt : String) :
    Except Exception Config :=
  match env.construct value with
  | some e => Except.error e
  | none => Except.ok { c with settings := c.settings ++ [(opt, value)] }

/-- Models `toks.at(i)`. -/
def at_ (toks : List String) (i : Nat) : Except Exception String :=
  match toks.get? i with
  | some tok => Except.ok tok
  | none => Except.error Exception.out_of_range

/-- Models `boost::lexical_cast<int>(s)`. -/
def lexical (s : String) : Except Exception Int :=
  match lexical_cast_int s with
  | some n => Except.ok n
  | none => Except.error Exception.bad_lexical_cast

/-- The loop `for (it = toks.begin(); ...) set.push_back(boost::lexical_cast<int>(*it))`. -/
def lexicalAll : List String → Except Exception (List Int)
  | [] => Except.ok []
  | tok :: rest =>
    match lexical tok with
    | Except.error e => Except.error e
    | Except.ok n =>
      match lexicalAll rest with
      | Except.error e => Except.error e
      | Except.ok ns => Except.ok (n :: ns)

/-- Models `opt.find("custom-") != std::string::npos`. -/
def containsCustom (opt : String) : Bool :=
  opt.data.tails.any (fun suffix => "custom-".data.isPrefixOf suffix)

/-- Models `Config::SetSetting` of the first parser, branch by branch in the order of the source.
Arguments of a constructor call are evaluated left to right. -/
def SetSetting (env : Env) (c : Config) (opt : String) (toks : List String) :
    Except Exception Config :=
  if opt = "dsa_cert_file" ∨ opt = "rootpath" ∨ opt = "datapath"
      ∨ opt = "pwd_path" ∨ opt = "grp_path" ∨ opt = "botscript_path"
      ∨ opt = "calc_crc" ∨ opt = "min_homedir" ∨ opt = "banner"
      ∨ opt = "nodupecheck" ∨ opt = "rsa_cert_file" ∨ opt = "rsa_cert_file" then do
    let path ← at_ toks 0
    InsertSetting env c (Setting.Path path) opt
  else if opt = "userrejectsecure" ∨ opt = "userrejectinsecure"
      ∨ opt = "denydiruncrypted" ∨ opt = "denydatauncrypted"
      ∨ opt = "shutdown" ∨ opt = "hideuser" then
    InsertSetting env c (Setting.ACL toks) opt
  else if opt = "ascii_downloads" ∨ opt = "show_totals" then do
    let tok ← at_ toks 0
    let i ← if tok = "*" then Except.ok (-1) else lexical tok
    InsertSetting env c (Setting.IntWithArguments i (toks.drop 1)) opt
  else if opt = "free_space" ∨ opt = "timezone"
      ∨ opt = "mmap_amount" ∨ opt = "dl_sendfile" ∨ opt = "ul_buffered_force"
      ∨ opt = "total_users"
      ∨ opt = "empty_nuke" ∨ opt = "max_sitecmd_lines" ∨ opt = "oneliners"
      ∨ opt = "multiplier_max" then do
    let tok ← at_ toks 0
    let i ← lexical tok
    InsertSetting env c (Setting.Int i) opt
  else if opt = "sim_xfers" ∨ opt = "max_users" ∨ opt = "lastonline" then do
    let set ← lexicalAll toks
    InsertSetting env c (Setting.VectorInt set) opt
  else if opt = "use_dir_size" ∨ opt = "sitename_long" ∨ opt = "sitename_short"
      ∨ opt = "login_prompt" ∨ opt = "tagline" ∨ opt = "email" ∨ opt = "cdpath" then do
    let tok ← at_ toks 0
    InsertSetting env c (Setting.String tok) opt
  else if opt = "master" ∨ opt = "bouncer_ip"
      ∨ opt = "xdupe" ∨ opt = "valid_ip" ∨ opt = "active_addr"
      ∨ opt = "pasv_ports" ∨ opt = "active_ports"
      ∨ opt = "ignore_type" ∨ opt = "banned_users" ∨ opt = "idle_commands"
      ∨ opt = "lslong" ∨ opt = "hidden_files" ∨ opt = "noretrieve"
      ∨ opt = "privgroup" then
    InsertSetting env c (Setting.VectorString toks) opt
  else if opt = "color_mode" ∨ opt = "dl_incomplete"
      ∨ opt = "file_dl_count" then do
    let tok ← at_ toks 0
    let b ← env.BoolLexicalCast tok
    InsertSetting env c (Setting.Bool b) opt
  else if opt = "secure_ip" then do
    let tok0 ← at_ toks 0
    let fields ← lexical tok0
    let tok1 ← at_ toks 1
    let allowHostnames ← env.BoolLexicalCast tok1
    let tok2 ← at_ toks 2
    let needIdent ← env.BoolLexicalCast tok2
    InsertSetting env c (Setting.SecureIpOpt fields allowHostnames needIdent (toks.drop 3)) opt
  else if opt = "secure_pass" ∨ opt = "welcome_msg" ∨ opt = "goodbye_msg"
      ∨ opt = "newsfile" ∨ opt = "delete" ∨ opt = "deleteown"
      ∨ opt = "overwrite" ∨ opt = "resume" ∨ opt = "rename"
      ∨ opt = "renameown" ∨ opt = "filemove" ∨ opt = "makedir"
      ∨ opt = "upload" ∨ opt = "download" ∨ opt = "nuke" ∨ opt = "dirlog"
      ∨ opt = "hideinwho" ∨ opt = "nostats" ∨ opt = "show_diz"
      ∨ opt = "pre_check" ∨ opt = "pre_dir_check" ∨ opt = "post_check"
      ∨ opt = "privpath" then do
    let path ← at_ toks 0
    InsertSetting env c (Setting.ACLWithPath path (toks.drop 1)) opt
  else if opt = "speed_limit" then do
    let path ← at_ toks 0
    let tok1 ← at_ toks 1
    let upload ← lexical tok1
    let tok2 ← at_ toks 2
    let download ← lexical tok2
    InsertSetting env c (Setting.SpeedLimitOpt path upload download (toks.drop 3)) opt
  else if opt = "pasv_addr" then do
    let addr ← at_ toks 0
    InsertSetting env c (Setting.PasvAddrOpt addr (decide (toks.length > 1))) opt
  else if opt = "allow_fxp" then do
    let tok0 ← at_ toks 0
    let downloads ← env.BoolLexicalCast tok0
    let tok1 ← at_ toks 1
    let uploads ← env.BoolLexicalCast tok1
    let tok2 ← at_ toks 2
    let logging ← env.BoolLexicalCast tok2
    InsertSetting env c (Setting.AllowFxpOpt downloads uploads logging (toks.drop 3)) opt
  else if opt = "alais" then do
    let tok0 ← at_ toks 0
    let tok1 ← at_ toks 1
    InsertSetting env c (Setting.PathWithArgument tok0 tok1) opt
  else if opt = "freefile" then do
    let argument ← at_ toks 0
    InsertSetting env c (Setting.ACLWithArgument argument (toks.drop 1)) opt
  else if opt = "stat_section" then do
    let tok0 ← at_ toks 0
    let tok1 ← at_ toks 1
    let tok2 ← at_ toks 2
    let b ← env.BoolLexicalCast tok2
    InsertSetting env c (Setting.StatSectionOpt tok0 tok1 b) opt
  else if opt = "path-filter" then do
    let group ← at_ toks 0
    let messageFile ← at_ toks 1
    InsertSetting env c (Setting.PathFilterOpt group messageFile (toks.drop 2)) opt
  else if opt = "max_ustats" ∨ opt = "max_gstats" then do
    let tok0 ← at_ toks 0
    let num ← lexical tok0
    InsertSetting env c (Setting.ACLWithInt num (toks.drop 1)) opt
  else if opt = "dupe_check" then do
    let tok0 ← at_ toks 0
    let first ← lexical tok0
    let tok1 ← at_ toks 1
    let enabled ← env.BoolLexicalCast tok1
    InsertSetting env c (Setting.IntWithBool first enabled) opt
  else if opt = "requests" then do
    let tok0 ← at_ toks 0
    let tok1 ← at_ toks 1
    let max ← lexical tok1
    InsertSetting env c (Setting.RequestsOpt tok0 max) opt
  else if opt = "creditcheck" then do
    let path ← at_ toks 0
    let tok1 ← at_ toks 1
    let ratio ← lexical tok1
    InsertSetting env c (Setting.CreditcheckOpt path ratio (toks.drop 2)) opt
  else if opt = "creditloss" then do
    let tok0 ← at_ toks 0
    let multiplier ← lexical tok0
    let tok1 ← at_ toks 1
    let leechers ← env.BoolLexicalCast tok1
    let path ← at_ toks 2
    InsertSetting env c (Setting.CreditlossOpt multiplier leechers path (toks.drop 3)) opt
  else if opt = "nukedir_style" then do
    let tok0 ← at_ toks 0
    let tok1 ← at_ toks 1
    let method ← lexical tok1
    let tok2 ← at_ toks 2
    let emptyKb ← lexical tok2
    InsertSetting env c (Setting.NukedirStyleOpt tok0 method emptyKb) opt
  else if opt = "msg_path" then do
    let path ← at_ toks 0
    let filename ← at_ toks 1
    InsertSetting env c (Setting.MsgPathOpt path filename (toks.drop 2)) opt
  else if opt = "cscript" then do
    let tok0 ← at_ toks 0
    let tok1 ← at_ toks 1
    let tok2 ← at_ toks 2
    InsertSetting env c (Setting.CscriptOpt tok0 tok1 tok2) opt
  else if opt = "site_cmd" then do
    let command ← at_ toks 0
    let method ← at_ toks 1
    let method_ : SiteCmdMethod :=
      if to_lower method = "text" then SiteCmdMethod.TEXT
      else if to_lower method = "is" then SiteCmdMethod.IS
      else SiteCmdMethod.EXEC
    let path ← at_ toks 2
    InsertSetting env c (Setting.SiteCmdOpt command method_ path (toks.drop 3)) opt
  else if opt.data = [] then
    Except.error Exception.out_of_range
  else if opt.data.head? = some '-' then
    Except.ok c
  else if containsCustom opt then
    Except.ok c
  else
    Except.error (Exception.NoSetting ("Unable to find setting '" ++ opt ++ "'"))

/-- Models `Config::Parse` of the first parser: the line is split at every tab and space, the first
token is the option, and the empty tokens among the others are erased. -/
def Parse (env : Env) (c : Config) (line : String) : Except Exception Config :=
  match split line.data [] with
  | [] => Except.ok c
  | opt :: toks =>
    if opt.length = 0 then Except.ok c
    else SetSetting env c (to_lower opt) (toks.filter (fun tok => tok.length ≠ 0))

/-- The loop of the first-generation constructor over the lines read: empty lines and lines
starting with `#` are skipped, `NoSetting` is logged, every other exception is rethrown. -/
def parseLines (env : Env) : Config → List String → Except LoadError Config
  | c, [] => Except.ok c
  | c, line :: rest =>
    if line.length = 0 then parseLines env c rest
    else if line.data.head? = some '#' then parseLines env c rest
    else
      match Parse env c line with
      | Except.ok c' => parseLines env c' rest
      | Except.error (Exception.NoSetting _) => parseLines env c rest
      | Except.error e => Except.error (LoadError.rethrown e)

/-- The strings the loop `while (io.good()) { std::getline(io, line); ... }` sees: the lines of
the file, followed by one empty string when the last `getline` meets the end of the file without
reading a character. -/
def readLines (text : String) : List String :=
  if text.data.getLast? = some '\n' ∨ text.data = [] then getlines text ++ [""]
  else getlines text

/-- Models `Config::Config(config)` of the first parser.  `latestVersion` is the static counter
before the call and `io` the contents of the file, `none` when it cannot be opened; the result
is the counter after the call and the configuration or the exception thrown.  The counter is a
C++ `int`, bumped by `version(++latestVersion)`. -/
def Config.new (env : Env) (latestVersion : Int) (config : String) (io : Option String) :
    Int × Except LoadError Config :=
  (preIncrement latestVersion,
    match io with
    | none => Except.error LoadError.ConfigFileError
    | some text =>
      parseLines env { version := preIncrement latestVersion, config := config, settings := [] }
        (readLines text))

/-- The results of constructing first-generation configurations one after another, each
construction starting from the counter the previous one left. -/
def constructAll (env : Env) :
    Int → List (String × Option String) → List (Except LoadError Config)
  | _, [] => []
  | latestVersion, (config, io) :: rest =>
    (Config.new env latestVersion config io).2 ::
      constructAll env (Config.new env latestVersion config io).1 rest

/-- The version of a constructed configuration, `none` when the construction failed. -/
def versionOf (r : Except LoadError Config) : Option Int :=
  match r with
  | Except.ok c => some c.version
  | Except.error _ => none

/-- The result of a call, when it is a configuration, has the version of `c`. -/
def VersionKept (c : Config) (r : Except Exception Config) : Prop :=
  ∀ c', r = Except.ok c' → c'.version = c.version

/-- An environment in which no constructor throws. -/
def plainEnv : Env where
  construct := fun _ => none
  BoolLexicalCast := fun s =>
    if to_lower s = "yes" then Except.ok true
    else if to_lower s = "no" then Except.ok false
    else Except.error Exception.bad_lexical_cast

end legacy

/-! ## Definitions: the group cache (`src/src/db/group/groupcache.cpp`) -/

namespace acl

/-- Models `acl::Group`, with the members `src/src/db/group.cpp` reads and writes. -/
structure Group where
  id : Int
  name : String
  description : String
  comment : String
  slots : Int
  leechSlots : Int
  allotmentSlots : Int
  maxAllotmentSize : Int
  maxLogins : Int
  deriving DecidableEq, Repr

end acl

namespace db

/-- A `std::unordered_map` as `find` sees it: the value stored under each key, `none` for a key
that is absent. -/
abbrev Map (K V : Type) := K → Option V

/-- The map after `clear()`. -/
def Map.clear {K V : Type} : Map K V := fun _ => none

/-- The map after the assignment `m[k] = v`. -/
def Map.assign {K V : Type} [DecidableEq K] (m : Map K V) (k : K) (v : V) : Map K V :=
  fun key => if key = k then some v else m key

/-- The map after `m.erase(k)`. -/
def Map.erase {K V : Type} [DecidableEq K] (m : Map K V) (k : K) : Map K V :=
  fun key => if key = k then none else m key

/-- The two maps of `db::GroupCache`: `names` from group id to name and `gids` from name to
group id.  The mutexes are not modelled: every member function runs alone. -/
structure GroupCache where
  names : Map Int String
  gids : Map String Int

/-- Models `GroupPair`, the record a query for the fields `gid` and `name` yields. -/
structure GroupPair where
  gid : Int
  name : String
  deriving DecidableEq, Repr

/-- The part of a `mongo::BSONElement` that `Replicate` reads: `type()` and, for an element of
type 16 (a 32-bit integer), `Int()`. -/
structure BSONElement where
  type : Int
  int : Int
  deriving DecidableEq, Repr

/-- The answer of the store to `QueryOne<GroupPair>("groups", QUERY("gid" << gid))`:
`DBError` when the connection or the query throws, otherwise the group found, if any. -/
inductive QueryResult where
  | DBError
  | found (data : Option GroupPair)
  deriving DecidableEq, Repr

/-- Models `GroupCache::GIDToName`. -/
def GroupCache.GIDToName (cache : GroupCache) (gid : Int) : String :=
  if gid = -1 then "NoGroup"
  else
    match cache.names gid with
    | none => "unknown"
    | some name => name

/-- Models `GroupCache::NameToGID`. -/
def GroupCache.NameToGID (cache : GroupCache) (name : String) : Int :=
  match cache.gids name with
  | none => -1
  | some gid => gid

/-- Models `GroupCache::Replicate`: `query` is the store, the result is the value returned and
the cache afterwards. -/
def GroupCache.Replicate (query : Int → QueryResult) (cache : GroupCache) (id : BSONElement) :
    Bool × GroupCache :=
  if id.type ≠ 16 then (true, cache)
  else
    match query id.int with
    | QueryResult.DBError => (false, cache)
    | QueryResult.found (some data) =>
      (true, { gids := cache.gids.assign data.name data.gid,
               names := cache.names.assign data.gid data.name })
    | QueryResult.found none =>
      match cache.names id.int with
      | some name =>
        (true, { gids := cache.gids.erase name, names := cache.names.erase id.int })
      | none => (true, cache)

/-- The loop of `Populate` over the groups read from the store. -/
def GroupCache.fill (cache : GroupCache) : List acl.Group → GroupCache
  | [] => cache
  | group :: rest =>
    GroupCache.fill
      { gids := cache.gids.assign group.name group.id,
        names := cache.names.assign group.id group.name } rest

/-- Models `GroupCache::Populate`: `groups` is what `GetGroups()` returned; both maps are cleared
and then filled from the groups in order.  The result is the value returned and the cache
afterwards. -/
def GroupCache.Populate (groups : List acl.Group) (_cache : GroupCache) : Bool × GroupCache :=
  (true, GroupCache.fill { gids := Map.clear, names := Map.clear } groups)

/-- The names map and the gids map are mutual inverses: `names[g] = n` if and only if
`gids[n] = g`. -/
def GroupCache.Agree (cache : GroupCache) : Prop :=
  ∀ (g : Int) (n : String), cache.names g = some n ↔ cache.gids n = some g

/-- A cache holding the single group `5` named `old`. -/
def oneGroup : GroupCache :=
  { names := (Map.clear : Map Int String).assign 5 "old",
    gids := (Map.clear : Map String Int).assign "old" 5 }

/-- A group with the given id and name and nothing else of note. -/
def plainGroup (id : Int) (name : String) : acl.Group :=
  { id := id, name := name, description := "", comment := "", slots := 0, leechSlots := 0,
    allotmentSlots := 0, maxAllotmentSize := 0, maxLogins := 0 }

end db

/-! ## Definitions: `SITE GIVE` (`src/src/cmd/site/give.cpp`) -/

namespace cmd.site

open boost

/-- The value a signed 64-bit integer (`long long`) holds for an exact result: signed overflow,
undefined in C++, is taken to wrap around in two's complement. -/
def wrap64 (x : Int) : Int :=
  (x + 9223372036854775808) % 18446744073709551616 - 9223372036854775808

/-- Modelled from the spec: `acl::User`, declared in the absent `acl/user.hpp`.  Of the user of
the data model (default and per-section ratios, per-section credit balances in kilobytes) it
has what `GIVECommand::Execute` reads: `Name()`, `DefaultRatio()`, `SectionRatio(section)`, the
per-section override with -1 for "inherit", and the balance of each section, in kilobytes, a
signed 64-bit integer. -/
structure User where
  name : String
  defaultRatio : Int
  sectionRatio : String → Int
  sectionCredits : String → Int

/-- Modelled from the spec: `acl::User::IncrSectionCredits`, the operation
`credit(user, section, kb)`: the balance of the section, a signed 64-bit integer, grows by
`kBytes`. -/
def User.IncrSectionCredits (user : User) (section_ : String) (kBytes : Int) : User :=
  { user with
    sectionCredits := fun s =>
      if s = section_ then wrap64 (user.sectionCredits s + kBytes) else user.sectionCredits s }

/-- Modelled from the spec: `acl::User::DecrSectionCredits`, the operation
`debit(user, section, kb) → bool`: it refuses, changing nothing, when the balance would go
negative, and otherwise takes `kBytes` from the balance of the section. -/
def User.DecrSectionCredits (user : User) (section_ : String) (kBytes : Int) : Bool × User :=
  if user.sectionCredits section_ < kBytes then (false, user)
  else
    (true,
      { user with
        sectionCredits := fun s =>
          if s = section_ then wrap64 (user.sectionCredits s - kBytes)
          else user.sectionCredits s })

/-- What `give.cpp` uses but does not define: `Load` is `acl::User::Load` and `AllowSiteCmd` is
`acl::AllowSiteCmd`. -/
structure Env where
  Load : String → Option User
  AllowSiteCmd : User → String → Bool

/-- The reply codes `Execute` uses: `ftp::ActionNotOkay` and `ftp::CommandOkay`. -/
inductive ReplyCode where
  | ActionNotOkay
  | CommandOkay
  deriving DecidableEq, Repr

/-- The replies of `GIVECommand::Execute`, one constructor per call of `control.Reply`; `given`
carries whether the line about the caller's own credits was written, the credits and the name
of the recipient. -/
inductive Reply where
  | sectionMissing (section_ : String)
  | noSeparateCredits (section_ : String)
  | userMissing (name : String)
  | leech
  | notEnough
  | given (taken : Bool) (credits : Int) (name : String)
  deriving DecidableEq, Repr

/-- The code a reply is sent with. -/
def Reply.code : Reply → ReplyCode
  | Reply.given _ _ _ => ReplyCode.CommandOkay
  | _ => ReplyCode.ActionNotOkay

/-- The text a reply is sent with. -/
def Reply.message : Reply → String
  | Reply.sectionMissing section_ => "Section " ++ section_ ++ " doesn't exist."
  | Reply.noSeparateCredits section_ =>
    "Section " ++ section_ ++ " dosen't have separate credits."
  | Reply.userMissing name => "User " ++ name ++ " doesn't exist."
  | Reply.leech => "Not allowed to give credits when you have leech!"
  | Reply.notEnough => "Not enough credits to do that."
  | Reply.given taken credits name =>
    (if taken then "Taken " ++ toString credits ++ "KB credits from you!\n" else "") ++
      "Given " ++ toString credits ++ "KB credits to " ++ name ++ "."

/-- An exception leaving `Execute`: `cmd::SyntaxError`, the `std::out_of_range` of
`std::string::at`, or `undefined` for a read of `args[i]` past the end of the vector. -/
inductive Thrown where
  | SyntaxError
  | out_of_range
  | undefined
  deriving DecidableEq, Repr

/-- What a run of `Execute` leaves: the exception thrown, if any, the reply sent, if any, the
caller's user object `client.User()` and the recipient's user object `user` (when one was
loaded) as they are at the end. -/
structure Outcome where
  thrown : Option Thrown
  reply : Option Reply
  caller : User
  recipient : Option User

/-- Models `isalpha` in the "C" locale. -/
def isalpha (c : Char) : Bool := c.isAlpha

/-- The unit and the numeric part of the amount argument: the unit is `K`, or the last character
upper-cased when that character is a letter, which is then removed from the numeric part.
`none` is the `std::out_of_range` that `amount.at(amount.length()-1)` throws for an empty
amount. -/
def splitAmount (amount : String) : Option (String × String) :=
  match amount.data.getLast? with
  | none => none
  | some last =>
    if isalpha last then some (to_upper ⟨[last]⟩, ⟨amount.data.dropLast⟩)
    else some ("K", amount)

/-- The credits, in kilobytes, that the numeric part and the unit denote: `none` is the
`cmd::SyntaxError` thrown for a numeric part that is not an integer or is negative. -/
def parseCredits (type amount : String) : Option Int :=
  match lexical_cast_ll amount with
  | none => none
  | some credits =>
    if credits < 0 then none
    else if type = "G" then some (wrap64 (credits * (1024 * 1024)))
    else if type = "M" then some (wrap64 (credits * 1024))
    else some credits

/-- The part of `GIVECommand::Execute` after the `-s` block: `section_` is the section chosen
there (empty without `-s`) and `args` the arguments left. -/
def GIVECommand.give (env : Env) (caller : User) (section_ : String) (args : List String) :
    Outcome :=
  match args.get? 1 with
  | none =>
    { thrown := some Thrown.undefined, reply := none, caller := caller, recipient := none }
  | some name =>
    match env.Load name with
    | none =>
      { thrown := none, reply := some (Reply.userMissing name), caller := caller,
        recipient := none }
    | some user =>
      match args.get? 2 with
      | none =>
        { thrown := some Thrown.undefined, reply := none, caller := caller,
          recipient := some user }
      | some amount =>
        match splitAmount amount with
        | none =>
          { thrown := some Thrown.out_of_range, reply := none, caller := caller,
            recipient := some user }
        | some (type, amount) =>
          match parseCredits type amount with
          | none =>
            { thrown := some Thrown.SyntaxError, reply := none, caller := caller,
              recipient := some user }
          | some credits =>
            if env.AllowSiteCmd caller "giveown" ∧ ¬ env.AllowSiteCmd caller "give" then
              if caller.sectionRatio section_ = 0 ∨
                  (caller.sectionRatio section_ = -1 ∧ caller.defaultRatio = 0) then
                { thrown := none, reply := some Reply.leech, caller := caller,
                  recipient := some user }
              else if (caller.DecrSectionCredits section_ credits).1 then
                { thrown := none, reply := some (Reply.given true credits user.name),
                  caller := (caller.DecrSectionCredits section_ credits).2,
                  recipient := some (user.IncrSectionCredits section_ credits) }
              else
                { thrown := none, reply := some Reply.notEnough,
                  caller := (caller.DecrSectionCredits section_ credits).2,
                  recipient := some user }
            else
              { thrown := none, reply := some (Reply.given false credits user.name),
                caller := caller,
                recipient := some (user.IncrSectionCredits section_ credits) }

/-- Models `GIVECommand::Execute`: `config` is `cfg::Get()`, `caller` is `client.User()` and
`args` the arguments of the command, `args[0]` being the command word. -/
def GIVECommand.Execute (env : Env) (config : cfg.Config) (caller : User) (args : List String) :
    Outcome :=
  match args.get? 1 with
  | none =>
    { thrown := some Thrown.undefined, reply := none, caller := caller, recipient := none }
  | some arg1 =>
    if to_lower arg1 = "-s" then
      match args.get? 2 with
      | none =>
        { thrown := some Thrown.undefined, reply := none, caller := caller, recipient := none }
      | some arg2 =>
        if args.length < 5 then
          { thrown := some Thrown.SyntaxError, reply := none, caller := caller,
            recipient := none }
        else
          match config.sections.find? (fun kv => kv.1 = to_upper arg2) with
          | none =>
            { thrown := none, reply := some (Reply.sectionMissing (to_upper arg2)),
              caller := caller, recipient := none }
          | some kv =>
            if kv.2.separateCredits then
              GIVECommand.give env caller (to_upper arg2) (args.take 1 ++ args.drop 3)
            else
              { thrown := none, reply := some (Reply.noSeparateCredits (to_upper arg2)),
                caller := caller, recipient := none }
    else GIVECommand.give env caller "" args

/-- The value of a string of decimal digits, read from left to right. -/
def numeral (ds : List Char) : Nat := ds.foldl (fun n c => 10 * n + (c.toNat - 48)) 0

/-- The factor of a unit letter: 1048576 for `G` and `g`, 1024 for `M` and `m`, 1 for every
other suffix. -/
def unitFactor (unit : String) : Nat :=
  if to_upper unit = "G" then 1024 * 1024 else if to_upper unit = "M" then 1024 else 1

/-- The unit suffixes of an amount: none, or one of the letters K, M, G in either case. -/
def units : List String := ["", "K", "k", "M", "m", "G", "g"]

/-- An environment with the two users `alice` and `bob`, in which a user whose name is `alice`
holds `giveown` only and everybody else holds `give`. -/
def plainEnv : Env where
  Load := fun name =>
    if name = "bob" then
      some { name := "bob", defaultRatio := 3, sectionRatio := fun _ => -1,
             sectionCredits := fun _ => 0 }
    else if name = "alice" then
      some { name := "alice", defaultRatio := 3, sectionRatio := fun _ => -1,
             sectionCredits := fun _ => 100 }
    else none
  AllowSiteCmd := fun user keyword =>
    if user.name = "alice" then decide (keyword = "giveown") else decide (keyword = "give")

/-- A site operator, who holds `give`. -/
def siteop : User :=
  { name := "siteop", defaultRatio := 3, sectionRatio := fun _ => -1,
    sectionCredits := fun _ => 0 }

/-- The user `alice`, who holds `giveown` only, inherits every section ratio, has the default
ratio 3 and 100 KB in every section. -/
def alice : User :=
  { name := "alice", defaultRatio := 3, sectionRatio := fun _ => -1,
    sectionCredits := fun _ => 100 }

/-- The ratio `Execute` tests a caller's leech status with: the caller's per-section override
unless it is -1, and then the caller's default ratio. -/
def ownRatio (caller : User) (section_ : String) : Int :=
  if caller.sectionRatio section_ = -1 then caller.defaultRatio else caller.sectionRatio section_

/-- The effective ratio as the specification words it: the caller's per-section override if set
(not -1), otherwise the ratio of the section if the configuration gives it one (zero or
larger), otherwise the caller's default ratio. -/
def effectiveRatio (config : cfg.Config) (caller : User) (section_ : String) : Int :=
  if caller.sectionRatio section_ ≠ -1 then caller.sectionRatio section_
  else
    match config.sections.find? (fun kv => kv.1 = section_) with
    | some kv => if 0 ≤ kv.2.ratio then kv.2.ratio else caller.defaultRatio
    | none => caller.defaultRatio

/-- A configuration whose only section, `S`, has separate credits and the ratio 0. -/
def leechSection : cfg.Config :=
  (cfg.Config.initial 1 "ftpd.conf").setSections
    [("S", { name := "S", paths := ["/s"], separateCredits := true, ratio := 0 })]

end cmd.site

/-! ## Definitions: file operations (`src/fs/file.cpp`) -/

namespace fs

/-- The constant `dummySiteRoot` of the anonymous namespace of `file.cpp`. -/
def dummySiteRoot : String := "/home/bioboy/ftpd/site"

/-- The flags `file.cpp` passes to `open`. -/
inductive OpenFlag where
  | O_CREAT
  | O_WRONLY
  | O_EXCL
  | O_APPEND
  | O_RDONLY
  deriving DecidableEq, Repr

/-- A call into the operating system, with the path or paths it is given. -/
inductive Syscall where
  | unlink (path : String)
  | rename (oldpath newpath : String)
  | open_ (path : String) (flags : List OpenFlag) (mode : Option Nat)
  deriving DecidableEq, Repr

/-- What `file.cpp` uses but does not define: `os` is the operating system, giving the value a
call returns and the `errno` it leaves, and `join` is `fs::Path::operator/`.  A `fs::Path` is the
string it holds. -/
structure Env where
  os : Syscall → Int × Int
  join : String → String → String

/-- Models `util::Error`. -/
inductive Error where
  | Success
  | Failure (errno : Int)
  deriving DecidableEq, Repr

/-- The outcome of opening a stream: the descriptor the stream wraps, or the `util::SystemError`
thrown with the `errno`. -/
inductive Stream where
  | stream (fd : Int)
  | SystemError (errno : Int)
  deriving DecidableEq, Repr

/-- A run of one of the functions: the call it made and what it returned or threw. -/
structure Run (α : Type) where
  call : Syscall
  result : α

/-- Models `fs::DeleteFile(const Path&)`. -/
def DeleteFile (env : Env) (path : String) : Run Error :=
  { call := Syscall.unlink (dummySiteRoot ++ path)
    result :=
      if (env.os (Syscall.unlink (dummySiteRoot ++ path))).1 < 0 then
        Error.Failure (env.os (Syscall.unlink (dummySiteRoot ++ path))).2
      else Error.Success }

/-- Models `fs::DeleteFile(const ftp::Client&, const Path&)`; `workDir` is
`client.WorkDir()`. -/
def DeleteFileIn (env : Env) (workDir path : String) : Run Error :=
  DeleteFile env (env.join workDir path)

/-- Models `fs::RenameFile(const Path&, const Path&)`. -/
def RenameFile (env : Env) (oldPath newPath : String) : Run Error :=
  { call := Syscall.rename (dummySiteRoot ++ oldPath) (dummySiteRoot ++ newPath)
    result :=
      if (env.os (Syscall.rename (dummySiteRoot ++ oldPath) (dummySiteRoot ++ newPath))).1 < 0
      then
        Error.Failure
          (env.os (Syscall.rename (dummySiteRoot ++ oldPath) (dummySiteRoot ++ newPath))).2
      else Error.Success }

/-- Models `fs::RenameFile(const ftp::Client&, const Path&, const Path&)`. -/
def RenameFileIn (env : Env) (workDir oldPath newPath : String) : Run Error :=
  RenameFile env (env.join workDir oldPath) (env.join workDir newPath)

/-- The common end of `CreateFile`, `AppendFile` and `OpenFile`: `open` is called and a negative
descriptor is thrown as `util::SystemError`. -/
def openStream (env : Env) (call : Syscall) : Run Stream :=
  { call := call
    result :=
      if (env.os call).1 < 0 then Stream.SystemError (env.os call).2
      else Stream.stream (env.os call).1 }

/-- Models `fs::CreateFile(const Path&)`; the mode is octal 0777. -/
def CreateFile (env : Env) (path : String) : Run Stream :=
  openStream env
    (Syscall.open_ (dummySiteRoot ++ path)
      [OpenFlag.O_CREAT, OpenFlag.O_WRONLY, OpenFlag.O_EXCL] (some 511))

/-- Models `fs::CreateFile(const ftp::Client&, const Path&)`. -/
def CreateFileIn (env : Env) (workDir path : String) : Run Stream :=
  CreateFile env (env.join workDir path)

/-- Models `fs::AppendFile(const Path&)`. -/
def AppendFile (env : Env) (path : String) : Run Stream :=
  openStream env
    (Syscall.open_ (dummySiteRoot ++ path) [OpenFlag.O_WRONLY, OpenFlag.O_APPEND] none)

/-- Models `fs::AppendFile(const ftp::Client&, const Path&)`. -/
def AppendFileIn (env : Env) (workDir path : String) : Run Stream :=
  AppendFile env (env.join workDir path)

/-- Models `fs::OpenFile(const Path&)`. -/
def OpenFile (env : Env) (path : String) : Run Stream :=
  openStream env (Syscall.open_ (dummySiteRoot ++ path) [OpenFlag.O_RDONLY] none)

/-- Models `fs::OpenFile(const ftp::Client&, const Path&)`. -/
def OpenFileIn (env : Env) (workDir path : String) : Run Stream :=
  OpenFile env (env.join workDir path)

/-- The paths a call hands to the operating system. -/
def Syscall.paths : Syscall → List String
  | Syscall.unlink path => [path]
  | Syscall.rename oldpath newpath => [oldpath, newpath]
  | Syscall.open_ path _ _ => [path]

/-- An operating system on which every call succeeds, and a join that puts a slash between the
working directory and the path. -/
def plainEnv : Env where
  os := fun _ => (3, 0)
  join := fun workDir path => workDir ++ "/" ++ path

end fs

/-! ## Definitions: section blocks and checked values of the current parser -/

namespace cfg

open boost std

/-- The options `ParseSection` accepts. -/
def sectionOptions : List String := ["path", "ratio", "separate_credits", "endsection"]

/-- The options of a section block that assign a member of the section. -/
def sectionSettings : List String := ["path", "ratio", "separate_credits"]

/-- A value that is negative or not an integer, as `boost::lexical_cast<int>` reads it. -/
def badValue (tok : String) : Bool :=
  match lexical_cast_int tok with
  | none => true
  | some n => decide (n < 0)

/-- The configuration after `Config::Parse` has counted the option of a line in
`settingsCache`, before it hands the line to `ParseSection` or `ParseGlobal`. -/
def counted (c : Config) (opt : String) : Config :=
  c.setSettingsCache (bump c.settingsCache (to_lower opt))

/-- The ratios and depths of a configuration are zero or larger: `maximumRatio`,
`cacheReplicate`, `dirSizeDepth`, and the ratio of every section unless it still has the value
the constructor of `Section` gave it. -/
def NonNegative (env : Env) (c : Config) : Prop :=
  0 ≤ c.maximumRatio ∧ 0 ≤ c.cacheReplicate ∧ 0 ≤ c.dirSizeDepth ∧
    ∀ kv ∈ c.sections, kv.2.ratio = env.sectionRatio ∨ 0 ≤ kv.2.ratio

/-- A step of the parser keeps the ratios and depths zero or larger unless it throws
`ConfigError`. -/
def KeepsNonNegative (env : Env) (c : Config) (o : Outcome) : Prop :=
  NonNegative env c → (∀ m, o.2 ≠ some (Thrown.ConfigError m)) → NonNegative env o.1

/-- The section block is as it was: the same current section and the same sections. -/
def SameSections (c c' : Config) : Prop :=
  c'.currentSection = c.currentSection ∧ c'.sections = c.sections

/-- Of a configuration only the section with the given key may differ: the current section is
the same, every other member is the same, the keys of `sections` are the same in the same
order, and every entry under another key is still there. -/
def OnlySection (key : String) (c c' : Config) : Prop :=
  c'.currentSection = c.currentSection ∧ c' = c.setSections c'.sections ∧
    c'.sections.map (fun kv => kv.1) = c.sections.map (fun kv => kv.1) ∧
    ∀ kv ∈ c.sections, kv.1 ≠ key → kv ∈ c'.sections

/-- A configuration text with the required settings, a `maximum_ratio` line and a section with
a `ratio` line. -/
def ratioText : String :=
  "sitepath /site\ndatapath /data\nport 21\nvalid_ip 10.0.0.1\nmaximum_ratio 4\n" ++
    "section a\nratio 3\nendsection\n"

/-- The configuration that loading `ratioText` constructs. -/
def ratioLoaded : Config :=
  match (Config.new plainEnv 0 "ftpd.conf" (some ratioText)).2 with
  | Except.ok c => c
  | Except.error _ => Config.initial 0 "ftpd.conf"

/-- The configuration after the line `section a` of an otherwise empty file: inside the block
of section `A`. -/
def insideA : Config := (Parse plainEnv (Config.initial 1 "ftpd.conf") "section a").1

end cfg

/-! ## Definitions: saving and serialising a group (`src/src/db/group.cpp`) -/

namespace db

/-- The value of a BSON element as `group.cpp` appends and reads it: a string or a number.  The
BSON number types are not told apart, the declared types of the members of `acl::Group` being in
the absent `acl/group.hpp`. -/
inductive BSONValue where
  | str (s : String)
  | num (n : Int)
  deriving DecidableEq, Repr

/-- A `mongo::BSONObj`: its elements in the order they were appended. -/
abbrev BSONObj := List (String × BSONValue)

/-- Models `obj[key]`: the value of the first element with that key, `none` for the end-of-object
element a missing key gives. -/
def BSONObj.get (obj : BSONObj) (key : String) : Option BSONValue :=
  (obj.find? (fun kv => kv.1 = key)).map (fun kv => kv.2)

/-- Models `obj[key].String()`: `none` is the `mongo::DBException` thrown when the element is
not a string. -/
def BSONObj.getString (obj : BSONObj) (key : String) : Option String :=
  match obj.get key with
  | some (BSONValue.str s) => some s
  | _ => none

/-- Models `obj[key].Int()` and `obj[key].Long()`: `none` is the `mongo::DBException` thrown when
the element is not a number. -/
def BSONObj.getInt (obj : BSONObj) (key : String) : Option Int :=
  match obj.get key with
  | some (BSONValue.num n) => some n
  | _ => none

/-- Models `Serialize<acl::Group>`: the elements in the order of the `append` calls. -/
def Serialize (group : acl.Group) : BSONObj :=
  [("name", BSONValue.str group.name),
   ("gid", BSONValue.num group.id),
   ("description", BSONValue.str group.description),
   ("slots", BSONValue.num group.slots),
   ("leech slots", BSONValue.num group.leechSlots),
   ("allotment slots", BSONValue.num group.allotmentSlots),
   ("max allotment size", BSONValue.num group.maxAllotmentSize),
   ("max logins", BSONValue.num group.maxLogins),
   ("comment", BSONValue.str group.comment)]

/-- Models `Unserialize<acl::Group>`: the members are read in the order of the source, `slots`
twice; `none` is the `mongo::DBException` that is logged and thrown again. -/
def Unserialize (obj : BSONObj) : Option acl.Group := do
  let id ← obj.getInt "gid"
  let name ← obj.getString "name"
  let description ← obj.getString "description"
  let comment ← obj.getString "comment"
  let _ ← obj.getInt "slots"
  let leechSlots ← obj.getInt "leech slots"
  let allotmentSlots ← obj.getInt "allotment slots"
  let maxAllotmentSize ← obj.getInt "max allotment size"
  let slots ← obj.getInt "slots"
  let maxLogins ← obj.getInt "max logins"
  pure { id := id, name := name, description := description, comment := comment,
         slots := slots, leechSlots := leechSlots, allotmentSlots := allotmentSlots,
         maxAllotmentSize := maxAllotmentSize, maxLogins := maxLogins }

/-- The call `conn.SetField(collection, QUERY("gid" << gid), group, field)` a save method
makes. -/
structure SetFieldCall where
  collection : String
  gid : Int
  group : acl.Group
  field : String
  deriving DecidableEq, Repr

/-- Models `Group::SaveField`. -/
def Group.SaveField (group : acl.Group) (field : String) : SetFieldCall :=
  { collection := "groups", gid := group.id, group := group, field := field }

/-- Models `Group::SaveName`, which makes the call itself on a `SafeConnection`. -/
def Group.SaveName (group : acl.Group) : SetFieldCall :=
  { collection := "groups", gid := group.id, group := group, field := "name" }

/-- Models `Group::SaveDescription`. -/
def Group.SaveDescription (group : acl.Group) : SetFieldCall :=
  Group.SaveField group "description"

/-- Models `Group::SaveComment`. -/
def Group.SaveComment (group : acl.Group) : SetFieldCall := Group.SaveField group "comment"

/-- Models `Group::SaveSlots`. -/
def Group.SaveSlots (group : acl.Group) : SetFieldCall := Group.SaveField group "slots"

/-- Models `Group::SaveLeechSlots`. -/
def Group.SaveLeechSlots (group : acl.Group) : SetFieldCall :=
  Group.SaveField group "leech slots"

/-- Models `Group::SaveAllotmentSlots`. -/
def Group.SaveAllotmentSlots (group : acl.Group) : SetFieldCall :=
  Group.SaveField group "allotment slots"

/-- Models `Group::SaveMaxAllotmentSize`. -/
def Group.SaveMaxAllotmentSize (group : acl.Group) : SetFieldCall :=
  Group.SaveField group "max allotment size"

/-- Models `Group::SaveMaxLogins`. -/
def Group.SaveMaxLogins (group : acl.Group) : SetFieldCall :=
  Group.SaveField group "max logins"

/-- The eight single-field save methods, each with the attribute of the group it is named
after, as the BSON value of that attribute. -/
def saveMethods : List ((acl.Group → SetFieldCall) × (acl.Group → BSONValue)) :=
  [(Group.SaveName, fun g => BSONValue.str g.name),
   (Group.SaveDescription, fun g => BSONValue.str g.description),
   (Group.SaveComment, fun g => BSONValue.str g.comment),
   (Group.SaveSlots, fun g => BSONValue.num g.slots),
   (Group.SaveLeechSlots, fun g => BSONValue.num g.leechSlots),
   (Group.SaveAllotmentSlots, fun g => BSONValue.num g.allotmentSlots),
   (Group.SaveMaxAllotmentSize, fun g => BSONValue.num g.maxAllotmentSize),
   (Group.SaveMaxLogins, fun g => BSONValue.num g.maxLogins)]

/-- A group whose attributes all differ. -/
def sampleGroup : acl.Group :=
  { id := 7, name := "staff", description := "the staff", comment := "none", slots := 1,
    leechSlots := 2, allotmentSlots := 3, maxAllotmentSize := 4, maxLogins := 5 }

end db

/-! ## Definitions: the amount argument of `SITE GIVE` as the specification words it -/

namespace cmd.site

open boost

/-- The numeric part of an amount as the specification words it: the amount after removing one
trailing letter, if any. -/
def numericPart (amount : String) : String :=
  match amount.data.getLast? with
  | some last => if isalpha last then ⟨amount.data.dropLast⟩ else amount
  | none => amount

/-- A numeric part that is empty, not an integer (as `boost::lexical_cast<long long>` reads it)
or negative. -/
def badNumber (number : String) : Bool :=
  match lexical_cast_ll number with
  | none => true
  | some n => decide (n < 0)

end cmd.site

/-! ## Definitions: members an option leaves alone, and the tokens of `bouncer_ip` lines -/

namespace cfg

open boost std

/-- The member `f` of the configuration is as it was. -/
def SameField {α : Type} (f : Config → α) (c c' : Config) : Prop := f c' = f c

/-- The tokens of a line that `Config::Parse` hands to an option with the given keyword: the
tokens after the first, when the first, lower-cased, is the keyword; none otherwise. -/
def tokensOf (keyword line : String) : List String :=
  match tokenize line with
  | [] => []
  | opt :: toks => if to_lower opt = keyword then toks else []

/-- The tokens given on a line of the configuration file if it is a `bouncer_ip` line: the tokens
after the keyword of the line without its comment. -/
def bouncerTokens (line : String) : List String := tokensOf "bouncer_ip" (stripComment line)

/-- A configuration text with the required settings and two `bouncer_ip` lines. -/
def bouncerText : String :=
  "sitepath /site\ndatapath /data\nport 21\nvalid_ip 10.0.0.1\n" ++
    "bouncer_ip 10.0.0.2 10.0.0.3\nBouncer_IP 10.0.0.4 # the third\n"

/-- The configuration that loading `bouncerText` constructs. -/
def bouncerLoaded : Config :=
  match (Config.new plainEnv 0 "ftpd.conf" (some bouncerText)).2 with
  | Except.ok c => c
  | Except.error _ => Config.initial 0 "ftpd.conf"

/-- The configuration after the lines `site_cmd hello EXEC /bin/hello x` and `custom-hello !*`
of an otherwise empty file. -/
def customHello : Config :=
  (Parse plainEnv (Parse plainEnv (Config.initial 1 "ftpd.conf")
    "site_cmd hello EXEC /bin/hello x").1 "custom-hello !*").1

end cfg

/-! ## Definitions: comments and blank lines, and the keys of the sections -/

namespace cfg

open boost std

/-- A line that is empty or consists only of spaces and tabs. -/
def blank (line : String) : Bool := line.data.all (fun ch => ch = ' ' || ch = '\t')

/-- The lines of a configuration text without what is insignificant: on each line everything
from the first `#` onward is deleted, and then the lines that are empty or consist only of
spaces and tabs are deleted. -/
def significant (lines : List String) : List String :=
  (lines.map stripComment).filter (fun line => !blank line)

/-- The keys of `sections` are pairwise distinct and each is the upper-cased form of some
name. -/
def SectionKeys (c : Config) : Prop :=
  (c.sections.map (fun kv => kv.1)).Nodup ∧ ∀ kv ∈ c.sections, ∃ name, kv.1 = to_upper name

/-- The configuration after the lines `section a` and `endsection` of an otherwise empty file:
the section `A` is declared and no block is open. -/
def afterA : Config := (Parse plainEnv insideA "endsection").1

/-- A configuration text with comments, blank lines and a comment-only line. -/
def commentedText : String :=
  "# site\n\nsitepath /site # root\n \t \ndatapath /data\nport 21\n   # nothing\n" ++
    "valid_ip 10.0.0.1\n"

/-- The text `commentedText` without its comments and blank lines. -/
def plainText : String := "sitepath /site \ndatapath /data\nport 21\nvalid_ip 10.0.0.1\n"

end cfg

/-! ## `ftp::util`: the ASCII translations -/

namespace ftp.util

theorem getD_snoc_lt (s : List UInt8) (c : UInt8) (i : Nat) (h : i < s.length) :
    (s ++ [c]).getD i 0 = s.getD i 0 := by
  simp [List.getD_eq_getElem?_getD, List.getElem?_append_left h]

theorem getD_snoc_length (s : List UInt8) (c : UInt8) :
    (s ++ [c]).getD s.length 0 = c := by
  simp [List.getD_eq_getElem?_getD]

theorem getD_pred_length (s : List UInt8) (h : s ≠ []) :
    s.getD (s.length - 1) 0 = s.getLast h := by
  rw [List.getLast_eq_getElem]
  have : s.length - 1 < s.length := by
    have := List.length_pos.mpr h; omega
  simp [List.getD_eq_getElem?_getD, List.getElem?_eq_getElem this]

/-- One more iteration of the loop of `LFtoCRLF`: the last byte of the source is pushed, after a
CR when it is an LF that is neither the first byte nor preceded by a CR. -/
theorem LFtoCRLF_snoc (s : List UInt8) (c : UInt8) :
    LFtoCRLF (s ++ [c]) =
      LFtoCRLF s ++ (if c = LF ∧ s ≠ [] ∧ s.getLast? ≠ some CR then [CR, c] else [c]) := by
  unfold LFtoCRLF
  rw [List.length_append, List.length_singleton, List.range_succ, List.foldl_append]
  have hpre : ∀ (a : List UInt8), ∀ i ∈ List.range s.length,
      (fun dest i =>
        let dest := if (s ++ [c]).getD i 0 = LF ∧ i ≠ 0 ∧ (s ++ [c]).getD (i - 1) 0 ≠ CR
                    then dest ++ [CR] else dest
        dest ++ [(s ++ [c]).getD i 0]) a i =
      (fun dest i =>
        let dest := if s.getD i 0 = LF ∧ i ≠ 0 ∧ s.getD (i - 1) 0 ≠ CR
                    then dest ++ [CR] else dest
        dest ++ [s.getD i 0]) a i := by
    intro a i hi
    have hi' : i < s.length := List.mem_range.mp hi
    have hi'' : i - 1 < s.length := by omega
    simp only [getD_snoc_lt s c i hi', getD_snoc_lt s c (i - 1) hi'']
  rw [List.foldl_ext _ _ _ hpre]
  simp only [List.foldl_cons, List.foldl_nil, getD_snoc_length]
  by_cases hs : s = []
  · subst hs; simp
  · have hlen : s.length ≠ 0 := by
      intro h; exact hs (List.length_eq_zero.mp h)
    have hlast : (s ++ [c]).getD (s.length - 1) 0 = s.getLast hs := by
      rw [getD_snoc_lt s c _ (by omega), getD_pred_length s hs]
    rw [hlast, List.getLast?_eq_getLast s hs]
    by_cases hc : c = LF ∧ s.getLast hs ≠ CR
    · have h1 : c = LF ∧ s.length ≠ 0 ∧ s.getLast hs ≠ CR := ⟨hc.1, hlen, hc.2⟩
      have h2 : c = LF ∧ s ≠ [] ∧ some (s.getLast hs) ≠ some CR :=
        ⟨hc.1, hs, by simpa using hc.2⟩
      rw [if_pos h1, if_pos h2]; simp
    · have h1 : ¬ (c = LF ∧ s.length ≠ 0 ∧ s.getLast hs ≠ CR) :=
        fun h => hc ⟨h.1, h.2.2⟩
      have h2 : ¬ (c = LF ∧ s ≠ [] ∧ some (s.getLast hs) ≠ some CR) :=
        fun h => hc ⟨h.1, by simpa using h.2.2⟩
      rw [if_neg h1, if_neg h2]

/-- One more iteration of the loop of `CRLFtoLF`. -/
theorem CRLFtoLF_snoc (s : List UInt8) (c : UInt8) :
    CRLFtoLF (s ++ [c]) = CRLFtoLF s ++ (if c ≠ CR then [c] else []) := by
  unfold CRLFtoLF
  rw [List.length_append, List.length_singleton, List.range_succ, List.foldl_append]
  have hpre : ∀ (a : List UInt8), ∀ i ∈ List.range s.length,
      (fun dest i =>
        if (s ++ [c]).getD i 0 ≠ CR then dest ++ [(s ++ [c]).getD i 0] else dest) a i =
      (fun dest i => if s.getD i 0 ≠ CR then dest ++ [s.getD i 0] else dest) a i := by
    intro a i hi
    simp only [getD_snoc_lt s c i (List.mem_range.mp hi)]
  rw [List.foldl_ext _ _ _ hpre]
  simp only [List.foldl_cons, List.foldl_nil, getD_snoc_length]
  split <;> simp

theorem CRLFtoLF_eq_filter (s : List UInt8) :
    CRLFtoLF s = s.filter (fun c => decide (c ≠ CR)) := by
  induction s using List.reverseRecOn with
  | nil => rfl
  | append_singleton s c ih =>
    rw [CRLFtoLF_snoc, ih, List.filter_append]
    by_cases hc : c = CR <;> simp [hc]

/-- Removing the CR bytes from the output of `LFtoCRLF` is removing them from its input. -/
theorem filter_LFtoCRLF (s : List UInt8) :
    (LFtoCRLF s).filter (fun c => decide (c ≠ CR)) = s.filter (fun c => decide (c ≠ CR)) := by
  induction s using List.reverseRecOn with
  | nil => rfl
  | append_singleton s c ih =>
    rw [LFtoCRLF_snoc, List.filter_append, ih, List.filter_append]
    congr 1
    split
    · rw [List.filter_cons]
      simp
    · rfl

/-- Lemma: the empty buffer has no LF byte. -/
theorem everyLF_nil : EveryLFAfterCR [] := by
  intro pre post h
  cases pre <;> simp at h

theorem everyLF_snoc (out : List UInt8) (c : UInt8) (h : EveryLFAfterCR out)
    (hc : c = LF → ∃ pre', out = pre' ++ [CR]) : EveryLFAfterCR (out ++ [c]) := by
  intro pre post hsplit
  rcases List.eq_nil_or_concat post with hpost | ⟨post', d, hpost⟩
  · subst hpost
    have h2 := List.append_inj' hsplit rfl
    obtain ⟨h3, h4⟩ := h2
    simp only [List.cons.injEq, and_true] at h4
    obtain ⟨pre', hpre⟩ := hc h4
    exact ⟨pre', h3 ▸ hpre⟩
  · subst hpost
    have hsplit' : out ++ [c] = (pre ++ LF :: post') ++ [d] := by
      rw [hsplit]; simp
    have h2 := List.append_inj' hsplit' rfl
    exact h pre post' h2.1

theorem LFtoCRLF_getLast (s : List UInt8) : (LFtoCRLF s).getLast? = s.getLast? := by
  induction s using List.reverseRecOn with
  | nil => rfl
  | append_singleton s c _ =>
    rw [LFtoCRLF_snoc]
    split <;> simp [List.getLast?_append]

theorem getLast_eq_some_CR (out : List UInt8) (h : out.getLast? = some CR) :
    ∃ pre', out = pre' ++ [CR] := by
  rcases List.eq_nil_or_concat out with hout | ⟨pre', d, hout⟩
  · subst hout; simp at h
  · subst hout
    simp at h
    exact ⟨pre', by rw [h]; simp⟩

/-- Lemma: when the source does not start with an LF byte, every LF byte of the output of
`LFtoCRLF` is immediately preceded by a CR byte. -/
theorem LFtoCRLF_guarded (s : List UInt8) (h : s.head? ≠ some LF) :
    EveryLFAfterCR (LFtoCRLF s) := by
  induction s using List.reverseRecOn with
  | nil => exact everyLF_nil
  | append_singleton s c ih =>
    rw [LFtoCRLF_snoc]
    by_cases hs : s = []
    · subst hs
      have hc : c ≠ LF := by
        intro e; apply h; simp [e]
      simp only [ne_eq, not_true_eq_false, false_and, and_false, if_false]
      exact everyLF_snoc _ _ everyLF_nil (fun e => absurd e hc)
    · have hhead : s.head? ≠ some LF := by
        intro e; apply h
        cases s with
        | nil => exact absurd rfl hs
        | cons a t => simpa using e
      have ih' := ih hhead
      split
      · rename_i hcond
        have h1 : EveryLFAfterCR (LFtoCRLF s ++ [CR]) :=
          everyLF_snoc _ _ ih' (fun e => absurd e (by decide))
        have h2 : EveryLFAfterCR ((LFtoCRLF s ++ [CR]) ++ [c]) :=
          everyLF_snoc _ _ h1 (fun _ => ⟨LFtoCRLF s, rfl⟩)
        simpa using h2
      · rename_i hcond
        apply everyLF_snoc _ _ ih'
        intro hc
        have hlast : s.getLast? = some CR := by
          by_contra hne
          exact hcond ⟨hc, hs, hne⟩
        exact getLast_eq_some_CR _ ((LFtoCRLF_getLast s).trans hlast)

theorem LFtoCRLF_guarded_witness :
    ([65, LF, CR, LF] : List UInt8).head? ≠ some LF ∧
      EveryLFAfterCR (LFtoCRLF [65, LF, CR, LF]) :=
  ⟨by decide, LFtoCRLF_guarded [65, LF, CR, LF] (by decide)⟩

/-- C1, on the failing input: for the one-byte buffer holding a bare LF, `LFtoCRLF` returns the
buffer unchanged, so its output has an LF byte that no CR byte precedes.  (For a source that
does not start with LF the property holds, see `LFtoCRLF_guarded`.) -/
theorem LFtoCRLF_leading_LF_kept :
    LFtoCRLF [LF] = [LF] ∧ ¬ EveryLFAfterCR (LFtoCRLF [LF]) := by
  refine ⟨by decide, ?_⟩
  intro h
  have hout : LFtoCRLF [LF] = [] ++ LF :: [] := by decide
  obtain ⟨pre', hpre⟩ := h [] [] hout
  cases pre' <;> simp at hpre

/-- C2: for every input buffer, `CRLFtoLF` returns the input with every CR byte removed and all
other bytes kept in order; its output contains no CR byte and is never longer than the input. -/
theorem CRLFtoLF_removes_exactly_CR (source : List UInt8) :
    CRLFtoLF source = source.filter (fun c => decide (c ≠ CR)) ∧
    CR ∉ CRLFtoLF source ∧
    (CRLFtoLF source).length ≤ source.length := by
  refine ⟨CRLFtoLF_eq_filter source, ?_, ?_⟩
  · rw [CRLFtoLF_eq_filter]; simp [List.mem_filter]
  · rw [CRLFtoLF_eq_filter]; exact List.length_filter_le _ _

/-- C3: ASCII round trip.  For every buffer `s` in canonical LF form (no CR byte),
`CRLFtoLF (LFtoCRLF s) = s`. -/
theorem ascii_round_trip (s : List UInt8) (h : CR ∉ s) : CRLFtoLF (LFtoCRLF s) = s := by
  rw [CRLFtoLF_eq_filter, filter_LFtoCRLF, List.filter_eq_self]
  intro a ha
  have : a ≠ CR := fun e => h (e ▸ ha)
  simpa using this

theorem ascii_round_trip_witness :
    CR ∉ [LF, 65, LF, 66] ∧ CRLFtoLF (LFtoCRLF [LF, 65, LF, 66]) = [LF, 65, LF, 66] :=
  ⟨by decide, ascii_round_trip [LF, 65, LF, 66] (by decide)⟩

end ftp.util

/-! ## The current configuration parser: what no option assigns -/

namespace cfg

open boost std

theorem SameHeader.refl (c : Config) : SameHeader c c := ⟨rfl, rfl, rfl⟩

theorem header_ite (c : Config) (cond : Prop) [Decidable cond] (a b : Outcome)
    (ha : cond → SameHeader c a.1) (hb : ¬cond → SameHeader c b.1) :
    SameHeader c (if cond then a else b).1 := by
  split
  · exact ha ‹_›
  · exact hb ‹_›

theorem header_checked (c : Config) (check : Option Thrown) (k : Outcome)
    (h : SameHeader c k.1) : SameHeader c (checked c check k).1 := by
  unfold checked; split
  · exact SameHeader.refl c
  · exact h

theorem header_built (c : Config) (t : Option Thrown) (c' : Config)
    (h : SameHeader c c') : SameHeader c (built c t c').1 := by
  unfold built; split
  · exact SameHeader.refl c
  · exact h

theorem header_stored (c : Config) (tok : String) (set : Int → Config)
    (h : ∀ n, SameHeader c (set n)) : SameHeader c (stored c tok set).1 := by
  unfold stored; split
  · exact h _
  · exact SameHeader.refl c

theorem header_storedNonNegative (c : Config) (tok : String) (set : Int → Config) (m : String)
    (h : ∀ n, SameHeader c (set n)) : SameHeader c (storedNonNegative c tok set m).1 := by
  unfold storedNonNegative; split
  · split <;> exact h _
  · exact SameHeader.refl c

theorem header_storedBool (env : Env) (c : Config) (tok : String) (set : Bool → Config)
    (h : ∀ b, SameHeader c (set b)) : SameHeader c (storedBool env c tok set).1 := by
  unfold storedBool; split
  · exact h _
  · exact SameHeader.refl c

/-- Lemma: `ParseGlobal` assigns neither the version, nor the file name, nor the cache of seen
settings, whether it throws or not. -/
theorem ParseGlobal_header (env : Env) (c : Config) (opt : String) (toks : List String) :
    SameHeader c (ParseGlobal env c opt toks).1 := by
  unfold ParseGlobal
  repeat' first
    | (apply header_ite <;> intro _)
    | apply header_checked
    | apply header_built
    | (apply header_stored; intro _)
    | (apply header_storedNonNegative; intro _)
    | (apply header_storedBool; intro _)
    | exact ⟨rfl, rfl, rfl⟩
    | split

/-- Lemma: `ParseSection` assigns neither the version, nor the file name, nor the cache of seen
settings. -/
theorem ParseSection_header (env : Env) (c : Config) (opt : String) (toks : List String) :
    SameHeader c (ParseSection env c opt toks).1 := by
  unfold ParseSection
  repeat' first
    | (apply header_ite <;> intro _)
    | apply header_checked
    | apply header_built
    | (apply header_storedNonNegative; intro _)
    | (apply header_storedBool; intro _)
    | exact ⟨rfl, rfl, rfl⟩
    | split

theorem any_key_bump (cache : List (String × Nat)) (opt k : String)
    (h : (bump cache opt).any (fun kv => decide (kv.1 = k)) = true) :
    cache.any (fun kv => decide (kv.1 = k)) = true ∨ k = opt := by
  unfold bump at h
  split at h
  · left
    rw [List.any_map] at h
    have hfun : ((fun kv : String × Nat => decide (kv.1 = k)) ∘
        fun kv : String × Nat => if kv.1 = opt then (kv.1, kv.2 + 1) else kv) =
        fun kv : String × Nat => decide (kv.1 = k) := by
      funext kv
      simp only [Function.comp]
      split <;> rfl
    rw [hfun] at h
    exact h
  · rw [List.any_append] at h
    simp only [List.any_cons, List.any_nil, Bool.or_false, Bool.or_eq_true,
      decide_eq_true_eq] at h
    rcases h with h | h
    · left; simpa using h
    · right; exact h.symm

/-- Lemma: `Parse` leaves the version and the file name alone. -/
theorem Parse_version (env : Env) (c : Config) (line : String) :
    (Parse env c line).1.version = c.version ∧ (Parse env c line).1.configFile = c.configFile := by
  unfold Parse
  split
  · exact ⟨rfl, rfl⟩
  · split
    · exact ⟨rfl, rfl⟩
    · simp only []
      split
      · have h := ParseSection_header env
          (c.setSettingsCache (bump c.settingsCache (to_lower ‹String›))) (to_lower ‹String›)
          ‹List String›
        exact ⟨h.1, h.2.1⟩
      · have h := ParseGlobal_header env
          (c.setSettingsCache (bump c.settingsCache (to_lower ‹String›))) (to_lower ‹String›)
          ‹List String›
        exact ⟨h.1, h.2.1⟩

/-- A setting is in the cache after `Parse` only if it was there before or is the keyword of the
line. -/
theorem Parse_cache (env : Env) (c : Config) (line k : String)
    (h : CheckSetting (Parse env c line).1 k = true) :
    CheckSetting c k = true ∨ keywordOf line = some k := by
  unfold Parse at h
  unfold keywordOf
  split at h
  · left; exact h
  · rename_i opt toks heq
    split at h
    · left; exact h
    · rename_i hlen
      rw [if_neg hlen]
      simp only [] at h
      have hcache : ∀ o : Outcome,
          SameHeader (c.setSettingsCache (bump c.settingsCache (to_lower opt))) o.1 →
          CheckSetting o.1 k = true → CheckSetting c k = true ∨ some (to_lower opt) = some k := by
        intro o ho hk
        unfold CheckSetting at hk
        rw [ho.2.2] at hk
        rcases any_key_bump c.settingsCache (to_lower opt) k hk with h1 | h1
        · left; exact h1
        · right; rw [h1]
      split at h
      · exact hcache _ (ParseSection_header env _ _ _) h
      · exact hcache _ (ParseGlobal_header env _ _ _) h

/-- The loop over the lines keeps the version, and a setting is in the cache afterwards only if
it was there before or is the option keyword of one of the lines. -/
theorem parseLines_spec (env : Env) (lines : List String) :
    ∀ (c : Config) (okay : Bool) (c' : Config) (okay' : Bool),
      parseLines env c okay lines = Except.ok (c', okay') →
      c'.version = c.version ∧
      ∀ k, CheckSetting c' k = true →
        CheckSetting c k = true ∨ ∃ line ∈ lines, optionKeyword line = some k := by
  induction lines with
  | nil =>
    intro c okay c' okay' h
    simp only [parseLines, Except.ok.injEq, Prod.mk.injEq] at h
    obtain ⟨rfl, _⟩ := h
    exact ⟨rfl, fun k hk => Or.inl hk⟩
  | cons line rest ih =>
    intro c okay c' okay' h
    have step : ∀ (c1 : Config) (okay1 : Bool),
        parseLines env c1 okay1 rest = Except.ok (c', okay') →
        c1.version = c.version →
        (∀ k, CheckSetting c1 k = true → CheckSetting c k = true ∨ optionKeyword line = some k) →
        c'.version = c.version ∧
        ∀ k, CheckSetting c' k = true →
          CheckSetting c k = true ∨ ∃ l ∈ line :: rest, optionKeyword l = some k := by
      intro c1 okay1 h1 hv hc
      obtain ⟨hv', hc'⟩ := ih c1 okay1 c' okay' h1
      refine ⟨hv'.trans hv, fun k hk => ?_⟩
      rcases hc' k hk with h2 | ⟨l, hl, hk'⟩
      · rcases hc k h2 with h3 | h3
        · exact Or.inl h3
        · exact Or.inr ⟨line, List.mem_cons_self _ _, h3⟩
      · exact Or.inr ⟨l, List.mem_cons_of_mem _ hl, hk'⟩
    unfold parseLines at h
    split at h
    · exact step c okay h rfl (fun k hk => Or.inl hk)
    · rename_i hlen
      have hkw : optionKeyword line = keywordOf (stripComment line) := by
        unfold optionKeyword; rw [if_neg hlen]
      have hP := Parse_cache env c (stripComment line)
      have hV := (Parse_version env c (stripComment line)).1
      split at h
      · rename_i c1 heq
        rw [heq] at hP hV
        exact step c1 okay h hV (fun k hk => hkw ▸ hP k hk)
      · rename_i c1 msg heq
        rw [heq] at hP hV
        exact step c1 false h hV (fun k hk => hkw ▸ hP k hk)
      · rename_i c1 heq
        rw [heq] at hP hV
        exact step c1 okay h hV (fun k hk => hkw ▸ hP k hk)
      · exact absurd h (by simp)

/-- Lemma: `SanityCheck` succeeds only when every required setting is in the cache, and it keeps the
version. -/
theorem SanityCheck_spec (env : Env) (c c' : Config) (h : SanityCheck env c = Except.ok c') :
    c'.version = c.version ∧ ∀ k ∈ requiredSettings, CheckSetting c k = true := by
  unfold SanityCheck at h
  split at h
  · exact absurd h (by simp)
  · rename_i hfind
    simp only [Except.ok.injEq] at h
    refine ⟨?_, ?_⟩
    · rw [← h]
      split <;> split <;> rfl
    · intro k hk
      have := List.find?_eq_none.mp hfind k hk
      simpa using this

/-- What a successful construction implies: the version is the counter plus one and every
required setting is the option keyword of some line of the file. -/
theorem Config_new_ok (env : Env) (latestVersion : Int) (configFile : String)
    (io : Option String) (c : Config)
    (h : (Config.new env latestVersion configFile io).2 = Except.ok c) :
    c.version = preIncrement latestVersion ∧
    ∃ text, io = some text ∧
      ∀ k ∈ requiredSettings, ∃ line ∈ getlines text, optionKeyword line = some k := by
  unfold Config.new at h
  simp only [] at h
  split at h
  · exact absurd h (by simp)
  · rename_i text
    split at h
    · exact absurd h (by simp)
    · rename_i c1 okay hparse
      split at h
      · obtain ⟨hv, hc⟩ := parseLines_spec env (getlines text) _ _ _ _ hparse
        obtain ⟨hv', hreq⟩ := SanityCheck_spec env c1 c h
        refine ⟨hv'.trans hv, text, rfl, fun k hk => ?_⟩
        rcases hc k (hreq k hk) with h0 | h0
        · exact absurd h0 (by simp [CheckSetting, Config.initial])
        · exact h0
      · exact absurd h (by simp)

end cfg

namespace cfg

open boost std

/-- Lemma: below the largest `int` the pre-increment adds one. -/
theorem preIncrement_of_lt (v : Int) (h0 : -2147483648 ≤ v) (h1 : v < 2147483647) :
    preIncrement v = v + 1 := by
  unfold preIncrement
  omega

theorem Config_new_counter (env : Env) (latestVersion : Int) (configFile : String)
    (io : Option String) :
    (Config.new env latestVersion configFile io).1 = preIncrement latestVersion :=
  rfl

theorem versionOf_new (env : Env) (latestVersion : Int) (configFile : String)
    (io : Option String) :
    versionOf (Config.new env latestVersion configFile io).2 = none ∨
    versionOf (Config.new env latestVersion configFile io).2 =
      some (preIncrement latestVersion) := by
  cases h : (Config.new env latestVersion configFile io).2 with
  | error e => left; rfl
  | ok c =>
    right
    have := (Config_new_ok env latestVersion configFile io c h).1
    simp [versionOf, this]

theorem versions_increasing (env : Env) (files : List (String × Option String)) :
    ∀ latestVersion : Int, -2147483648 ≤ latestVersion →
      latestVersion + files.length ≤ 2147483647 →
      ((constructAll env latestVersion files).filterMap versionOf).Pairwise (fun a b => a < b) ∧
      ∀ x ∈ (constructAll env latestVersion files).filterMap versionOf, latestVersion < x := by
  induction files with
  | nil => intro v _ _; simp [constructAll]
  | cons file rest ih =>
    intro v hlow hhigh
    obtain ⟨configFile, io⟩ := file
    have hlen : ((configFile, io) :: rest).length = rest.length + 1 := rfl
    rw [hlen] at hhigh
    push_cast at hhigh
    have hpre : preIncrement v = v + 1 := preIncrement_of_lt v hlow (by omega)
    obtain ⟨hp, hlt⟩ := ih (v + 1) (by omega) (by omega)
    have hrest : ∀ x ∈ (constructAll env (v + 1) rest).filterMap versionOf, v < x :=
      fun x hx => by have := hlt x hx; omega
    simp only [constructAll, Config_new_counter, hpre]
    rcases versionOf_new env v configFile io with h | h
    · rw [List.filterMap_cons_none h]
      exact ⟨hp, hrest⟩
    · rw [hpre] at h
      rw [List.filterMap_cons_some h]
      refine ⟨List.pairwise_cons.mpr ⟨fun y hy => hlt y hy, hp⟩, ?_⟩
      intro x hx
      rcases List.mem_cons.mp hx with hx | hx
      · omega
      · exact hrest x hx

end cfg

namespace legacy

open boost std

theorem kept_ite (c : Config) (cond : Prop) [Decidable cond] (a b : Except Exception Config)
    (ha : VersionKept c a) (hb : VersionKept c b) : VersionKept c (if cond then a else b) := by
  split
  · exact ha
  · exact hb

theorem kept_bind {α : Type} (c : Config) (x : Except Exception α)
    (f : α → Except Exception Config) (h : ∀ a, VersionKept c (f a)) :
    VersionKept c (x >>= f) := by
  intro c' hc
  cases x with
  | error e => exact absurd hc (by simp [bind, Except.bind])
  | ok a => exact h a c' hc

theorem kept_insert (env : Env) (c : Config) (value : Setting) (opt : String) :
    VersionKept c (InsertSetting env c value opt) := by
  intro c' hc
  unfold InsertSetting at hc
  split at hc
  · exact absurd hc (by simp)
  · simp only [Except.ok.injEq] at hc
    rw [← hc]

theorem kept_ok (c : Config) : VersionKept c (Except.ok c) := by
  intro c' hc
  simp only [Except.ok.injEq] at hc
  rw [← hc]

theorem kept_error (c : Config) (e : Exception) : VersionKept c (Except.error e) := by
  intro c' hc
  exact absurd hc (by simp)

/-- Lemma: `SetSetting` of the first parser never assigns the version. -/
theorem legacy_SetSetting_version (env : Env) (c : Config) (opt : String) (toks : List String) :
    VersionKept c (SetSetting env c opt toks) := by
  unfold SetSetting
  repeat' first
    | apply kept_ite
    | (apply kept_bind; intro _)
    | apply kept_insert
    | apply kept_ok
    | apply kept_error

theorem legacy_Parse_version (env : Env) (c : Config) (line : String) :
    VersionKept c (Parse env c line) := by
  unfold Parse
  split
  · exact kept_ok c
  · split
    · exact kept_ok c
    · exact legacy_SetSetting_version env c _ _

theorem legacy_parseLines_version (env : Env) (lines : List String) :
    ∀ c c', parseLines env c lines = Except.ok c' → c'.version = c.version := by
  induction lines with
  | nil =>
    intro c c' h
    simp only [parseLines, Except.ok.injEq] at h
    rw [← h]
  | cons line rest ih =>
    intro c c' h
    unfold parseLines at h
    split at h
    · exact ih c c' h
    · split at h
      · exact ih c c' h
      · split at h
        · rename_i c1 heq
          exact (ih c1 c' h).trans (legacy_Parse_version env c line c1 heq)
        · exact ih c c' h
        · exact absurd h (by simp)

theorem legacy_Config_new_counter (env : Env) (latestVersion : Int) (config : String)
    (io : Option String) :
    (Config.new env latestVersion config io).1 = preIncrement latestVersion := rfl

theorem legacy_versionOf_new (env : Env) (latestVersion : Int) (config : String)
    (io : Option String) :
    versionOf (Config.new env latestVersion config io).2 = none ∨
    versionOf (Config.new env latestVersion config io).2 =
      some (preIncrement latestVersion) := by
  cases h : (Config.new env latestVersion config io).2 with
  | error e => left; rfl
  | ok c =>
    right
    unfold Config.new at h
    simp only [] at h
    split at h
    · exact absurd h (by simp)
    · have := legacy_parseLines_version env _ _ _ h
      simp [versionOf, this]

theorem legacy_versions_increasing (env : Env) (files : List (String × Option String)) :
    ∀ latestVersion : Int, -2147483648 ≤ latestVersion →
      latestVersion + files.length ≤ 2147483647 →
      ((constructAll env latestVersion files).filterMap versionOf).Pairwise (fun a b => a < b) ∧
      ∀ x ∈ (constructAll env latestVersion files).filterMap versionOf, latestVersion < x := by
  induction files with
  | nil => intro v _ _; simp [constructAll]
  | cons file rest ih =>
    intro v hlow hhigh
    obtain ⟨config, io⟩ := file
    have hlen : ((config, io) :: rest).length = rest.length + 1 := rfl
    rw [hlen] at hhigh
    push_cast at hhigh
    have hpre : preIncrement v = v + 1 := cfg.preIncrement_of_lt v hlow (by omega)
    obtain ⟨hp, hlt⟩ := ih (v + 1) (by omega) (by omega)
    have hrest : ∀ x ∈ (constructAll env (v + 1) rest).filterMap versionOf, v < x :=
      fun x hx => by have := hlt x hx; omega
    simp only [constructAll, legacy_Config_new_counter, hpre]
    rcases legacy_versionOf_new env v config io with h | h
    · rw [List.filterMap_cons_none h]
      exact ⟨hp, hrest⟩
    · rw [hpre] at h
      rw [List.filterMap_cons_some h]
      refine ⟨List.pairwise_cons.mpr ⟨fun y hy => hlt y hy, hp⟩, ?_⟩
      intro x hx
      rcases List.mem_cons.mp hx with hx | hx
      · omega
      · exact hrest x hx

end legacy

/-! ## The configuration parsers: the properties claimed -/

namespace cfg

open boost std

/-- The section `SectionMatch` returns is the first one, in the iteration order of `sections`,
that matches the path. -/
theorem SectionMatch_eq_some_iff (env : Env) (c : Config) (path : String) (s : Section) :
    SectionMatch env c path = some s ↔
      ∃ key pre post, c.sections = pre ++ (key, s) :: post ∧ env.IsMatch s path = true ∧
        ∀ kv ∈ pre, env.IsMatch kv.2 path = false := by
  unfold SectionMatch
  constructor
  · intro h
    rw [Option.map_eq_some'] at h
    obtain ⟨kv, hfind, hs⟩ := h
    obtain ⟨hp, pre, post, hsplit, hpre⟩ := List.find?_eq_some.mp hfind
    refine ⟨kv.1, pre, post, ?_, ?_, ?_⟩
    · rw [hsplit, ← hs]
    · rw [← hs]; exact hp
    · intro a ha
      simpa using hpre a ha
  · rintro ⟨key, pre, post, hsplit, hs, hpre⟩
    rw [Option.map_eq_some']
    refine ⟨(key, s), List.find?_eq_some.mpr ⟨hs, pre, post, hsplit, ?_⟩, rfl⟩
    intro a ha
    simp [hpre a ha]

/-- C4: for every configuration text, if one of the four required settings `sitepath`,
`datapath`, `port`, `valid_ip` is the option keyword of no line, constructing `Config` fails. -/
theorem required_setting_absent_fails (env : Env) (latestVersion : Int) (configFile text : String)
    (k : String) (hk : k ∈ requiredSettings)
    (habsent : ∀ line ∈ getlines text, optionKeyword line ≠ some k) :
    ∃ e, (Config.new env latestVersion configFile (some text)).2 = Except.error e := by
  cases h : (Config.new env latestVersion configFile (some text)).2 with
  | error e => exact ⟨e, rfl⟩
  | ok c =>
    obtain ⟨_, text', htext, hreq⟩ := Config_new_ok env latestVersion configFile (some text) c h
    simp only [Option.some.injEq] at htext
    subst htext
    obtain ⟨line, hline, hkw⟩ := hreq k hk
    exact absurd hkw (habsent line hline)

set_option maxRecDepth 100000 in
theorem required_setting_absent_fails_witness :
    "port" ∈ requiredSettings ∧
    (∀ line ∈ getlines "sitepath /site\ndatapath /data\nvalid_ip 10.0.0.1\n",
      optionKeyword line ≠ some "port") ∧
    ∃ e, (Config.new plainEnv 0 "ftpd.conf"
      (some "sitepath /site\ndatapath /data\nvalid_ip 10.0.0.1\n")).2 = Except.error e :=
  ⟨by decide, by decide,
    required_setting_absent_fails plainEnv 0 "ftpd.conf"
      "sitepath /site\ndatapath /data\nvalid_ip 10.0.0.1\n" "port" (by decide) (by decide)⟩

set_option maxRecDepth 100000 in
/-- C5, on the failing input: in the file `sitepath /site`, `datapath /data`, `port abc`,
`total_users -5`, `valid_ip 10.0.0.1` the lines `port abc` and `total_users -5` make `Parse`
raise a conversion error (`std::bad_cast`), yet constructing `Config` succeeds, with `port` and
`totalUsers` left at their initial values `-1` and `20`. -/
theorem bad_cast_does_not_abort_load :
    (Parse plainEnv (Config.initial 1 "ftpd.conf") "port abc").2 = some Thrown.bad_cast ∧
    (Parse plainEnv (Config.initial 1 "ftpd.conf") "total_users -5").2 = some Thrown.bad_cast ∧
    (Config.new plainEnv 0 "ftpd.conf"
      (some "sitepath /site\ndatapath /data\nport abc\ntotal_users -5\nvalid_ip 10.0.0.1\n")
      ).2.toOption.map (fun c => (c.port, c.totalUsers)) = some (-1, 20) := by
  decide

set_option maxRecDepth 100000 in
/-- C6, counterexample: the counter `latestVersion` is an `int`.  When its previous value is
2147483647, the largest `int`, a construction that succeeds gets the version -2147483648, not
the previous value plus one; and of two configurations constructed one after the other from the
counter 2147483646 the first has the version 2147483647 and the second -2147483648, so the
versions are not increasing.  The same holds for the first-generation parser. -/
theorem version_wraps_at_largest_int :
    (Config.new plainEnv 2147483647 "ftpd.conf" (some bouncerText)).1 = -2147483648 ∧
    versionOf (Config.new plainEnv 2147483647 "ftpd.conf" (some bouncerText)).2 =
      some (-2147483648) ∧
    (constructAll plainEnv 2147483646
      [("a.conf", some bouncerText), ("b.conf", some bouncerText)]).filterMap versionOf =
        [2147483647, -2147483648] ∧
    (legacy.constructAll legacy.plainEnv 2147483646
      [("a.conf", some ""), ("b.conf", some "")]).filterMap legacy.versionOf =
        [2147483647, -2147483648] ∧
    ¬ ((2147483647 : Int) < -2147483648) := by
  decide

/-- C6, amended: every construction of a `Config` for which the previous value of the counter
`latestVersion` is below 2147483647 (the largest `int`) takes the counter to its previous value
plus one and, when it produces a configuration, gives it that value as version; so the versions
of the configurations constructed one after another are strictly increasing and pairwise
distinct as long as the counter does not pass 2147483647.  This holds for the current parser and
for the first-generation parser. -/
theorem version_is_fresh (env : Env) (lenv : legacy.Env) (latestVersion : Int)
    (configFile : String) (io : Option String) (files : List (String × Option String))
    (hlow : -2147483648 ≤ latestVersion) (hhigh : latestVersion < 2147483647)
    (hfiles : latestVersion + files.length ≤ 2147483647) :
    ((Config.new env latestVersion configFile io).1 = latestVersion + 1 ∧
     (∀ c, (Config.new env latestVersion configFile io).2 = Except.ok c →
       c.version = latestVersion + 1) ∧
     ((constructAll env latestVersion files).filterMap versionOf).Pairwise (fun a b => a < b) ∧
     ((constructAll env latestVersion files).filterMap versionOf).Nodup) ∧
    ((legacy.Config.new lenv latestVersion configFile io).1 = latestVersion + 1 ∧
     (∀ c, (legacy.Config.new lenv latestVersion configFile io).2 = Except.ok c →
       c.version = latestVersion + 1) ∧
     ((legacy.constructAll lenv latestVersion files).filterMap legacy.versionOf).Pairwise
       (fun a b => a < b) ∧
     ((legacy.constructAll lenv latestVersion files).filterMap legacy.versionOf).Nodup) := by
  have hpre : preIncrement latestVersion = latestVersion + 1 :=
    preIncrement_of_lt latestVersion hlow hhigh
  have h1 := (versions_increasing env files latestVersion hlow hfiles).1
  have h2 := (legacy.legacy_versions_increasing lenv files latestVersion hlow hfiles).1
  refine ⟨⟨?_, ?_, h1, ?_⟩, ⟨?_, ?_, h2, ?_⟩⟩
  · rw [Config_new_counter, hpre]
  · intro c hc
    rw [(Config_new_ok env latestVersion configFile io c hc).1, hpre]
  · exact h1.imp (fun h => ne_of_lt h)
  · rw [legacy.legacy_Config_new_counter, hpre]
  · intro c hc
    rcases legacy.legacy_versionOf_new lenv latestVersion configFile io with h | h
    · rw [hc] at h
      exact absurd h (by simp [legacy.versionOf])
    · rw [hc, hpre] at h
      simpa [legacy.versionOf] using h
  · exact h2.imp (fun h => ne_of_lt h)

set_option maxRecDepth 100000 in
theorem version_is_fresh_witness :
    ((-2147483648 : Int) ≤ 0 ∧ (0 : Int) < 2147483647 ∧
      (0 : Int) + [("a.conf", some bouncerText), ("b.conf", (none : Option String)),
        ("c.conf", some bouncerText)].length ≤ 2147483647 ∧
      (Config.new plainEnv 0 "ftpd.conf" (some bouncerText)).2 = Except.ok bouncerLoaded) ∧
    bouncerLoaded.version = 0 + 1 ∧
    (constructAll plainEnv 0 [("a.conf", some bouncerText), ("b.conf", none),
      ("c.conf", some bouncerText)]).filterMap versionOf = [1, 3] ∧
    ((constructAll plainEnv 0 [("a.conf", some bouncerText), ("b.conf", none),
      ("c.conf", some bouncerText)]).filterMap versionOf).Pairwise (fun a b => a < b) :=
  ⟨⟨by decide, by decide, by decide, by decide⟩,
    (version_is_fresh plainEnv legacy.plainEnv 0 "ftpd.conf" (some bouncerText)
      [("a.conf", some bouncerText), ("b.conf", none), ("c.conf", some bouncerText)]
      (by decide) (by decide) (by decide)).1.2.1 bouncerLoaded (by decide),
    by decide,
    (version_is_fresh plainEnv legacy.plainEnv 0 "ftpd.conf" (some bouncerText)
      [("a.conf", some bouncerText), ("b.conf", none), ("c.conf", some bouncerText)]
      (by decide) (by decide) (by decide)).1.2.2.1⟩

set_option maxRecDepth 100000 in
/-- C7, counterexample: the file declares section `B` first and section `A` second, both with
the path `/x`; with a container that iterates in key order both sections match `/x`, and
`SectionMatch` returns `A`, the section declared second. -/
theorem SectionMatch_not_first_declared :
    (Config.new plainEnv 0 "ftpd.conf"
      (some ("sitepath /site\ndatapath /data\nport 21\nvalid_ip 10.0.0.1\n" ++
        "section B\npath /x\nendsection\nsection A\npath /x\nendsection\n"))
      ).2.toOption.map
        (fun c => (c.sections.map (fun kv => (kv.1, plainEnv.IsMatch kv.2 "/x")),
          (SectionMatch plainEnv c "/x").map (fun s => s.name))) =
      some ([("A", true), ("B", true)], some "A") := by
  decide

/-- C7, amended: for every path and every configuration, `SectionMatch` returns the first
section, in the iteration order of the `sections` container, that matches the path: it returns
`s` exactly when `s` matches and no entry that iterates before it does. -/
theorem SectionMatch_first_in_iteration_order (env : Env) (c : Config) (path : String)
    (s : Section) :
    SectionMatch env c path = some s ↔
      ∃ key pre post, c.sections = pre ++ (key, s) :: post ∧ env.IsMatch s path = true ∧
        ∀ kv ∈ pre, env.IsMatch kv.2 path = false :=
  SectionMatch_eq_some_iff env c path s

/-- C8: `SectionMatch` returns no section exactly when no section of the configuration matches
the path, and a section it returns is one of the configuration and matches the path. -/
theorem SectionMatch_none_iff_no_match (env : Env) (c : Config) (path : String) :
    (SectionMatch env c path = none ↔ ∀ kv ∈ c.sections, env.IsMatch kv.2 path = false) ∧
    (∀ s, SectionMatch env c path = some s →
      env.IsMatch s path = true ∧ ∃ key, (key, s) ∈ c.sections) := by
  constructor
  · unfold SectionMatch
    rw [Option.map_eq_none', List.find?_eq_none]
    constructor
    · intro h kv hkv; simpa using h kv hkv
    · intro h kv hkv; simp [h kv hkv]
  · intro s hs
    obtain ⟨key, pre, post, hsplit, hm, _⟩ :=
      (SectionMatch_eq_some_iff env c path s).mp hs
    exact ⟨hm, key, by rw [hsplit]; simp⟩

theorem SectionMatch_none_iff_no_match_witness :
    SectionMatch plainEnv twoSections "/x" =
      some { name := "A", paths := ["/x"], separateCredits := false, ratio := -1 } ∧
    plainEnv.IsMatch { name := "A", paths := ["/x"], separateCredits := false, ratio := -1 }
      "/x" = true ∧
    ∃ key, (key, ({ name := "A", paths := ["/x"], separateCredits := false, ratio := -1 } :
      Section)) ∈ twoSections.sections :=
  ⟨by decide, (SectionMatch_none_iff_no_match plainEnv twoSections "/x").2 _ (by decide)⟩

/-- C9: outside a section block each of `reload_config`, `mmap_amount`, `dl_send_file`,
`ul_buffered_force`, `ignore_size`, `file_dl_count`, `use_dir_size`, `pwd_path` and `grp_path` is
a no-op: for every argument list `ParseGlobal` raises no error and returns the configuration
unchanged. -/
theorem not_implemented_options_are_no_ops (env : Env) (c : Config) (toks : List String) :
    ParseGlobal env c "reload_config" toks = (c, none) ∧
    ParseGlobal env c "mmap_amount" toks = (c, none) ∧
    ParseGlobal env c "dl_send_file" toks = (c, none) ∧
    ParseGlobal env c "ul_buffered_force" toks = (c, none) ∧
    ParseGlobal env c "ignore_size" toks = (c, none) ∧
    ParseGlobal env c "file_dl_count" toks = (c, none) ∧
    ParseGlobal env c "use_dir_size" toks = (c, none) ∧
    ParseGlobal env c "pwd_path" toks = (c, none) ∧
    ParseGlobal env c "grp_path" toks = (c, none) :=
  ⟨rfl, rfl, rfl, rfl, rfl, rfl, rfl, rfl, rfl⟩

/-- C10, counterexample: the current parser's `ParseGlobal` rejects the line `alais /a /b` with
the unknown-option error. -/
theorem alais_rejected_by_ParseGlobal :
    (ParseGlobal plainEnv (Config.initial 1 "ftpd.conf") "alais" ["/a", "/b"]).2 =
      some (Thrown.ConfigError "Invalid global config option: alais") := by
  decide

/-- C10, amended: a line `alias <a> <b>` is accepted as the alias option by the current
parser's `ParseGlobal` (the pair is appended to the alias list unless the constructor of the
entry throws), and a line `alais <a> <b>` by the first parser's `SetSetting` (the pair is
inserted under that key), each without an unknown-option error; the current parser's
`ParseGlobal` answers `alais` with the unknown-option `ConfigError`. -/
theorem each_generation_accepts_its_spelling (env : Env) (lenv : legacy.Env) (c : Config)
    (lc : legacy.Config) (a b : String) :
    ParseGlobal env c "alias" [a, b] =
      built c (env.construct "alias" [a, b]) (c.setAlias (c.alias_ ++ [Value.make [a, b]])) ∧
    legacy.SetSetting lenv lc "alais" [a, b] =
      legacy.InsertSetting lenv lc (legacy.Setting.PathWithArgument a b) "alais" ∧
    ParseGlobal env c "alais" [a, b] =
      (c, some (Thrown.ConfigError "Invalid global config option: alais")) := by
  refine ⟨?_, rfl, rfl⟩
  cases h : env.exactArity <;> simp [ParseGlobal, checked, ParameterCheck3, ParameterCheck, h]

end cfg

namespace legacy

/-- The first parser's `SetSetting` has no branch for the spelling `alias`: it throws
`NoSetting`, which the constructor logs before going on to the next line. -/
theorem SetSetting_alias (env : Env) (c : Config) (toks : List String) :
    SetSetting env c "alias" toks =
      Except.error (Exception.NoSetting "Unable to find setting 'alias'") := rfl

end legacy

/-! ## The group cache -/

namespace db

theorem assign_same {K V : Type} [DecidableEq K] (m : Map K V) (k : K) (v : V) :
    m.assign k v k = some v := by simp [Map.assign]

theorem assign_other {K V : Type} [DecidableEq K] (m : Map K V) (k k' : K) (v : V)
    (h : k' ≠ k) : m.assign k v k' = m k' := by simp [Map.assign, h]

theorem erase_same {K V : Type} [DecidableEq K] (m : Map K V) (k : K) :
    m.erase k k = none := by simp [Map.erase]

theorem erase_other {K V : Type} [DecidableEq K] (m : Map K V) (k k' : K) (h : k' ≠ k) :
    m.erase k k' = m k' := by simp [Map.erase, h]

/-- C11: `GIDToName gid` is `NoGroup` for gid -1 whatever the cache holds; for any other gid it
is the cached name when gid is a key of the names map and `unknown` when it is not.
`NameToGID name` is the cached gid when name is a key of the gids map and -1 otherwise. -/
theorem lookups_never_invent (cache : GroupCache) (gid : Int) (name : String) :
    cache.GIDToName (-1) = "NoGroup" ∧
    (gid ≠ -1 →
      (∀ n, cache.names gid = some n → cache.GIDToName gid = n) ∧
      (cache.names gid = none → cache.GIDToName gid = "unknown")) ∧
    (∀ g, cache.gids name = some g → cache.NameToGID name = g) ∧
    (cache.gids name = none → cache.NameToGID name = -1) := by
  refine ⟨by simp [GroupCache.GIDToName], ?_, ?_, ?_⟩
  · intro hg
    constructor
    · intro n hn
      simp [GroupCache.GIDToName, hg, hn]
    · intro hn
      simp [GroupCache.GIDToName, hg, hn]
  · intro g hgid
    simp [GroupCache.NameToGID, hgid]
  · intro hnone
    simp [GroupCache.NameToGID, hnone]

theorem lookups_never_invent_witness :
    oneGroup.GIDToName 5 = "old" ∧ oneGroup.GIDToName 6 = "unknown" ∧
    oneGroup.NameToGID "old" = 5 ∧ oneGroup.NameToGID "new" = -1 :=
  ⟨((lookups_never_invent oneGroup 5 "old").2.1 (by decide)).1 "old" (by decide),
   ((lookups_never_invent oneGroup 6 "old").2.1 (by decide)).2 (by decide),
   (lookups_never_invent oneGroup 5 "old").2.2.1 5 (by decide),
   (lookups_never_invent oneGroup 5 "new").2.2.2 (by decide)⟩

/-- Lemma: the cache holding the single group 5 named `old` has its two maps in agreement. -/
theorem oneGroup_agree : oneGroup.Agree := by
  intro g n
  simp only [oneGroup, Map.assign, Map.clear]
  by_cases hg : g = 5 <;> by_cases hn : n = "old" <;> simp [hg, hn]
  · exact fun h => hn h.symm
  · exact fun h => hg h.symm

/-- Lemma: when the store has no group with the replicated gid, `Replicate` keeps the two maps in
agreement. -/
theorem Replicate_agree_not_found (query : Int → QueryResult) (cache : GroupCache)
    (id : BSONElement) (h : cache.Agree) (hq : query id.int = QueryResult.found none) :
    (cache.Replicate query id).2.Agree := by
  unfold GroupCache.Replicate
  split
  · exact h
  · rw [hq]
    simp only []
    cases hname : cache.names id.int with
    | none => exact h
    | some name =>
      intro g n
      simp only [Map.erase]
      have hgid : cache.gids name = some id.int := (h id.int name).mp hname
      by_cases hg : g = id.int
      · subst hg
        simp only [if_true]
        by_cases hn : n = name
        · simp [hn]
        · simp only [if_neg hn]
          constructor
          · intro h0; exact absurd h0 (by simp)
          · intro h1
            have := (h id.int n).mpr h1
            rw [hname] at this
            exact absurd (Option.some.inj this).symm hn
      · simp only [if_neg hg]
        by_cases hn : n = name
        · subst hn
          simp only [if_true]
          constructor
          · intro h0
            have := (h g n).mp h0
            rw [hgid] at this
            exact absurd (Option.some.inj this).symm hg
          · intro h1; exact absurd h1 (by simp)
        · simp only [if_neg hn]
          exact h g n

/-- Lemma: when the store returns the group under the name the cache already has for it,
`Replicate` leaves both maps as they were. -/
theorem Replicate_same_name (query : Int → QueryResult) (cache : GroupCache)
    (id : BSONElement) (data : GroupPair) (h : cache.Agree)
    (hq : query id.int = QueryResult.found (some data))
    (hname : cache.names data.gid = some data.name) :
    (cache.Replicate query id).2.names = cache.names ∧
    (cache.Replicate query id).2.gids = cache.gids ∧
    (cache.Replicate query id).2.Agree := by
  have hgid : cache.gids data.name = some data.gid := (h data.gid data.name).mp hname
  have hn : cache.names.assign data.gid data.name = cache.names := by
    funext g
    by_cases hg : g = data.gid
    · subst hg; simp [Map.assign, hname]
    · simp [Map.assign, hg]
  have hg : cache.gids.assign data.name data.gid = cache.gids := by
    funext n
    by_cases hn' : n = data.name
    · subst hn'; simp [Map.assign, hgid]
    · simp [Map.assign, hn']
  unfold GroupCache.Replicate
  split
  · exact ⟨rfl, rfl, h⟩
  · rw [hq]
    simp only [hn, hg]
    exact ⟨trivial, trivial, h⟩

/-- C12, on the failing input: the cache holds group 5 under the name `old`, its two maps in
agreement, and the store returns group 5 under the changed name `new`.  `Replicate` returns
true and afterwards `names[5]` is `new` while `gids` still maps `old` to 5: the maps are no
longer mutual inverses. -/
theorem Replicate_rename_breaks_agreement :
    oneGroup.Agree ∧
    (oneGroup.Replicate (fun _ => QueryResult.found (some { gid := 5, name := "new" }))
      { type := 16, int := 5 }).1 = true ∧
    (oneGroup.Replicate (fun _ => QueryResult.found (some { gid := 5, name := "new" }))
      { type := 16, int := 5 }).2.names 5 = some "new" ∧
    (oneGroup.Replicate (fun _ => QueryResult.found (some { gid := 5, name := "new" }))
      { type := 16, int := 5 }).2.gids "old" = some 5 ∧
    ¬ (oneGroup.Replicate (fun _ => QueryResult.found (some { gid := 5, name := "new" }))
      { type := 16, int := 5 }).2.Agree := by
  refine ⟨oneGroup_agree, by decide, by decide, by decide, ?_⟩
  intro h
  have h1 := (h 5 "old").mpr (by decide)
  exact absurd h1 (by decide)

/-- Lemma: `fill` leaves the entries of the names map whose gid belongs to none of the groups,
and the entries of the gids map whose name belongs to none of them. -/
theorem fill_other (groups : List acl.Group) :
    ∀ cache : GroupCache,
      (∀ gid, (∀ g ∈ groups, g.id ≠ gid) → (cache.fill groups).names gid = cache.names gid) ∧
      (∀ name, (∀ g ∈ groups, g.name ≠ name) →
        (cache.fill groups).gids name = cache.gids name) := by
  induction groups with
  | nil => intro cache; exact ⟨fun _ _ => rfl, fun _ _ => rfl⟩
  | cons x rest ih =>
    intro cache
    constructor
    · intro gid h
      simp only [GroupCache.fill]
      rw [(ih _).1 gid (fun g hg => h g (List.mem_cons_of_mem _ hg))]
      exact assign_other _ _ _ _ (fun e => h x (List.mem_cons_self _ _) e.symm)
    · intro name h
      simp only [GroupCache.fill]
      rw [(ih _).2 name (fun g hg => h g (List.mem_cons_of_mem _ hg))]
      exact assign_other _ _ _ _ (fun e => h x (List.mem_cons_self _ _) e.symm)

/-- Lemma: after `fill` over groups with pairwise distinct ids and pairwise distinct names, each
group is found under its id and under its name. -/
theorem fill_member (groups : List acl.Group) :
    ∀ cache : GroupCache,
      (groups.map (fun g => g.id)).Nodup → (groups.map (fun g => g.name)).Nodup →
      ∀ g ∈ groups, (cache.fill groups).names g.id = some g.name ∧
        (cache.fill groups).gids g.name = some g.id := by
  induction groups with
  | nil => intro cache _ _ g hg; exact absurd hg (List.not_mem_nil _)
  | cons x rest ih =>
    intro cache hid hname g hg
    rw [List.map_cons, List.nodup_cons] at hid hname
    simp only [GroupCache.fill]
    rcases List.mem_cons.mp hg with rfl | hmem
    · constructor
      · rw [(fill_other rest _).1 g.id
          (fun y hy e => hid.1 (List.mem_map.mpr ⟨y, hy, e⟩))]
        exact assign_same _ _ _
      · rw [(fill_other rest _).2 g.name
          (fun y hy e => hname.1 (List.mem_map.mpr ⟨y, hy, e⟩))]
        exact assign_same _ _ _
    · exact ih _ hid.2 hname.2 g hmem

set_option maxRecDepth 100000 in
/-- C13, counterexample: after `Populate` over the single group 1 named `staff`, the gid -1 is
not in the list, and `GIDToName (-1)` is `NoGroup`, not `unknown`. -/
theorem Populate_gid_minus_one_is_NoGroup :
    (-1 : Int) ∉ [plainGroup 1 "staff"].map (fun g => g.id) ∧
    (GroupCache.Populate [plainGroup 1 "staff"] oneGroup).2.GIDToName (-1) = "NoGroup" ∧
    (GroupCache.Populate [plainGroup 1 "staff"] oneGroup).2.GIDToName (-1) ≠ "unknown" := by
  decide

/-- C13, amended: after `Populate` over a group list whose names are pairwise distinct and whose
ids are pairwise distinct, whatever the caches held before: for every listed group `g`,
`NameToGID g.name = g.id` and, when `g.id` is not -1, `GIDToName g.id = g.name`; every name not
in the list resolves to -1; every id other than -1 that is not in the list resolves to
`unknown`; and gid -1 resolves to `NoGroup`. -/
theorem Populate_holds_exactly_the_list (groups : List acl.Group) (cache : GroupCache)
    (hname : (groups.map (fun g => g.name)).Nodup) (hid : (groups.map (fun g => g.id)).Nodup) :
    (GroupCache.Populate groups cache).1 = true ∧
    (∀ g ∈ groups,
      (GroupCache.Populate groups cache).2.NameToGID g.name = g.id ∧
      (g.id ≠ -1 → (GroupCache.Populate groups cache).2.GIDToName g.id = g.name)) ∧
    (∀ name, name ∉ groups.map (fun g => g.name) →
      (GroupCache.Populate groups cache).2.NameToGID name = -1) ∧
    (∀ gid, gid ∉ groups.map (fun g => g.id) → gid ≠ -1 →
      (GroupCache.Populate groups cache).2.GIDToName gid = "unknown") ∧
    (GroupCache.Populate groups cache).2.GIDToName (-1) = "NoGroup" := by
  refine ⟨rfl, ?_, ?_, ?_, ?_⟩
  · intro g hg
    obtain ⟨h1, h2⟩ := fill_member groups
      { gids := Map.clear, names := Map.clear } hid hname g hg
    constructor
    · simp only [GroupCache.Populate, GroupCache.NameToGID, h2]
    · intro hne
      simp only [GroupCache.Populate, GroupCache.GIDToName, if_neg hne, h1]
  · intro name hn
    have := (fill_other groups { gids := Map.clear, names := Map.clear }).2 name
      (fun g hg e => hn (List.mem_map.mpr ⟨g, hg, e⟩))
    simp only [GroupCache.Populate, GroupCache.NameToGID, this, Map.clear]
  · intro gid hg hne
    have := (fill_other groups { gids := Map.clear, names := Map.clear }).1 gid
      (fun g hg' e => hg (List.mem_map.mpr ⟨g, hg', e⟩))
    simp only [GroupCache.Populate, GroupCache.GIDToName, if_neg hne, this, Map.clear]
  · simp [GroupCache.GIDToName]

set_option maxRecDepth 100000 in
theorem Populate_holds_exactly_the_list_witness :
    ([plainGroup 1 "staff", plainGroup 2 "users"].map (fun g => g.name)).Nodup ∧
    ([plainGroup 1 "staff", plainGroup 2 "users"].map (fun g => g.id)).Nodup ∧
    (GroupCache.Populate [plainGroup 1 "staff", plainGroup 2 "users"] oneGroup).2.NameToGID
      "users" = 2 ∧
    (GroupCache.Populate [plainGroup 1 "staff", plainGroup 2 "users"] oneGroup).2.NameToGID
      "old" = -1 :=
  ⟨by decide, by decide,
   ((Populate_holds_exactly_the_list [plainGroup 1 "staff", plainGroup 2 "users"] oneGroup
      (by decide) (by decide)).2.1 (plainGroup 2 "users") (by decide)).1,
   (Populate_holds_exactly_the_list [plainGroup 1 "staff", plainGroup 2 "users"] oneGroup
      (by decide) (by decide)).2.2.1 "old" (by decide)⟩

end db

/-! ## File operations -/

namespace fs

/-- Lemma: each of the five operations hands the operating system the constant `dummySiteRoot`
followed by the path it was given, and each overload taking the client does the same with the
path joined onto the working directory. -/
theorem operations_use_dummySiteRoot (env : Env) (workDir path other : String) :
    (DeleteFile env path).call.paths = [dummySiteRoot ++ path] ∧
    (RenameFile env path other).call.paths = [dummySiteRoot ++ path, dummySiteRoot ++ other] ∧
    (CreateFile env path).call.paths = [dummySiteRoot ++ path] ∧
    (AppendFile env path).call.paths = [dummySiteRoot ++ path] ∧
    (OpenFile env path).call.paths = [dummySiteRoot ++ path] ∧
    DeleteFileIn env workDir path = DeleteFile env (env.join workDir path) ∧
    RenameFileIn env workDir path other =
      RenameFile env (env.join workDir path) (env.join workDir other) ∧
    CreateFileIn env workDir path = CreateFile env (env.join workDir path) ∧
    AppendFileIn env workDir path = AppendFile env (env.join workDir path) ∧
    OpenFileIn env workDir path = OpenFile env (env.join workDir path) :=
  ⟨rfl, rfl, rfl, rfl, rfl, rfl, rfl, rfl, rfl, rfl⟩

set_option maxRecDepth 100000 in
/-- C17, on the failing input: the configuration file sets `sitepath /site`, and for the virtual
path `/a` each of `DeleteFile`, `RenameFile`, `CreateFile`, `AppendFile` and `OpenFile` hands the
operating system `/home/bioboy/ftpd/site/a`, a path of which the configured site root `/site` is
not a prefix. -/
theorem file_operations_ignore_sitepath :
    (cfg.Config.new cfg.plainEnv 0 "ftpd.conf"
      (some "sitepath /site\ndatapath /data\nport 21\nvalid_ip 10.0.0.1\n")).2.toOption.map
        (fun c => c.sitepath) = some (cfg.Value.make ["/site"]) ∧
    (DeleteFile plainEnv "/a").call = Syscall.unlink "/home/bioboy/ftpd/site/a" ∧
    (RenameFile plainEnv "/a" "/b").call =
      Syscall.rename "/home/bioboy/ftpd/site/a" "/home/bioboy/ftpd/site/b" ∧
    (CreateFile plainEnv "/a").call.paths = ["/home/bioboy/ftpd/site/a"] ∧
    (AppendFile plainEnv "/a").call.paths = ["/home/bioboy/ftpd/site/a"] ∧
    (OpenFile plainEnv "/a").call.paths = ["/home/bioboy/ftpd/site/a"] ∧
    "/site".data.isPrefixOf "/home/bioboy/ftpd/site/a".data = false := by
  decide

end fs

/-! ## `SITE GIVE` -/

namespace cmd.site

open boost

theorem isalpha_of_isDigit (c : Char) (h : c.isDigit = true) : isalpha c = false := by
  simp only [Char.isDigit, Bool.and_eq_true, decide_eq_true_eq, ge_iff_le] at h
  simp only [isalpha, Char.isAlpha, Char.isUpper, Char.isLower, Bool.or_eq_false_iff,
    Bool.and_eq_false_iff, decide_eq_false_iff_not, ge_iff_le]
  obtain ⟨h1, h2⟩ := h
  rw [UInt32.le_def, BitVec.le_def] at h1 h2
  simp only [UInt32.le_def, BitVec.le_def]
  have e48 : (UInt32.toBitVec 48).toNat = 48 := rfl
  have e57 : (UInt32.toBitVec 57).toNat = 57 := rfl
  have e65 : (UInt32.toBitVec 65).toNat = 65 := rfl
  have e90 : (UInt32.toBitVec 90).toNat = 90 := rfl
  have e97 : (UInt32.toBitVec 97).toNat = 97 := rfl
  have e122 : (UInt32.toBitVec 122).toNat = 122 := rfl
  rw [e48] at h1
  rw [e57] at h2
  rw [e65, e90, e97, e122]
  omega

theorem wrap64_of_range (x : Int) (h0 : 0 ≤ x) (h1 : x ≤ 9223372036854775807) :
    wrap64 x = x := by
  unfold wrap64
  omega

/-- Lemma: on a non-empty string of decimal digits `boost::lexical_cast<long long>` yields the
value of the numeral, provided it fits a signed 64-bit integer, and fails otherwise. -/
theorem lexical_cast_ll_digits (ds : List Char) (hds : ds ≠ [])
    (hdig : ds.all Char.isDigit = true) :
    lexical_cast_ll ⟨ds⟩ =
      if numeral ds ≤ 9223372036854775807 then some (numeral ds : Int) else none := by
  cases ds with
  | nil => exact absurd rfl hds
  | cons d rest =>
    have hd : d.isDigit = true := by
      simp only [List.all_cons, Bool.and_eq_true] at hdig
      exact hdig.1
    have hm : d ≠ '-' := by
      intro e; rw [e] at hd; exact absurd hd (by decide)
    have hp : d ≠ '+' := by
      intro e; rw [e] at hd; exact absurd hd (by decide)
    have hv : digitsValue (d :: rest) = some (numeral (d :: rest)) := by
      simp only [digitsValue, hdig, if_true, numeral]
    unfold lexical_cast_ll
    split
    · rename_i ds' heq
      simp only [List.cons.injEq] at heq
      exact absurd heq.1 hm
    · rename_i ds' heq
      simp only [List.cons.injEq] at heq
      exact absurd heq.1 hp
    · rw [hv]

/-- Lemma: an amount made of decimal digits only has the unit `K` and itself as numeric
part. -/
theorem splitAmount_digits (ds : List Char) (hds : ds ≠ [])
    (hdig : ds.all Char.isDigit = true) : splitAmount ⟨ds⟩ = some ("K", ⟨ds⟩) := by
  unfold splitAmount
  have hlast : ds.getLast? = some (ds.getLast hds) := List.getLast?_eq_getLast ds hds
  have hd : (ds.getLast hds).isDigit = true :=
    List.all_eq_true.mp hdig _ (List.getLast_mem hds)
  simp only [hlast, isalpha_of_isDigit _ hd]
  rfl

/-- Lemma: an amount ending in a letter has that letter, upper-cased, as unit and what comes
before it as numeric part. -/
theorem splitAmount_letter (ds : List Char) (u : Char) (hu : isalpha u = true) :
    splitAmount ⟨ds ++ [u]⟩ = some (to_upper ⟨[u]⟩, ⟨ds⟩) := by
  simp [splitAmount, List.getLast?_append, hu]

/-- Lemma: the credits in kilobytes that an amount denotes: the numeral times the factor of the
unit, as long as the product fits a signed 64-bit integer. -/
theorem amount_credits (ds : List Char) (unit : String) (hds : ds ≠ [])
    (hdig : ds.all Char.isDigit = true) (hunit : unit ∈ units)
    (hrange : numeral ds * unitFactor unit ≤ 9223372036854775807) :
    ∃ type amount, splitAmount ⟨ds ++ unit.data⟩ = some (type, amount) ∧
      parseCredits type amount = some ((numeral ds * unitFactor unit : Nat) : Int) := by
  have hpos : 1 ≤ unitFactor unit := by
    unfold unitFactor; split
    · decide
    · split <;> decide
  have hn : numeral ds ≤ 9223372036854775807 :=
    le_trans (Nat.le_mul_of_pos_right _ hpos) hrange
  have hlex := lexical_cast_ll_digits ds hds hdig
  rw [if_pos hn] at hlex
  have hnn : ¬ ((numeral ds : Int) < 0) := by omega
  simp only [units, List.mem_cons, List.mem_singleton, List.not_mem_nil, or_false] at hunit
  rcases hunit with h | h | h | h | h | h | h <;> subst h
  · refine ⟨"K", ⟨ds⟩, ?_, ?_⟩
    · have := splitAmount_digits ds hds hdig
      simpa using this
    · have hf : unitFactor "" = 1 := by decide
      simp only [parseCredits, hlex, hnn, if_false, hf, Nat.mul_one]
      rw [if_neg (by decide), if_neg (by decide)]
  · refine ⟨to_upper ⟨['K']⟩, ⟨ds⟩, splitAmount_letter ds 'K' (by decide), ?_⟩
    have hf : unitFactor "K" = 1 := by decide
    have ht : to_upper ⟨['K']⟩ = "K" := by decide
    simp only [parseCredits, hlex, hnn, if_false, hf, ht, Nat.mul_one]
    rw [if_neg (by decide), if_neg (by decide)]
  · refine ⟨to_upper ⟨['k']⟩, ⟨ds⟩, splitAmount_letter ds 'k' (by decide), ?_⟩
    have hf : unitFactor "k" = 1 := by decide
    have ht : to_upper ⟨['k']⟩ = "K" := by decide
    simp only [parseCredits, hlex, hnn, if_false, hf, ht, Nat.mul_one]
    rw [if_neg (by decide), if_neg (by decide)]
  · refine ⟨to_upper ⟨['M']⟩, ⟨ds⟩, splitAmount_letter ds 'M' (by decide), ?_⟩
    have hf : unitFactor "M" = 1024 := by decide
    have ht : to_upper ⟨['M']⟩ = "M" := by decide
    rw [hf] at hrange
    have hcast : ((numeral ds * 1024 : Nat) : Int) = (numeral ds : Int) * 1024 := by
      push_cast; rfl
    have hw : wrap64 ((numeral ds : Int) * 1024) = (numeral ds : Int) * 1024 :=
      wrap64_of_range _ (by omega) (by omega)
    simp only [parseCredits, hlex, hnn, if_false, ht, hf]
    rw [if_neg (by decide), if_pos trivial, hw, hcast]
  · refine ⟨to_upper ⟨['m']⟩, ⟨ds⟩, splitAmount_letter ds 'm' (by decide), ?_⟩
    have hf : unitFactor "m" = 1024 := by decide
    have ht : to_upper ⟨['m']⟩ = "M" := by decide
    rw [hf] at hrange
    have hcast : ((numeral ds * 1024 : Nat) : Int) = (numeral ds : Int) * 1024 := by
      push_cast; rfl
    have hw : wrap64 ((numeral ds : Int) * 1024) = (numeral ds : Int) * 1024 :=
      wrap64_of_range _ (by omega) (by omega)
    simp only [parseCredits, hlex, hnn, if_false, ht, hf]
    rw [if_neg (by decide), if_pos trivial, hw, hcast]
  · refine ⟨to_upper ⟨['G']⟩, ⟨ds⟩, splitAmount_letter ds 'G' (by decide), ?_⟩
    have hf : unitFactor "G" = 1024 * 1024 := by decide
    have ht : to_upper ⟨['G']⟩ = "G" := by decide
    rw [hf] at hrange
    have hcast : ((numeral ds * (1024 * 1024) : Nat) : Int) =
        (numeral ds : Int) * (1024 * 1024) := by
      push_cast; rfl
    have hw : wrap64 ((numeral ds : Int) * (1024 * 1024)) =
        (numeral ds : Int) * (1024 * 1024) :=
      wrap64_of_range _ (by omega) (by omega)
    simp only [parseCredits, hlex, hnn, if_false, ht, hf]
    rw [if_pos trivial, hw, hcast]
  · refine ⟨to_upper ⟨['g']⟩, ⟨ds⟩, splitAmount_letter ds 'g' (by decide), ?_⟩
    have hf : unitFactor "g" = 1024 * 1024 := by decide
    have ht : to_upper ⟨['g']⟩ = "G" := by decide
    rw [hf] at hrange
    have hcast : ((numeral ds * (1024 * 1024) : Nat) : Int) =
        (numeral ds : Int) * (1024 * 1024) := by
      push_cast; rfl
    have hw : wrap64 ((numeral ds : Int) * (1024 * 1024)) =
        (numeral ds : Int) * (1024 * 1024) :=
      wrap64_of_range _ (by omega) (by omega)
    simp only [parseCredits, hlex, hnn, if_false, ht, hf]
    rw [if_pos trivial, hw, hcast]

end cmd.site

namespace cmd.site

open boost

/-- Lemma: without `-s`, `Execute` goes on after the `-s` block with the empty section and the
arguments as they are. -/
theorem Execute_without_section (env : Env) (config : cfg.Config) (caller : User)
    (word name : String) (rest : List String) (hs : to_lower name ≠ "-s") :
    GIVECommand.Execute env config caller (word :: name :: rest) =
      GIVECommand.give env caller "" (word :: name :: rest) := by
  simp [GIVECommand.Execute, hs]

/-- Lemma: with `-s SECTION` naming a declared section that has separate credits, `Execute`
goes on after the `-s` block with the upper-cased section name and the arguments without the
flag and the section. -/
theorem Execute_with_section (env : Env) (config : cfg.Config) (caller : User)
    (word flag sec name amount : String) (rest : List String) (kv : String × cfg.Section)
    (hs : to_lower flag = "-s")
    (hfind : config.sections.find? (fun kv => kv.1 = to_upper sec) = some kv)
    (hsep : kv.2.separateCredits = true) :
    GIVECommand.Execute env config caller (word :: flag :: sec :: name :: amount :: rest) =
      GIVECommand.give env caller (to_upper sec) (word :: name :: amount :: rest) := by
  simp [GIVECommand.Execute, hs, hfind, hsep]

/-- Lemma: what the part of `Execute` after the `-s` block does once the recipient is loaded
and the amount has been turned into credits. -/
theorem give_of_credits (env : Env) (caller : User) (section_ : String) (args : List String)
    (name amt type amount : String) (user : User) (credits : Int)
    (h1 : args.get? 1 = some name) (hload : env.Load name = some user)
    (h2 : args.get? 2 = some amt) (hsplit : splitAmount amt = some (type, amount))
    (hcred : parseCredits type amount = some credits) :
    GIVECommand.give env caller section_ args =
      if env.AllowSiteCmd caller "giveown" ∧ ¬ env.AllowSiteCmd caller "give" then
        if caller.sectionRatio section_ = 0 ∨
            (caller.sectionRatio section_ = -1 ∧ caller.defaultRatio = 0) then
          { thrown := none, reply := some Reply.leech, caller := caller,
            recipient := some user }
        else if (caller.DecrSectionCredits section_ credits).1 then
          { thrown := none, reply := some (Reply.given true credits user.name),
            caller := (caller.DecrSectionCredits section_ credits).2,
            recipient := some (user.IncrSectionCredits section_ credits) }
        else
          { thrown := none, reply := some Reply.notEnough,
            caller := (caller.DecrSectionCredits section_ credits).2,
            recipient := some user }
      else
        { thrown := none, reply := some (Reply.given false credits user.name),
          caller := caller,
          recipient := some (user.IncrSectionCredits section_ credits) } := by
  unfold GIVECommand.give
  simp only [h1, hload, h2, hsplit, hcred]

/-- Lemma: the leech test of `Execute` is the test that the caller's own ratio is zero. -/
theorem leech_iff_ownRatio (caller : User) (section_ : String) :
    (caller.sectionRatio section_ = 0 ∨
      (caller.sectionRatio section_ = -1 ∧ caller.defaultRatio = 0)) ↔
    ownRatio caller section_ = 0 := by
  unfold ownRatio
  constructor
  · rintro (h | ⟨h1, h2⟩)
    · rw [if_neg (by omega)]; exact h
    · rw [if_pos h1]; exact h2
  · intro h
    by_cases h1 : caller.sectionRatio section_ = -1
    · rw [if_pos h1] at h; exact Or.inr ⟨h1, h⟩
    · rw [if_neg h1] at h; exact Or.inl h

/-- Lemma: a refused debit leaves the user as it was. -/
theorem refused_debit_unchanged (user : User) (section_ : String) (kBytes : Int)
    (h : (user.DecrSectionCredits section_ kBytes).1 = false) :
    (user.DecrSectionCredits section_ kBytes).2 = user := by
  unfold User.DecrSectionCredits at h ⊢
  split
  · rfl
  · rename_i hlt
    rw [if_neg hlt] at h
    exact absurd h (by simp)

/-- Lemma: a value within the signed 64-bit range is held as it is. -/
theorem wrap64_of_int64 (x : Int) (h0 : -9223372036854775808 ≤ x)
    (h1 : x ≤ 9223372036854775807) : wrap64 x = x := by
  unfold wrap64
  omega

/-- Lemma: a credit whose sum stays within the signed 64-bit range adds exactly the amount to
the balance of the section. -/
theorem IncrSectionCredits_in_range (user : User) (section_ : String) (kBytes : Int)
    (h0 : -9223372036854775808 ≤ user.sectionCredits section_ + kBytes)
    (h1 : user.sectionCredits section_ + kBytes ≤ 9223372036854775807) :
    (user.IncrSectionCredits section_ kBytes).sectionCredits section_ =
      user.sectionCredits section_ + kBytes := by
  unfold User.IncrSectionCredits
  simp only [if_true]
  exact wrap64_of_int64 _ h0 h1

/-- Lemma: once the recipient is loaded and the amount has been turned into credits, nothing is
thrown; whenever the reply is that of a gift the credits given are those parsed and the
recipient has been credited with them; a caller not restricted to `giveown` always gives; and a
caller restricted to `giveown` gives exactly when the own ratio is not zero and the debit
succeeds. -/
theorem give_credited (env : Env) (caller : User) (section_ : String) (args : List String)
    (name amt type amount : String) (user : User) (credits : Int)
    (h1 : args.get? 1 = some name) (hload : env.Load name = some user)
    (h2 : args.get? 2 = some amt) (hsplit : splitAmount amt = some (type, amount))
    (hcred : parseCredits type amount = some credits) :
    (GIVECommand.give env caller section_ args).thrown = none ∧
    (∀ taken given name', (GIVECommand.give env caller section_ args).reply =
        some (Reply.given taken given name') →
      given = credits ∧
      (GIVECommand.give env caller section_ args).recipient =
        some (user.IncrSectionCredits section_ credits)) ∧
    (¬ (env.AllowSiteCmd caller "giveown" = true ∧ env.AllowSiteCmd caller "give" = false) →
      (GIVECommand.give env caller section_ args).reply =
        some (Reply.given false credits user.name)) ∧
    (env.AllowSiteCmd caller "giveown" = true → env.AllowSiteCmd caller "give" = false →
      ((GIVECommand.give env caller section_ args).reply =
          some (Reply.given true credits user.name) ↔
        ownRatio caller section_ ≠ 0 ∧
          (caller.DecrSectionCredits section_ credits).1 = true)) := by
  rw [give_of_credits env caller section_ args name amt type amount user credits h1 hload h2
    hsplit hcred]
  by_cases hcond : env.AllowSiteCmd caller "giveown" = true ∧
      ¬ env.AllowSiteCmd caller "give" = true
  · rw [if_pos hcond]
    have hgive : env.AllowSiteCmd caller "give" = false := by simpa using hcond.2
    by_cases hz : ownRatio caller section_ = 0
    · rw [if_pos ((leech_iff_ownRatio caller section_).mpr hz)]
      refine ⟨rfl, ?_, ?_, ?_⟩
      · intro taken given name' h
        exact absurd h (by simp)
      · intro hnot
        exact absurd ⟨hcond.1, hgive⟩ hnot
      · intro _ _
        constructor
        · intro h; exact absurd h (by simp)
        · intro h; exact absurd hz h.1
    · rw [if_neg (fun h => hz ((leech_iff_ownRatio caller section_).mp h))]
      by_cases hd : (caller.DecrSectionCredits section_ credits).1 = true
      · rw [if_pos hd]
        refine ⟨rfl, ?_, ?_, ?_⟩
        · intro taken given name' h
          simp only [Option.some.injEq, Reply.given.injEq] at h
          exact ⟨h.2.1.symm, rfl⟩
        · intro hnot
          exact absurd ⟨hcond.1, hgive⟩ hnot
        · intro _ _
          exact ⟨fun _ => ⟨hz, hd⟩, fun _ => rfl⟩
      · rw [if_neg hd]
        refine ⟨rfl, ?_, ?_, ?_⟩
        · intro taken given name' h
          exact absurd h (by simp)
        · intro hnot
          exact absurd ⟨hcond.1, hgive⟩ hnot
        · intro _ _
          constructor
          · intro h; exact absurd h (by simp)
          · intro h; exact absurd h.2 hd
  · rw [if_neg hcond]
    refine ⟨rfl, ?_, ?_, ?_⟩
    · intro taken given name' h
      simp only [Option.some.injEq, Reply.given.injEq] at h
      exact ⟨h.2.1.symm, rfl⟩
    · intro _; rfl
    · intro hown hgive
      exact absurd ⟨hown, by simp [hgive]⟩ hcond

set_option maxRecDepth 100000 in
/-- C14, counterexample: for n = 9223372036854775808 the amount string `n` is refused with
`SyntaxError` and the recipient, whose balance is 0, is credited nothing. -/
theorem GIVE_refuses_large_amount :
    ("9223372036854775808".data.all Char.isDigit = true ∧
      numeral "9223372036854775808".data = 9223372036854775808) ∧
    (GIVECommand.Execute plainEnv (cfg.Config.initial 1 "ftpd.conf") siteop
      ["GIVE", "bob", "9223372036854775808"]).thrown = some Thrown.SyntaxError ∧
    (GIVECommand.Execute plainEnv (cfg.Config.initial 1 "ftpd.conf") siteop
      ["GIVE", "bob", "9223372036854775808"]).recipient.map (fun u => u.sectionCredits "") =
        some 0 := by
  decide

/-- C14, amended: `SITE GIVE` counts credits in kilobytes.  For every amount made of a numeral
(a non-empty string of decimal digits) with value n and a unit that is absent or one of K, M, G
in either case, such that the amount to credit (n for no unit and K, n times 1024 for M, n times
1048576 for G) is at most 9223372036854775807: once the recipient is loaded, whoever the caller
is and with or without `-s`, nothing is thrown and whenever the command credits the recipient
it credits exactly that amount, in kilobytes, in the section of the command.  It does so for
every caller who is not restricted to `giveown`, and for a caller restricted to `giveown`
exactly when the caller's own ratio is not zero and the debit of the same amount succeeds.  The
recipient's balance grows by exactly that amount when the sum stays within the signed 64-bit
range. -/
theorem GIVE_counts_kilobytes (env : Env) (config : cfg.Config) (caller user : User)
    (args args' : List String) (section_ name : String) (ds : List Char) (unit : String)
    (hreach : GIVECommand.Execute env config caller args =
      GIVECommand.give env caller section_ args')
    (h1 : args'.get? 1 = some name) (hload : env.Load name = some user)
    (h2 : args'.get? 2 = some ⟨ds ++ unit.data⟩)
    (hds : ds ≠ []) (hdig : ds.all Char.isDigit = true) (hunit : unit ∈ units)
    (hrange : numeral ds * unitFactor unit ≤ 9223372036854775807) :
    (GIVECommand.Execute env config caller args).thrown = none ∧
    (∀ taken given name', (GIVECommand.Execute env config caller args).reply =
        some (Reply.given taken given name') →
      given = ((numeral ds * unitFactor unit : Nat) : Int) ∧
      (GIVECommand.Execute env config caller args).recipient =
        some (user.IncrSectionCredits section_ ((numeral ds * unitFactor unit : Nat) : Int))) ∧
    (¬ (env.AllowSiteCmd caller "giveown" = true ∧ env.AllowSiteCmd caller "give" = false) →
      (GIVECommand.Execute env config caller args).reply =
        some (Reply.given false ((numeral ds * unitFactor unit : Nat) : Int) user.name)) ∧
    (env.AllowSiteCmd caller "giveown" = true → env.AllowSiteCmd caller "give" = false →
      ((GIVECommand.Execute env config caller args).reply =
          some (Reply.given true ((numeral ds * unitFactor unit : Nat) : Int) user.name) ↔
        ownRatio caller section_ ≠ 0 ∧
          (caller.DecrSectionCredits section_
            ((numeral ds * unitFactor unit : Nat) : Int)).1 = true)) ∧
    (-9223372036854775808 ≤
        user.sectionCredits section_ + ((numeral ds * unitFactor unit : Nat) : Int) →
      user.sectionCredits section_ + ((numeral ds * unitFactor unit : Nat) : Int) ≤
        9223372036854775807 →
      (user.IncrSectionCredits section_
        ((numeral ds * unitFactor unit : Nat) : Int)).sectionCredits section_ =
        user.sectionCredits section_ + ((numeral ds * unitFactor unit : Nat) : Int)) := by
  obtain ⟨type, amount, hsplit, hcred⟩ := amount_credits ds unit hds hdig hunit hrange
  rw [hreach]
  obtain ⟨g1, g2, g3, g4⟩ := give_credited env caller section_ args' name ⟨ds ++ unit.data⟩
    type amount user _ h1 hload h2 hsplit hcred
  exact ⟨g1, g2, g3, g4, IncrSectionCredits_in_range user section_ _⟩

set_option maxRecDepth 100000 in
theorem GIVE_counts_kilobytes_witness :
    (["GIVE", "bob", "25m"].get? 2 = some ⟨"25".data ++ "m".data⟩ ∧
      "m" ∈ units ∧ numeral "25".data * unitFactor "m" = 25600 ∧
      ¬ (plainEnv.AllowSiteCmd siteop "giveown" = true ∧
        plainEnv.AllowSiteCmd siteop "give" = false)) ∧
    (GIVECommand.Execute plainEnv leechSection siteop ["GIVE", "-s", "s", "bob", "25m"]).reply =
      some (Reply.given false ((numeral "25".data * unitFactor "m" : Nat) : Int) "bob") ∧
    (GIVECommand.Execute plainEnv leechSection siteop
      ["GIVE", "-s", "s", "bob", "25m"]).recipient.map (fun u => u.sectionCredits "S") =
        some 25600 :=
  ⟨⟨by decide, by decide, by decide, by decide⟩,
    (GIVE_counts_kilobytes plainEnv leechSection siteop
      { name := "bob", defaultRatio := 3, sectionRatio := fun _ => -1,
        sectionCredits := fun _ => 0 }
      ["GIVE", "-s", "s", "bob", "25m"] ["GIVE", "bob", "25m"] "S" "bob" "25".data "m"
      rfl rfl rfl (by decide) (by decide) (by decide) (by decide) (by decide)).2.2.1
      (by decide),
    by decide⟩

/-- C15: for a caller who holds `giveown` but not `give`, once the recipient is loaded and the
amount read, `SITE GIVE` works on the caller's own balance first.  A caller whose own ratio is
zero is refused before any debit.  Otherwise the caller is debited: when the debit succeeds the
recipient's credits in the section grow by the amount and the caller's are what the debit left;
when the debit is refused the reply is "Not enough credits to do that." and neither the caller
nor the recipient changes.  So the recipient is credited exactly when the debit was made and
succeeded.  A caller who holds `give` is never debited and the recipient is credited. -/
theorem giveown_debits_caller_first (env : Env) (config : cfg.Config) (caller user : User)
    (args args' : List String) (section_ name amt type amount : String) (credits : Int)
    (hreach : GIVECommand.Execute env config caller args =
      GIVECommand.give env caller section_ args')
    (h1 : args'.get? 1 = some name) (hload : env.Load name = some user)
    (h2 : args'.get? 2 = some amt) (hsplit : splitAmount amt = some (type, amount))
    (hcred : parseCredits type amount = some credits) :
    (env.AllowSiteCmd caller "giveown" = true → env.AllowSiteCmd caller "give" = false →
      (ownRatio caller section_ = 0 →
        (GIVECommand.Execute env config caller args).reply = some Reply.leech ∧
        (GIVECommand.Execute env config caller args).caller = caller ∧
        (GIVECommand.Execute env config caller args).recipient = some user) ∧
      (ownRatio caller section_ ≠ 0 →
        (caller.DecrSectionCredits section_ credits).1 = true →
        (GIVECommand.Execute env config caller args).reply =
          some (Reply.given true credits user.name) ∧
        (GIVECommand.Execute env config caller args).caller =
          (caller.DecrSectionCredits section_ credits).2 ∧
        (GIVECommand.Execute env config caller args).recipient =
          some (user.IncrSectionCredits section_ credits)) ∧
      (ownRatio caller section_ ≠ 0 →
        (caller.DecrSectionCredits section_ credits).1 = false →
        (GIVECommand.Execute env config caller args).reply = some Reply.notEnough ∧
        (GIVECommand.Execute env config caller args).reply.map Reply.message =
          some "Not enough credits to do that." ∧
        (GIVECommand.Execute env config caller args).caller = caller ∧
        (GIVECommand.Execute env config caller args).recipient = some user) ∧
      ((GIVECommand.Execute env config caller args).recipient =
          some (user.IncrSectionCredits section_ credits) ∧
        (GIVECommand.Execute env config caller args).reply =
          some (Reply.given true credits user.name) ↔
        ownRatio caller section_ ≠ 0 ∧
          (caller.DecrSectionCredits section_ credits).1 = true)) ∧
    (env.AllowSiteCmd caller "give" = true →
      (GIVECommand.Execute env config caller args).reply =
        some (Reply.given false credits user.name) ∧
      (GIVECommand.Execute env config caller args).caller = caller ∧
      (GIVECommand.Execute env config caller args).recipient =
        some (user.IncrSectionCredits section_ credits)) := by
  rw [hreach, give_of_credits env caller section_ args' name amt type amount user credits h1
    hload h2 hsplit hcred]
  constructor
  · intro hown hgive
    have hcond : env.AllowSiteCmd caller "giveown" = true ∧
        ¬ env.AllowSiteCmd caller "give" = true := ⟨hown, by simp [hgive]⟩
    rw [if_pos hcond]
    refine ⟨?_, ?_, ?_, ?_⟩
    · intro hz
      rw [if_pos ((leech_iff_ownRatio caller section_).mpr hz)]
      exact ⟨rfl, rfl, rfl⟩
    · intro hz hd
      rw [if_neg (fun h => hz ((leech_iff_ownRatio caller section_).mp h)), if_pos hd]
      exact ⟨rfl, rfl, rfl⟩
    · intro hz hd
      rw [if_neg (fun h => hz ((leech_iff_ownRatio caller section_).mp h)),
        if_neg (by simp [hd])]
      exact ⟨rfl, rfl, refused_debit_unchanged caller section_ credits hd, rfl⟩
    · by_cases hz : ownRatio caller section_ = 0
      · rw [if_pos ((leech_iff_ownRatio caller section_).mpr hz)]
        constructor
        · intro h; exact absurd h.2 (by simp)
        · intro h; exact absurd hz h.1
      · rw [if_neg (fun h => hz ((leech_iff_ownRatio caller section_).mp h))]
        by_cases hd : (caller.DecrSectionCredits section_ credits).1 = true
        · rw [if_pos hd]
          exact ⟨fun _ => ⟨hz, hd⟩, fun _ => ⟨rfl, rfl⟩⟩
        · rw [if_neg hd]
          constructor
          · intro h; exact absurd h.2 (by simp)
          · intro h; exact absurd h.2 hd
  · intro hgive
    have hnot : ¬ (env.AllowSiteCmd caller "giveown" = true ∧
        ¬ env.AllowSiteCmd caller "give" = true) := fun h => h.2 hgive
    rw [if_neg hnot]
    exact ⟨rfl, rfl, rfl⟩

set_option maxRecDepth 100000 in
theorem giveown_debits_caller_first_witness :
    (GIVECommand.Execute plainEnv (cfg.Config.initial 1 "ftpd.conf") alice
      ["GIVE", "bob", "500"]).reply = some Reply.notEnough ∧
    (GIVECommand.Execute plainEnv (cfg.Config.initial 1 "ftpd.conf") alice
      ["GIVE", "bob", "50"]).reply = some (Reply.given true 50 "bob") :=
  ⟨(((giveown_debits_caller_first plainEnv (cfg.Config.initial 1 "ftpd.conf") alice
      { name := "bob", defaultRatio := 3, sectionRatio := fun _ => -1,
        sectionCredits := fun _ => 0 }
      ["GIVE", "bob", "500"] ["GIVE", "bob", "500"] "" "bob" "500" "K" "500" 500
      rfl rfl rfl rfl (by decide) (by decide)).1 (by decide) (by decide)).2.2.1
      (by decide) (by decide)).1,
   (((giveown_debits_caller_first plainEnv (cfg.Config.initial 1 "ftpd.conf") alice
      { name := "bob", defaultRatio := 3, sectionRatio := fun _ => -1,
        sectionCredits := fun _ => 0 }
      ["GIVE", "bob", "50"] ["GIVE", "bob", "50"] "" "bob" "50" "K" "50" 50
      rfl rfl rfl rfl (by decide) (by decide)).1 (by decide) (by decide)).2.1
      (by decide) (by decide)).1⟩

set_option maxRecDepth 100000 in
/-- C16, counterexample: section `S` has separate credits and the ratio 0; the caller holds
`giveown` only, inherits the section ratio (override -1) and has the default ratio 3.  The
effective ratio as the claim words it is 0, the ratio of the section, yet `GIVE -s s bob 5` is
not refused: the caller is debited and the reply is the one of a gift. -/
theorem GIVE_ignores_section_ratio :
    effectiveRatio leechSection alice "S" = 0 ∧
    plainEnv.AllowSiteCmd alice "giveown" = true ∧
    plainEnv.AllowSiteCmd alice "give" = false ∧
    (GIVECommand.Execute plainEnv leechSection alice ["GIVE", "-s", "s", "bob", "5"]).reply =
      some (Reply.given true 5 "bob") := by
  decide

/-- C16, amended: a caller who holds `giveown` but not `give` is refused with "Not allowed to
give credits when you have leech!" exactly when the caller's own ratio for the target section
is 0, the own ratio being the caller's per-section override if set (not -1) and otherwise the
caller's default ratio; the ratio of the section is not consulted. -/
theorem leech_refusal_iff_own_ratio_zero (env : Env) (config : cfg.Config)
    (caller user : User) (args args' : List String) (section_ name amt type amount : String)
    (credits : Int)
    (hreach : GIVECommand.Execute env config caller args =
      GIVECommand.give env caller section_ args')
    (h1 : args'.get? 1 = some name) (hload : env.Load name = some user)
    (h2 : args'.get? 2 = some amt) (hsplit : splitAmount amt = some (type, amount))
    (hcred : parseCredits type amount = some credits)
    (hown : env.AllowSiteCmd caller "giveown" = true)
    (hgive : env.AllowSiteCmd caller "give" = false) :
    ((GIVECommand.Execute env config caller args).reply = some Reply.leech ↔
      ownRatio caller section_ = 0) ∧
    Reply.leech.message = "Not allowed to give credits when you have leech!" := by
  refine ⟨?_, rfl⟩
  rw [hreach, give_of_credits env caller section_ args' name amt type amount user credits h1
    hload h2 hsplit hcred]
  have hcond : env.AllowSiteCmd caller "giveown" = true ∧
      ¬ env.AllowSiteCmd caller "give" = true := ⟨hown, by simp [hgive]⟩
  rw [if_pos hcond]
  by_cases hz : ownRatio caller section_ = 0
  · rw [if_pos ((leech_iff_ownRatio caller section_).mpr hz)]
    exact ⟨fun _ => hz, fun _ => rfl⟩
  · rw [if_neg (fun h => hz ((leech_iff_ownRatio caller section_).mp h))]
    constructor
    · intro h
      split at h <;> exact absurd h (by simp)
    · intro h; exact absurd h hz

set_option maxRecDepth 100000 in
theorem leech_refusal_iff_own_ratio_zero_witness :
    ((GIVECommand.Execute plainEnv leechSection alice ["GIVE", "-s", "s", "bob", "5"]).reply =
      some Reply.leech ↔ ownRatio alice "S" = 0) ∧
    ownRatio alice "S" = 3 :=
  ⟨(leech_refusal_iff_own_ratio_zero plainEnv leechSection alice
      { name := "bob", defaultRatio := 3, sectionRatio := fun _ => -1,
        sectionCredits := fun _ => 0 }
      ["GIVE", "-s", "s", "bob", "5"] ["GIVE", "bob", "5"] "S" "bob" "5" "K" "5" 5
      rfl rfl rfl rfl (by decide) (by decide) (by decide) (by decide)).1, by decide⟩

end cmd.site

/-! ## The current configuration parser: section blocks and checked values -/

namespace cfg

open boost std

theorem sections_ite (c : Config) (cond : Prop) [Decidable cond] (a b : Outcome)
    (ha : cond → SameSections c a.1) (hb : ¬cond → SameSections c b.1) :
    SameSections c (if cond then a else b).1 := by
  split
  · exact ha ‹_›
  · exact hb ‹_›

theorem sections_checked (c : Config) (check : Option Thrown) (k : Outcome)
    (h : SameSections c k.1) : SameSections c (checked c check k).1 := by
  unfold checked; split
  · exact ⟨rfl, rfl⟩
  · exact h

theorem sections_built (c : Config) (t : Option Thrown) (c' : Config)
    (h : SameSections c c') : SameSections c (built c t c').1 := by
  unfold built; split
  · exact ⟨rfl, rfl⟩
  · exact h

theorem sections_stored (c : Config) (tok : String) (set : Int → Config)
    (h : ∀ n, SameSections c (set n)) : SameSections c (stored c tok set).1 := by
  unfold stored; split
  · exact h _
  · exact ⟨rfl, rfl⟩

theorem sections_storedNonNegative (c : Config) (tok : String) (set : Int → Config)
    (m : String) (h : ∀ n, SameSections c (set n)) :
    SameSections c (storedNonNegative c tok set m).1 := by
  unfold storedNonNegative; split
  · split <;> exact h _
  · exact ⟨rfl, rfl⟩

theorem sections_storedBool (env : Env) (c : Config) (tok : String) (set : Bool → Config)
    (h : ∀ b, SameSections c (set b)) : SameSections c (storedBool env c tok set).1 := by
  unfold storedBool; split
  · exact h _
  · exact ⟨rfl, rfl⟩

/-- Lemma: a global option other than `section` neither opens a section block nor touches the
sections. -/
theorem ParseGlobal_sections (env : Env) (c : Config) (opt : String) (toks : List String)
    (hne : opt ≠ "section") : SameSections c (ParseGlobal env c opt toks).1 := by
  unfold ParseGlobal
  repeat' first
    | (apply sections_ite <;> intro _)
    | apply sections_checked
    | apply sections_built
    | (apply sections_stored; intro _)
    | (apply sections_storedNonNegative; intro _)
    | (apply sections_storedBool; intro _)
    | exact ⟨rfl, rfl⟩
    | exact absurd (by assumption) hne
    | split

theorem keeps_ite (env : Env) (c : Config) (cond : Prop) [Decidable cond] (a b : Outcome)
    (ha : cond → KeepsNonNegative env c a) (hb : ¬cond → KeepsNonNegative env c b) :
    KeepsNonNegative env c (if cond then a else b) := by
  split
  · exact ha ‹_›
  · exact hb ‹_›

theorem keeps_pair (env : Env) (c c' : Config) (e : Option Thrown)
    (h : NonNegative env c → NonNegative env c') : KeepsNonNegative env c (c', e) :=
  fun hc _ => h hc

theorem keeps_checked (env : Env) (c : Config) (check : Option Thrown) (k : Outcome)
    (h : KeepsNonNegative env c k) : KeepsNonNegative env c (checked c check k) := by
  unfold checked; split
  · exact fun hc _ => hc
  · exact h

theorem keeps_built (env : Env) (c : Config) (t : Option Thrown) (c' : Config)
    (h : NonNegative env c → NonNegative env c') :
    KeepsNonNegative env c (built c t c') := by
  unfold built; split
  · exact fun hc _ => hc
  · exact fun hc _ => h hc

theorem keeps_stored (env : Env) (c : Config) (tok : String) (set : Int → Config)
    (h : ∀ n, NonNegative env c → NonNegative env (set n)) :
    KeepsNonNegative env c (stored c tok set) := by
  unfold stored; split
  · exact fun hc _ => h _ hc
  · exact fun hc _ => hc

theorem keeps_storedBool (env : Env) (c : Config) (tok : String) (set : Bool → Config)
    (h : ∀ b, NonNegative env c → NonNegative env (set b)) :
    KeepsNonNegative env c (storedBool env c tok set) := by
  unfold storedBool; split
  · exact fun hc _ => h _ hc
  · exact fun hc _ => hc

theorem keeps_storedNonNegative (env : Env) (c : Config) (tok : String) (set : Int → Config)
    (m : String) (h : ∀ n, 0 ≤ n → NonNegative env c → NonNegative env (set n)) :
    KeepsNonNegative env c (storedNonNegative c tok set m) := by
  unfold storedNonNegative; split
  · rename_i n _
    split
    · intro _ hne; exact absurd rfl (hne m)
    · rename_i hn
      exact fun hc _ => h n (by omega) hc
  · intro _ hne; exact absurd rfl (hne m)

/-- Lemma: opening a section keeps the ratios zero or larger, the new section having the ratio
its constructor gives it. -/
theorem nonNegative_insert (env : Env) (c : Config) (name : String)
    (h : NonNegative env c) :
    NonNegative env
      ((c.setSections (env.sectionMap.insert c.sections
        (name, Section.new env name))).setCurrentSection (some name)) := by
  refine ⟨h.1, h.2.1, h.2.2.1, ?_⟩
  intro kv hkv
  have hmem : kv ∈ c.sections ++ [(name, Section.new env name)] :=
    (env.sectionMap.perm c.sections (name, Section.new env name)).mem_iff.mp hkv
  rcases List.mem_append.mp hmem with h1 | h1
  · exact h.2.2.2 kv h1
  · simp only [List.mem_singleton] at h1
    left; rw [h1]; rfl

/-- Lemma: an assignment through `currentSection` that sets a ratio of zero or more, or leaves
the ratio alone, keeps the ratios zero or larger. -/
theorem nonNegative_update (env : Env) (c : Config) (key : String) (f : Section → Section)
    (hf : ∀ s, (f s).ratio = s.ratio ∨ 0 ≤ (f s).ratio) (h : NonNegative env c) :
    NonNegative env (c.setSections (updateSection c.sections key f)) := by
  refine ⟨h.1, h.2.1, h.2.2.1, ?_⟩
  intro kv hkv
  have hkv' : kv ∈ updateSection c.sections key f := hkv
  unfold updateSection at hkv'
  obtain ⟨kv0, hmem, heq⟩ := List.mem_map.mp hkv'
  by_cases hk : kv0.1 = key
  · rw [if_pos hk] at heq
    rw [← heq]
    rcases hf kv0.2 with h1 | h1
    · rcases h.2.2.2 kv0 hmem with h2 | h2
      · left; exact h1.trans h2
      · right; show 0 ≤ (f kv0.2).ratio; rw [h1]; exact h2
    · right; exact h1
  · rw [if_neg hk] at heq
    rw [← heq]
    exact h.2.2.2 kv0 hmem

/-- Lemma: `ParseGlobal` keeps the ratios and depths zero or larger unless it throws
`ConfigError`. -/
theorem ParseGlobal_keeps (env : Env) (c : Config) (opt : String) (toks : List String) :
    KeepsNonNegative env c (ParseGlobal env c opt toks) := by
  unfold ParseGlobal
  repeat' first
    | (apply keeps_ite <;> intro _)
    | apply keeps_checked
    | apply keeps_built
    | apply keeps_stored
    | apply keeps_storedBool
    | apply keeps_storedNonNegative
    | apply keeps_pair
    | exact fun h => h
    | exact fun _ h => h
    | exact fun _ hn h => ⟨hn, h.2⟩
    | exact fun _ hn h => ⟨h.1, hn, h.2.2⟩
    | exact fun _ hn h => ⟨h.1, h.2.1, hn, h.2.2.2⟩
    | exact nonNegative_insert _ _ _
    | split

/-- Lemma: `ParseSection` keeps the ratios and depths zero or larger unless it throws
`ConfigError`. -/
theorem ParseSection_keeps (env : Env) (c : Config) (opt : String) (toks : List String) :
    KeepsNonNegative env c (ParseSection env c opt toks) := by
  unfold ParseSection
  repeat' first
    | (apply keeps_ite <;> intro _)
    | apply keeps_checked
    | apply keeps_built
    | apply keeps_storedBool
    | apply keeps_storedNonNegative
    | split
    | apply keeps_pair
    | exact fun h => h
    | exact fun _ h => nonNegative_update _ _ _ _ (fun _ => Or.inl rfl) h
    | exact fun h => nonNegative_update _ _ _ _ (fun _ => Or.inl rfl) h
    | exact fun _ hn h => nonNegative_update _ _ _ _ (fun _ => Or.inr hn) h

/-- Lemma: `Parse` keeps the ratios and depths zero or larger unless it throws
`ConfigError`. -/
theorem Parse_keeps (env : Env) (c : Config) (line : String) :
    KeepsNonNegative env c (Parse env c line) := by
  unfold Parse
  split
  · exact fun h _ => h
  · split
    · exact fun h _ => h
    · simp only []
      split
      · exact fun h hne => ParseSection_keeps env _ _ _ h hne
      · exact fun h hne => ParseGlobal_keeps env _ _ _ h hne

/-- Lemma: when the loop over the lines ends with `okay` still set, the ratios and depths are
zero or larger, provided they were at the start. -/
theorem parseLines_nonNegative (env : Env) (lines : List String) :
    ∀ (c : Config) (okay : Bool) (c' : Config),
      parseLines env c okay lines = Except.ok (c', true) →
      NonNegative env c → NonNegative env c' ∧ okay = true := by
  induction lines with
  | nil =>
    intro c okay c' h hc
    simp only [parseLines, Except.ok.injEq, Prod.mk.injEq] at h
    exact ⟨h.1 ▸ hc, h.2⟩
  | cons line rest ih =>
    intro c okay c' h hc
    unfold parseLines at h
    split at h
    · exact ih c okay c' h hc
    · have hk := Parse_keeps env c (stripComment line) hc
      split at h
      · rename_i c1 heq
        rw [heq] at hk
        exact ih c1 okay c' h (hk (by simp))
      · rename_i c1 msg heq
        -- after a ConfigError the flag is cleared and stays cleared
        have hfalse : ∀ (ls : List String) (d d' : Config),
            parseLines env d false ls ≠ Except.ok (d', true) := by
          intro ls
          induction ls with
          | nil => intro d d' hh; simp [parseLines] at hh
          | cons l ls ih2 =>
            intro d d' hh
            unfold parseLines at hh
            split at hh
            · exact ih2 d d' hh
            · split at hh
              · exact ih2 _ d' hh
              · exact ih2 _ d' hh
              · exact ih2 _ d' hh
              · exact absurd hh (by simp)
        exact absurd h (hfalse rest c1 c')
      · rename_i c1 heq
        rw [heq] at hk
        exact ih c1 okay c' h (hk (by simp))
      · exact absurd h (by simp)

/-- Lemma: after a successful construction the ratios and depths are zero or larger. -/
theorem Config_new_nonNegative (env : Env) (latestVersion : Int) (configFile : String)
    (io : Option String) (c : Config)
    (h : (Config.new env latestVersion configFile io).2 = Except.ok c) :
    NonNegative env c := by
  unfold Config.new at h
  simp only [] at h
  split at h
  · exact absurd h (by simp)
  · rename_i text
    split at h
    · exact absurd h (by simp)
    · rename_i c1 okay hparse
      split at h
      · rename_i hok
        rw [hok] at hparse
        have hinit : NonNegative env (Config.initial (preIncrement latestVersion) configFile) :=
          ⟨by simp [Config.initial], by simp [Config.initial], by simp [Config.initial],
            fun kv hkv => absurd hkv (List.not_mem_nil _)⟩
        have h1 := (parseLines_nonNegative env (getlines text) _ _ _ hparse hinit).1
        unfold SanityCheck at h
        split at h
        · exact absurd h (by simp)
        · simp only [Except.ok.injEq] at h
          rw [← h]
          split <;> split <;> exact h1
      · exact absurd h (by simp)

end cfg

/-! ## Theorems: section blocks, checked values and enumerations of the current parser -/

namespace cfg

open boost std

theorem only_refl (key : String) (c : Config) : OnlySection key c c :=
  ⟨rfl, rfl, rfl, fun _ h _ => h⟩

theorem only_update (key : String) (c : Config) (f : Section → Section) :
    OnlySection key c (c.setSections (updateSection c.sections key f)) := by
  refine ⟨rfl, rfl, ?_, ?_⟩
  · show (updateSection c.sections key f).map (fun kv => kv.1) = c.sections.map (fun kv => kv.1)
    unfold updateSection
    rw [List.map_map]
    apply List.map_congr_left
    intro kv _
    show (if kv.1 = key then (kv.1, f kv.2) else kv).1 = kv.1
    split <;> rfl
  · intro kv hkv hne
    show kv ∈ updateSection c.sections key f
    unfold updateSection
    exact List.mem_map.mpr ⟨kv, hkv, if_neg hne⟩

theorem only_checked (key : String) (c : Config) (check : Option Thrown) (k : Outcome)
    (h : OnlySection key c k.1) : OnlySection key c (checked c check k).1 := by
  unfold checked; split
  · exact only_refl key c
  · exact h

theorem only_built (key : String) (c : Config) (t : Option Thrown) (c' : Config)
    (h : OnlySection key c c') : OnlySection key c (built c t c').1 := by
  unfold built; split
  · exact only_refl key c
  · exact h

theorem only_storedBool (env : Env) (key : String) (c : Config) (tok : String)
    (set : Bool → Config) (h : ∀ b, OnlySection key c (set b)) :
    OnlySection key c (storedBool env c tok set).1 := by
  unfold storedBool; split
  · exact h _
  · exact only_refl key c

theorem only_storedNonNegative (key : String) (c : Config) (tok : String) (set : Int → Config)
    (m : String) (h : ∀ n, OnlySection key c (set n)) :
    OnlySection key c (storedNonNegative c tok set m).1 := by
  unfold storedNonNegative; split
  · split <;> exact h _
  · exact only_refl key c

/-- Lemma: inside the block of the section `key`, a `path`, `ratio` or `separate_credits` line
changes at most that section. -/
theorem ParseSection_only (env : Env) (c : Config) (key opt : String) (toks : List String)
    (hkey : c.currentSection = some key) (hopt : opt ∈ sectionSettings) :
    OnlySection key c (ParseSection env c opt toks).1 := by
  have hcases : opt = "path" ∨ opt = "ratio" ∨ opt = "separate_credits" := by
    simpa [sectionSettings] using hopt
  rcases hcases with h | h | h <;> subst h
  · unfold ParseSection
    rw [if_pos rfl, hkey]
    exact only_checked _ _ _ _ (only_built _ _ _ _ (only_update _ _ _))
  · unfold ParseSection
    rw [if_neg (by decide), if_neg (by decide), if_pos rfl, hkey]
    exact only_checked _ _ _ _ (only_storedNonNegative _ _ _ _ _ (fun _ => only_update _ _ _))
  · unfold ParseSection
    rw [if_neg (by decide), if_pos rfl, hkey]
    exact only_checked _ _ _ _ (only_storedBool _ _ _ _ _ (fun _ => only_update _ _ _))

/-- Lemma: `ParseSection` answers a keyword it does not know with `ConfigError` and changes
nothing. -/
theorem ParseSection_unknown (env : Env) (c : Config) (opt : String) (toks : List String)
    (hopt : opt ∉ sectionOptions) :
    ParseSection env c opt toks =
      (c, some (Thrown.ConfigError ("Invalid section config option: " ++ opt))) := by
  have h : ¬opt = "path" ∧ ¬opt = "ratio" ∧ ¬opt = "separate_credits" ∧ ¬opt = "endsection" := by
    simpa [sectionOptions] using hopt
  unfold ParseSection
  rw [if_neg h.1, if_neg h.2.2.1, if_neg h.2.1, if_neg h.2.2.2]

/-- Lemma: only `endsection` changes `currentSection` inside a block. -/
theorem ParseSection_current (env : Env) (c : Config) (key opt : String) (toks : List String)
    (hkey : c.currentSection = some key) (hopt : opt ≠ "endsection") :
    (ParseSection env c opt toks).1.currentSection = some key := by
  by_cases hs : opt ∈ sectionSettings
  · rw [(ParseSection_only env c key opt toks hkey hs).1, hkey]
  · have hno : opt ∉ sectionOptions := by
      simp only [sectionSettings, List.mem_cons, List.mem_singleton, List.not_mem_nil,
        or_false] at hs
      simp only [sectionOptions, List.mem_cons, List.mem_singleton, List.not_mem_nil,
        or_false]
      tauto
    rw [ParseSection_unknown env c opt toks hno]
    exact hkey

/-- Lemma: the line reaches `ParseSection` or `ParseGlobal` with the lower-cased keyword and the
counted configuration, according to `currentSection`. -/
theorem Parse_dispatch (env : Env) (c : Config) (line opt : String) (toks : List String)
    (htok : tokenize line = opt :: toks) (hopt : opt.length ≠ 0) :
    Parse env c line =
      if c.currentSection.isSome then ParseSection env (counted c opt) (to_lower opt) toks
      else ParseGlobal env (counted c opt) (to_lower opt) toks := by
  unfold Parse
  rw [htok]
  simp only []
  rw [if_neg hopt]
  rfl

/-- Lemma: a successful `section` line opens the named section. -/
theorem ParseGlobal_section (env : Env) (c : Config) (toks : List String)
    (hok : (ParseGlobal env c "section" toks).2 = none) :
    (ParseGlobal env c "section" toks).1.currentSection = some (to_upper (first toks)) ∧
    (to_upper (first toks), Section.new env (to_upper (first toks))) ∈
      (ParseGlobal env c "section" toks).1.sections := by
  have hdef : ParseGlobal env c "section" toks =
      checked c (ParameterCheck3 env "section" toks 1)
        (if c.sections.any (fun kv => kv.1 = to_upper (first toks)) then
           (c, some (Thrown.ConfigError
              ("Section " ++ to_upper (first toks) ++ " already exists.")))
         else
           ((c.setSections (env.sectionMap.insert c.sections
               (to_upper (first toks), Section.new env (to_upper (first toks))))
              ).setCurrentSection (some (to_upper (first toks))), none)) := rfl
  rw [hdef] at hok ⊢
  clear hdef
  generalize ParameterCheck3 env "section" toks 1 = check at hok ⊢
  cases check with
  | some e => exact absurd hok (by simp [checked])
  | none =>
    simp only [checked] at hok ⊢
    by_cases hany : (c.sections.any (fun kv => kv.1 = to_upper (first toks))) = true
    · rw [if_pos hany] at hok
      exact absurd hok (by simp)
    · rw [if_neg hany]
      exact ⟨rfl, (env.sectionMap.perm c.sections _).mem_iff.mpr
        (List.mem_append.mpr (Or.inr (List.mem_singleton.mpr rfl)))⟩

/-- Lemma: a `section` line that throws leaves the configuration as it was. -/
theorem ParseGlobal_section_thrown (env : Env) (c : Config) (toks : List String)
    (hthrown : (ParseGlobal env c "section" toks).2 ≠ none) :
    (ParseGlobal env c "section" toks).1 = c := by
  have hdef : ParseGlobal env c "section" toks =
      checked c (ParameterCheck3 env "section" toks 1)
        (if c.sections.any (fun kv => kv.1 = to_upper (first toks)) then
           (c, some (Thrown.ConfigError
              ("Section " ++ to_upper (first toks) ++ " already exists.")))
         else
           ((c.setSections (env.sectionMap.insert c.sections
               (to_upper (first toks), Section.new env (to_upper (first toks))))
              ).setCurrentSection (some (to_upper (first toks))), none)) := rfl
  rw [hdef] at hthrown ⊢
  clear hdef
  generalize ParameterCheck3 env "section" toks 1 = check at hthrown ⊢
  cases check with
  | some e => rfl
  | none =>
    simp only [checked] at hthrown ⊢
    by_cases hany : (c.sections.any (fun kv => kv.1 = to_upper (first toks))) = true
    · rw [if_pos hany]
    · rw [if_neg hany] at hthrown
      exact absurd rfl hthrown

/-- Lemma: `ParseGlobal` rejects the three settings of a section block. -/
theorem ParseGlobal_section_setting (env : Env) (c : Config) (opt : String)
    (toks : List String) (hopt : opt ∈ sectionSettings) :
    ParseGlobal env c opt toks =
      (c, some (Thrown.ConfigError ("Invalid global config option: " ++ opt))) := by
  have hcases : opt = "path" ∨ opt = "ratio" ∨ opt = "separate_credits" := by
    simpa [sectionSettings] using hopt
  rcases hcases with h | h | h <;> subst h <;> rfl

/-- Lemma: the parameter check throws nothing but `ConfigError`. -/
theorem ParameterCheck_thrown (opt : String) (toks : List String) (a b : Int) (e : Thrown)
    (h : ParameterCheck opt toks a b = some e) :
    e = Thrown.ConfigError ("Wrong numer of Parameters for " ++ opt) := by
  unfold ParameterCheck at h
  simp only [] at h
  split at h
  · exact (Option.some.inj h).symm
  · exact absurd h (by simp)

/-- Lemma: the three-argument parameter check throws nothing but `ConfigError`. -/
theorem ParameterCheck3_thrown (env : Env) (opt : String) (toks : List String) (n : Int)
    (e : Thrown) (h : ParameterCheck3 env opt toks n = some e) :
    e = Thrown.ConfigError ("Wrong numer of Parameters for " ++ opt) :=
  ParameterCheck_thrown opt toks n _ e h

/-- Lemma: the check for one parameter lets a single token pass. -/
theorem ParameterCheck3_single (env : Env) (opt t : String) :
    ParameterCheck3 env opt [t] 1 = none := by
  cases h : env.exactArity <;> simp [ParameterCheck3, ParameterCheck, h]

/-- Lemma: a value that is negative or not an integer makes the checked assignment throw
`ConfigError`. -/
theorem storedNonNegative_bad (c : Config) (tok : String) (set : Int → Config) (m : String)
    (hbad : badValue tok = true) :
    (storedNonNegative c tok set m).2 = some (Thrown.ConfigError m) := by
  unfold badValue at hbad
  unfold storedNonNegative
  cases hcast : lexical_cast_int tok with
  | none => rfl
  | some n =>
    rw [hcast] at hbad
    have hn : n < 0 := of_decide_eq_true hbad
    simp only []
    rw [if_pos hn]

/-- Lemma: when the continuation throws `ConfigError`, so does the checked step. -/
theorem checked_ConfigError (env : Env) (c : Config) (opt : String) (toks : List String)
    (n : Int) (k : Outcome) (h : ∃ m, k.2 = some (Thrown.ConfigError m)) :
    ∃ m, (checked c (ParameterCheck3 env opt toks n) k).2 = some (Thrown.ConfigError m) := by
  cases hcheck : ParameterCheck3 env opt toks n with
  | some e =>
    rw [ParameterCheck3_thrown env opt toks n e hcheck]
    exact ⟨_, rfl⟩
  | none => exact h

/-- Lemma: inside a block, `ratio` with a value that is negative or not an integer throws
`ConfigError`. -/
theorem ParseSection_ratio_bad (env : Env) (c : Config) (key : String) (toks : List String)
    (hkey : c.currentSection = some key) (hbad : badValue (first toks) = true) :
    ∃ m, (ParseSection env c "ratio" toks).2 = some (Thrown.ConfigError m) := by
  have hdef : ParseSection env c "ratio" toks =
      checked c (ParameterCheck3 env "ratio" toks 1)
        (match c.currentSection with
         | none => (c, some Thrown.other)
         | some key =>
           storedNonNegative c (first toks) (fun n =>
             c.setSections (updateSection c.sections key (fun s => { s with ratio := n })))
             "ratio must be zero or larger") := rfl
  rw [hdef, hkey]
  exact checked_ConfigError env c _ _ _ _ ⟨_, storedNonNegative_bad c _ _ _ hbad⟩

/-- Lemma: `maximum_ratio`, `cache_replicate` and `dir_size_depth` with a value that is negative
or not an integer throw `ConfigError`. -/
theorem ParseGlobal_depth_bad (env : Env) (c : Config) (opt : String) (toks : List String)
    (hopt : opt ∈ ["maximum_ratio", "cache_replicate", "dir_size_depth"])
    (hbad : badValue (first toks) = true) :
    ∃ m, (ParseGlobal env c opt toks).2 = some (Thrown.ConfigError m) := by
  have hcases : opt = "maximum_ratio" ∨ opt = "cache_replicate" ∨ opt = "dir_size_depth" := by
    simpa using hopt
  rcases hcases with h | h | h <;> subst h
  · have hdef : ParseGlobal env c "maximum_ratio" toks =
        checked c (ParameterCheck3 env "maximum_ratio" toks 1)
          (storedNonNegative c (first toks) (fun n => c.setMaximumRatio n)
            "maximum_ratio must be zero or larger") := rfl
    rw [hdef]
    exact checked_ConfigError env c _ _ _ _ ⟨_, storedNonNegative_bad c _ _ _ hbad⟩
  · have hdef : ParseGlobal env c "cache_replicate" toks =
        checked c (ParameterCheck3 env "cache_replicate" toks 1)
          (storedNonNegative c (first toks) (fun n => c.setCacheReplicate n)
            "cache_replicate must be zero or larger") := rfl
    rw [hdef]
    exact checked_ConfigError env c _ _ _ _ ⟨_, storedNonNegative_bad c _ _ _ hbad⟩
  · have hdef : ParseGlobal env c "dir_size_depth" toks =
        checked c (ParameterCheck3 env "dir_size_depth" toks 1)
          (storedNonNegative c (first toks) (fun n => c.setDirSizeDepth n)
            "dir_size_depth must be zero or larger") := rfl
    rw [hdef]
    exact checked_ConfigError env c _ _ _ _ ⟨_, storedNonNegative_bad c _ _ _ hbad⟩

/-- Lemma: the outcome of an `epsv_fxp` line. -/
theorem ParseGlobal_epsv_fxp (env : Env) (c : Config) (toks : List String) :
    ParseGlobal env c "epsv_fxp" toks =
      checked c (ParameterCheck3 env "epsv_fxp" toks 1)
        (if to_lower (first toks) = "allow" then (c.setEpsvFxp EPSVFxp.Allow, none)
         else if to_lower (first toks) = "deny" then (c.setEpsvFxp EPSVFxp.Deny, none)
         else if to_lower (first toks) = "force" then (c.setEpsvFxp EPSVFxp.Force, none)
         else (c, some (Thrown.ConfigError "epsv_fxp must be allow, deny or force"))) := rfl

/-- Lemma: the outcome of a `week_start` line. -/
theorem ParseGlobal_week_start (env : Env) (c : Config) (toks : List String) :
    ParseGlobal env c "week_start" toks =
      checked c (ParameterCheck3 env "week_start" toks 1)
        (if to_lower (first toks) = "sunday" then (c.setWeekStart WeekStart.Sunday, none)
         else if to_lower (first toks) = "monday" then (c.setWeekStart WeekStart.Monday, none)
         else (c, some (Thrown.ConfigError "week_start must be either sunday or monday."))) :=
  rfl

/-- Lemma: a checked step that throws `ConfigError` and keeps the configuration when its
continuation does. -/
theorem checked_rejects (env : Env) (c : Config) (opt : String) (toks : List String) (n : Int)
    (k : Outcome) (h : ∃ m, k = (c, some (Thrown.ConfigError m))) :
    ∃ m, checked c (ParameterCheck3 env opt toks n) k = (c, some (Thrown.ConfigError m)) := by
  cases hcheck : ParameterCheck3 env opt toks n with
  | some e =>
    rw [ParameterCheck3_thrown env opt toks n e hcheck]
    exact ⟨_, rfl⟩
  | none => exact h

/-- C18: a line whose first token is a non-empty keyword is parsed in one of two states, told
apart by `currentSection`.  Inside the block of a section the line goes to `ParseSection`: a
keyword other than `path`, `ratio`, `separate_credits`, `endsection` raises `ConfigError` and
changes nothing, `endsection` leaves the block, every other line stays in the block, and `path`,
`ratio`, `separate_credits` change at most the section of the block.  Outside a block the line is
a global option: `path`, `ratio`, `separate_credits` raise `ConfigError`, a `section` line that
succeeds enters the block of the section it adds, and every other line, and a `section` line
that throws, leaves the sections and the state as they were.  The keyword is lower-cased and
counted in `settingsCache` first. -/
theorem section_blocks_form_two_state_machine (env : Env) (c : Config) (line opt : String)
    (toks : List String) (htok : tokenize line = opt :: toks) (hopt : opt.length ≠ 0) :
    (∀ key, c.currentSection = some key →
      Parse env c line = ParseSection env (counted c opt) (to_lower opt) toks ∧
      (to_lower opt ∉ sectionOptions →
        Parse env c line = (counted c opt,
          some (Thrown.ConfigError ("Invalid section config option: " ++ to_lower opt)))) ∧
      (to_lower opt = "endsection" →
        Parse env c line = ((counted c opt).setCurrentSection none, none)) ∧
      (to_lower opt ≠ "endsection" → (Parse env c line).1.currentSection = some key) ∧
      (to_lower opt ∈ sectionSettings →
        OnlySection key (counted c opt) (Parse env c line).1)) ∧
    (c.currentSection = none →
      Parse env c line = ParseGlobal env (counted c opt) (to_lower opt) toks ∧
      (to_lower opt ∈ sectionSettings →
        Parse env c line = (counted c opt,
          some (Thrown.ConfigError ("Invalid global config option: " ++ to_lower opt)))) ∧
      (to_lower opt = "section" → (Parse env c line).2 = none →
        (Parse env c line).1.currentSection = some (to_upper (first toks)) ∧
        (to_upper (first toks), Section.new env (to_upper (first toks))) ∈
          (Parse env c line).1.sections) ∧
      (to_lower opt ≠ "section" ∨ (Parse env c line).2 ≠ none →
        SameSections c (Parse env c line).1)) := by
  have hd := Parse_dispatch env c line opt toks htok hopt
  constructor
  · intro key hkey
    have hkey' : (counted c opt).currentSection = some key := hkey
    have hP : Parse env c line = ParseSection env (counted c opt) (to_lower opt) toks := by
      rw [hd, hkey]; rfl
    refine ⟨hP, ?_, ?_, ?_, ?_⟩
    · intro hno
      rw [hP, ParseSection_unknown env _ _ toks hno]
    · intro hend
      rw [hP, hend]; rfl
    · intro hne
      rw [hP]
      exact ParseSection_current env _ key _ toks hkey' hne
    · intro hs
      rw [hP]
      exact ParseSection_only env _ key _ toks hkey' hs
  · intro hnone
    have hP : Parse env c line = ParseGlobal env (counted c opt) (to_lower opt) toks := by
      rw [hd, hnone]; rfl
    refine ⟨hP, ?_, ?_, ?_⟩
    · intro hs
      rw [hP, ParseGlobal_section_setting env _ _ toks hs]
    · intro hsec hok
      rw [hP, hsec] at hok ⊢
      exact ParseGlobal_section env _ toks hok
    · intro h
      rw [hP]
      by_cases hsec : to_lower opt = "section"
      · have hthrown : (Parse env c line).2 ≠ none := h.resolve_left (fun hne => hne hsec)
        rw [hP, hsec] at hthrown
        rw [hsec, ParseGlobal_section_thrown env _ toks hthrown]
        exact ⟨rfl, rfl⟩
      · exact ParseGlobal_sections env (counted c opt) _ toks hsec

set_option maxRecDepth 100000 in
theorem section_blocks_form_two_state_machine_witness :
    (tokenize "ratio 3" = "ratio" :: ["3"] ∧ "ratio".length ≠ 0 ∧
      insideA.currentSection = some "A" ∧ to_lower "ratio" ∈ sectionSettings) ∧
    OnlySection "A" (counted insideA "ratio") (Parse plainEnv insideA "ratio 3").1 ∧
    (tokenize "section a" = "section" :: ["a"] ∧ "section".length ≠ 0 ∧
      (Config.initial 1 "ftpd.conf").currentSection = none ∧ to_lower "section" = "section" ∧
      (Parse plainEnv (Config.initial 1 "ftpd.conf") "section a").2 = none) ∧
    (Parse plainEnv (Config.initial 1 "ftpd.conf") "section a").1.currentSection =
      some (to_upper (first ["a"])) :=
  ⟨⟨by decide, by decide, by decide, by decide⟩,
    ((section_blocks_form_two_state_machine plainEnv insideA "ratio 3" "ratio" ["3"]
      (by decide) (by decide)).1 "A" (by decide)).2.2.2.2 (by decide),
    ⟨by decide, by decide, by decide, by decide, by decide⟩,
    (((section_blocks_form_two_state_machine plainEnv (Config.initial 1 "ftpd.conf")
      "section a" "section" ["a"] (by decide) (by decide)).2 (by decide)).2.2.1
        (by decide) (by decide)).1⟩

/-- C19: a `ratio` line inside a section, and a `maximum_ratio`, `cache_replicate` or
`dir_size_depth` line outside one, whose value is negative or not an integer raises
`ConfigError` (the keyword in any case); and after every successful load `maximumRatio`,
`cacheReplicate` and `dirSizeDepth` are zero or larger and so is the ratio of every section,
unless it still has the value the constructor of `Section` gave it. -/
theorem ratios_and_depths_zero_or_larger (env : Env) :
    (∀ (c : Config) (key line opt : String) (toks : List String),
      tokenize line = opt :: toks → to_lower opt = "ratio" → c.currentSection = some key →
      badValue (first toks) = true →
      ∃ m, (Parse env c line).2 = some (Thrown.ConfigError m)) ∧
    (∀ (c : Config) (line opt : String) (toks : List String),
      tokenize line = opt :: toks →
      to_lower opt ∈ ["maximum_ratio", "cache_replicate", "dir_size_depth"] →
      c.currentSection = none → badValue (first toks) = true →
      ∃ m, (Parse env c line).2 = some (Thrown.ConfigError m)) ∧
    (∀ (latestVersion : Int) (configFile : String) (io : Option String) (loaded : Config),
      (Config.new env latestVersion configFile io).2 = Except.ok loaded →
      NonNegative env loaded) := by
  refine ⟨?_, ?_, ?_⟩
  · intro c key line opt toks htok hopt hkey hbad
    have hlen : opt.length ≠ 0 := by
      intro h0
      have hnil : opt = "" := by
        cases opt with
        | mk data =>
          cases data with
          | nil => rfl
          | cons _ _ => simp [String.length] at h0
      rw [hnil] at hopt
      exact absurd hopt (by decide)
    rw [Parse_dispatch env c line opt toks htok hlen, hkey, hopt]
    exact ParseSection_ratio_bad env (counted c opt) key toks hkey hbad
  · intro c line opt toks htok hopt hnone hbad
    have hlen : opt.length ≠ 0 := by
      intro h0
      have hnil : opt = "" := by
        cases opt with
        | mk data =>
          cases data with
          | nil => rfl
          | cons _ _ => simp [String.length] at h0
      rw [hnil] at hopt
      exact absurd hopt (by decide)
    rw [Parse_dispatch env c line opt toks htok hlen, hnone]
    exact ParseGlobal_depth_bad env (counted c opt) _ toks hopt hbad
  · intro latestVersion configFile io loaded hload
    exact Config_new_nonNegative env latestVersion configFile io loaded hload

set_option maxRecDepth 100000 in
theorem ratios_and_depths_zero_or_larger_witness :
    (tokenize "Ratio -3" = "Ratio" :: ["-3"] ∧ to_lower "Ratio" = "ratio" ∧
      insideA.currentSection = some "A" ∧ badValue (first ["-3"]) = true) ∧
    (∃ m, (Parse plainEnv insideA "Ratio -3").2 = some (Thrown.ConfigError m)) ∧
    (tokenize "dir_size_depth x" = "dir_size_depth" :: ["x"] ∧
      (Config.initial 1 "ftpd.conf").currentSection = none ∧ badValue (first ["x"]) = true) ∧
    (∃ m, (Parse plainEnv (Config.initial 1 "ftpd.conf") "dir_size_depth x").2 =
      some (Thrown.ConfigError m)) ∧
    (Config.new plainEnv 0 "ftpd.conf" (some ratioText)).2 = Except.ok ratioLoaded ∧
    NonNegative plainEnv ratioLoaded ∧
    ratioLoaded.sections.map (fun kv => (kv.1, kv.2.ratio)) = [("A", 3)] :=
  ⟨⟨by decide, by decide, by decide, by decide⟩,
    (ratios_and_depths_zero_or_larger plainEnv).1 insideA "A" "Ratio -3" "Ratio" ["-3"]
      (by decide) (by decide) (by decide) (by decide),
    ⟨by decide, by decide, by decide⟩,
    (ratios_and_depths_zero_or_larger plainEnv).2.1 (Config.initial 1 "ftpd.conf")
      "dir_size_depth x" "dir_size_depth" ["x"] (by decide) (by decide) (by decide) (by decide),
    by decide,
    (ratios_and_depths_zero_or_larger plainEnv).2.2 0 "ftpd.conf" (some ratioText) ratioLoaded
      (by decide),
    by decide⟩

/-- C20: `epsv_fxp` with one value that is `allow`, `deny` or `force` in any case stores
`Allow`, `Deny` or `Force`, and `week_start` with one value that is `sunday` or `monday` in any
case stores `Sunday` or `Monday`; for every other first value, and for no value at all,
`ParseGlobal` raises `ConfigError` and leaves the configuration, so the field, as it was. -/
theorem epsv_fxp_and_week_start_are_checked (env : Env) (c : Config) (t : String)
    (toks : List String) :
    (to_lower t = "allow" →
      ParseGlobal env c "epsv_fxp" [t] = (c.setEpsvFxp EPSVFxp.Allow, none)) ∧
    (to_lower t = "deny" →
      ParseGlobal env c "epsv_fxp" [t] = (c.setEpsvFxp EPSVFxp.Deny, none)) ∧
    (to_lower t = "force" →
      ParseGlobal env c "epsv_fxp" [t] = (c.setEpsvFxp EPSVFxp.Force, none)) ∧
    (to_lower t = "sunday" →
      ParseGlobal env c "week_start" [t] = (c.setWeekStart WeekStart.Sunday, none)) ∧
    (to_lower t = "monday" →
      ParseGlobal env c "week_start" [t] = (c.setWeekStart WeekStart.Monday, none)) ∧
    (to_lower (first toks) ∉ ["allow", "deny", "force"] →
      ∃ m, ParseGlobal env c "epsv_fxp" toks = (c, some (Thrown.ConfigError m)) ∧
        (ParseGlobal env c "epsv_fxp" toks).1.epsvFxp = c.epsvFxp) ∧
    (to_lower (first toks) ∉ ["sunday", "monday"] →
      ∃ m, ParseGlobal env c "week_start" toks = (c, some (Thrown.ConfigError m)) ∧
        (ParseGlobal env c "week_start" toks).1.weekStart = c.weekStart) := by
  have hfirst : first [t] = t := rfl
  refine ⟨?_, ?_, ?_, ?_, ?_, ?_, ?_⟩
  · intro h
    rw [ParseGlobal_epsv_fxp, ParameterCheck3_single, hfirst, if_pos h]; rfl
  · intro h
    have h1 : to_lower t ≠ "allow" := by rw [h]; decide
    rw [ParseGlobal_epsv_fxp, ParameterCheck3_single, hfirst, if_neg h1, if_pos h]; rfl
  · intro h
    have h1 : to_lower t ≠ "allow" := by rw [h]; decide
    have h2 : to_lower t ≠ "deny" := by rw [h]; decide
    rw [ParseGlobal_epsv_fxp, ParameterCheck3_single, hfirst, if_neg h1, if_neg h2, if_pos h]
    rfl
  · intro h
    rw [ParseGlobal_week_start, ParameterCheck3_single, hfirst, if_pos h]; rfl
  · intro h
    have h1 : to_lower t ≠ "sunday" := by rw [h]; decide
    rw [ParseGlobal_week_start, ParameterCheck3_single, hfirst, if_neg h1, if_pos h]; rfl
  · intro h
    have h3 : ¬to_lower (first toks) = "allow" ∧ ¬to_lower (first toks) = "deny" ∧
        ¬to_lower (first toks) = "force" := by simpa using h
    have hrej : ∃ m, ParseGlobal env c "epsv_fxp" toks = (c, some (Thrown.ConfigError m)) := by
      rw [ParseGlobal_epsv_fxp, if_neg h3.1, if_neg h3.2.1, if_neg h3.2.2]
      exact checked_rejects env c _ _ _ _ ⟨_, rfl⟩
    obtain ⟨m, hm⟩ := hrej
    exact ⟨m, hm, by rw [hm]⟩
  · intro h
    have h2 : ¬to_lower (first toks) = "sunday" ∧ ¬to_lower (first toks) = "monday" := by
      simpa using h
    have hrej : ∃ m, ParseGlobal env c "week_start" toks = (c, some (Thrown.ConfigError m)) := by
      rw [ParseGlobal_week_start, if_neg h2.1, if_neg h2.2]
      exact checked_rejects env c _ _ _ _ ⟨_, rfl⟩
    obtain ⟨m, hm⟩ := hrej
    exact ⟨m, hm, by rw [hm]⟩

set_option maxRecDepth 100000 in
theorem epsv_fxp_and_week_start_are_checked_witness :
    (to_lower "Force" = "force" ∧
      ParseGlobal plainEnv (Config.initial 1 "ftpd.conf") "epsv_fxp" ["Force"] =
        ((Config.initial 1 "ftpd.conf").setEpsvFxp EPSVFxp.Force, none)) ∧
    (to_lower (first ["weekly"]) ∉ ["sunday", "monday"] ∧
      ∃ m, ParseGlobal plainEnv (Config.initial 1 "ftpd.conf") "week_start" ["weekly"] =
          (Config.initial 1 "ftpd.conf", some (Thrown.ConfigError m)) ∧
        (ParseGlobal plainEnv (Config.initial 1 "ftpd.conf") "week_start" ["weekly"]
          ).1.weekStart = (Config.initial 1 "ftpd.conf").weekStart) :=
  ⟨⟨by decide,
      (epsv_fxp_and_week_start_are_checked plainEnv (Config.initial 1 "ftpd.conf") "Force"
        ["weekly"]).2.2.1 (by decide)⟩,
    ⟨by decide,
      (epsv_fxp_and_week_start_are_checked plainEnv (Config.initial 1 "ftpd.conf") "Force"
        ["weekly"]).2.2.2.2.2.2 (by decide)⟩⟩

end cfg

/-! ## `ftp::util`: translating a stream in chunks and translating twice -/

namespace ftp.util

/-- Lemma: `LFtoCRLF` gives the empty buffer exactly for the empty buffer. -/
theorem LFtoCRLF_eq_nil_iff (s : List UInt8) : LFtoCRLF s = [] ↔ s = [] := by
  constructor
  · intro h
    have h1 := LFtoCRLF_getLast s
    rw [h] at h1
    cases s with
    | nil => rfl
    | cons a t =>
      rw [List.getLast?_eq_getLast (a :: t) (List.cons_ne_nil a t)] at h1
      exact absurd h1.symm (by simp)
  · intro h; subst h; rfl

/-- Lemma: translating `a ++ b` whole and translating `a` and `b` one after the other give the
same bytes exactly unless `b` starts with an LF while `a` is not empty and does not end in a
CR. -/
theorem LFtoCRLF_append_iff (a b : List UInt8) :
    LFtoCRLF (a ++ b) = LFtoCRLF a ++ LFtoCRLF b ↔
      ¬ (b.head? = some LF ∧ a ≠ [] ∧ a.getLast? ≠ some CR) := by
  induction b using List.reverseRecOn with
  | nil =>
    simp only [List.append_nil, List.head?_nil]
    constructor
    · intro _ h; exact absurd h.1 (by simp)
    · intro _; show LFtoCRLF a = LFtoCRLF a ++ LFtoCRLF []; simp [LFtoCRLF]
  | append_singleton b c ih =>
    rw [← List.append_assoc, LFtoCRLF_snoc, LFtoCRLF_snoc]
    by_cases hb : b = []
    · subst hb
      have hnil : LFtoCRLF ([] : List UInt8) = [] := rfl
      simp only [List.append_nil, List.nil_append, hnil, List.head?_cons, Option.some.injEq,
        ne_eq, not_true_eq_false, false_and, and_false, if_false]
      by_cases hc : c = LF ∧ ¬a = [] ∧ ¬a.getLast? = some CR
      · rw [if_pos hc]
        constructor
        · intro h
          have := List.append_cancel_left h
          simp at this
        · intro h; exact absurd hc h
      · rw [if_neg hc]
        exact ⟨fun _ => hc, fun _ => rfl⟩
    · have hab : a ++ b ≠ [] := by
        intro h; exact hb (List.append_eq_nil.mp h).2
      have hlast : (a ++ b).getLast? = b.getLast? := by
        rw [List.getLast?_append]
        cases hbl : b.getLast? with
        | none => exact absurd (List.getLast?_eq_none_iff.mp hbl) hb
        | some x => rfl
      have hhead : (b ++ [c]).head? = b.head? := by
        cases b with
        | nil => exact absurd rfl hb
        | cons x t => rfl
      have hcond : (c = LF ∧ a ++ b ≠ [] ∧ (a ++ b).getLast? ≠ some CR) ↔
          (c = LF ∧ b ≠ [] ∧ b.getLast? ≠ some CR) := by
        rw [hlast]
        constructor
        · intro h; exact ⟨h.1, hb, h.2.2⟩
        · intro h; exact ⟨h.1, hab, h.2.2⟩
      rw [hhead, ← ih, if_congr hcond rfl rfl, ← List.append_assoc]
      exact List.append_left_inj _

/-- Lemma: translating the output of `LFtoCRLF` again changes nothing. -/
theorem LFtoCRLF_twice (s : List UInt8) : LFtoCRLF (LFtoCRLF s) = LFtoCRLF s := by
  induction s using List.reverseRecOn with
  | nil => rfl
  | append_singleton s c ih =>
    rw [LFtoCRLF_snoc]
    by_cases hc : c = LF ∧ s ≠ [] ∧ s.getLast? ≠ some CR
    · rw [if_pos hc]
      have h1 : LFtoCRLF s ++ [CR, c] = (LFtoCRLF s ++ [CR]) ++ [c] := by simp
      have hne : ¬ (CR = LF ∧ LFtoCRLF s ≠ [] ∧ (LFtoCRLF s).getLast? ≠ some CR) :=
        fun h => absurd h.1 (by decide)
      have hlast : ¬ (c = LF ∧ LFtoCRLF s ++ [CR] ≠ [] ∧
          (LFtoCRLF s ++ [CR]).getLast? ≠ some CR) := by
        intro h; exact h.2.2 (by simp)
      rw [h1, LFtoCRLF_snoc, LFtoCRLF_snoc, if_neg hne, if_neg hlast, ih]
    · rw [if_neg hc, LFtoCRLF_snoc, ih]
      have hcond : ¬ (c = LF ∧ LFtoCRLF s ≠ [] ∧ (LFtoCRLF s).getLast? ≠ some CR) := by
        intro h
        apply hc
        refine ⟨h.1, ?_, ?_⟩
        · intro hs; exact h.2.1 ((LFtoCRLF_eq_nil_iff s).mpr hs)
        · rw [← LFtoCRLF_getLast s]; exact h.2.2
      rw [if_neg hcond]

/-- Lemma: the loop of `LFtoCRLF` works from left to right: the translation of a buffer starts
with the translation of each of its prefixes. -/
theorem LFtoCRLF_extends (s t : List UInt8) : ∃ rest, LFtoCRLF (s ++ t) = LFtoCRLF s ++ rest := by
  induction t using List.reverseRecOn with
  | nil => exact ⟨[], by simp⟩
  | append_singleton t c ih =>
    obtain ⟨rest, hrest⟩ := ih
    rw [← List.append_assoc, LFtoCRLF_snoc, hrest]
    exact ⟨_, List.append_assoc _ _ _⟩

/-- Lemma: an LF byte that follows a CR byte is pushed as it is. -/
theorem LFtoCRLF_CRLF (pre : List UInt8) :
    LFtoCRLF (pre ++ [CR, LF]) = LFtoCRLF pre ++ [CR, LF] := by
  have h1 : pre ++ [CR, LF] = (pre ++ [CR]) ++ [LF] := by simp
  have hne : ¬ (CR = LF ∧ pre ≠ [] ∧ pre.getLast? ≠ some CR) :=
    fun h => absurd h.1 (by decide)
  have hlast : ¬ (LF = LF ∧ pre ++ [CR] ≠ [] ∧ (pre ++ [CR]).getLast? ≠ some CR) := by
    intro h; exact h.2.2 (by simp)
  rw [h1, LFtoCRLF_snoc, LFtoCRLF_snoc, if_neg hne, if_neg hlast]
  simp

/-- C27, on the failing input: the stream `A`, LF cut after the first byte.  Translated whole it
is `A`, CR, LF; translated chunk by chunk it is `A`, LF, because the LF is the first byte of its
chunk: the two differ and the chunked output has a bare LF.  (`LFtoCRLF_append_iff` gives the
exact condition under which the two agree.) -/
theorem LFtoCRLF_chunk_boundary_LF :
    LFtoCRLF ([65] ++ [LF]) = [65, CR, LF] ∧
    LFtoCRLF [65] ++ LFtoCRLF [LF] = [65, LF] ∧
    LFtoCRLF ([65] ++ [LF]) ≠ LFtoCRLF [65] ++ LFtoCRLF [LF] := by
  decide

/-- C28: `LFtoCRLF` is idempotent, `LFtoCRLF (LFtoCRLF s) = LFtoCRLF s` for every buffer `s`,
and a CR, LF pair of the input is pushed as it is, without a second CR: the translation of
`pre`, CR, LF, `post` starts with the translation of `pre` followed by CR, LF. -/
theorem LFtoCRLF_idempotent (s pre post : List UInt8) :
    LFtoCRLF (LFtoCRLF s) = LFtoCRLF s ∧
    LFtoCRLF (pre ++ [CR, LF]) = LFtoCRLF pre ++ [CR, LF] ∧
    ∃ rest, LFtoCRLF (pre ++ [CR, LF] ++ post) = LFtoCRLF pre ++ [CR, LF] ++ rest := by
  refine ⟨LFtoCRLF_twice s, LFtoCRLF_CRLF pre, ?_⟩
  obtain ⟨rest, hrest⟩ := LFtoCRLF_extends (pre ++ [CR, LF]) post
  exact ⟨rest, by rw [hrest, LFtoCRLF_CRLF]⟩

end ftp.util

/-! ## The group cache when a group is gone, and the keys of a saved group -/

namespace db

/-- Lemma: what `Replicate` leaves when the store has no group with the replicated gid. -/
theorem Replicate_not_found (query : Int → QueryResult) (cache : GroupCache)
    (id : BSONElement) (htype : id.type = 16) (hq : query id.int = QueryResult.found none) :
    cache.Replicate query id =
      match cache.names id.int with
      | some name =>
        (true, { gids := cache.gids.erase name, names := cache.names.erase id.int })
      | none => (true, cache) := by
  unfold GroupCache.Replicate
  rw [if_neg (by simp [htype]), hq]
  try rfl

/-- C23, counterexample: the replicated gid is -1 and the store has no group with it.  After
`Replicate` the lookup `GIDToName (-1)` is `NoGroup`, not `unknown`. -/
theorem Replicate_gid_minus_one_is_NoGroup :
    (oneGroup.Replicate (fun _ => QueryResult.found none) { type := 16, int := -1 }).1 = true ∧
    (oneGroup.Replicate (fun _ => QueryResult.found none)
      { type := 16, int := -1 }).2.GIDToName (-1) = "NoGroup" ∧
    (oneGroup.Replicate (fun _ => QueryResult.found none)
      { type := 16, int := -1 }).2.GIDToName (-1) ≠ "unknown" := by
  decide

/-- C23, amended: when the replicated element is an integer gid and the store has no group with
it, `Replicate` returns true and removes the group from both caches and nothing else:
afterwards `GIDToName gid` is `unknown` when gid is not -1 (and `NoGroup` when it is), the name
that was cached for gid resolves to -1 through `NameToGID`, the names map is unchanged at every
other gid, and the gids map is unchanged at every name other than the one that was cached for
gid. -/
theorem Replicate_removes_only_the_lost_group (query : Int → QueryResult) (cache : GroupCache)
    (id : BSONElement) (htype : id.type = 16) (hq : query id.int = QueryResult.found none) :
    (cache.Replicate query id).1 = true ∧
    (id.int ≠ -1 → (cache.Replicate query id).2.GIDToName id.int = "unknown") ∧
    (id.int = -1 → (cache.Replicate query id).2.GIDToName id.int = "NoGroup") ∧
    (∀ name, cache.names id.int = some name →
      (cache.Replicate query id).2.NameToGID name = -1) ∧
    (∀ gid, gid ≠ id.int → (cache.Replicate query id).2.names gid = cache.names gid) ∧
    (∀ name, cache.names id.int ≠ some name →
      (cache.Replicate query id).2.gids name = cache.gids name) := by
  rw [Replicate_not_found query cache id htype hq]
  cases hname : cache.names id.int with
  | none =>
    refine ⟨rfl, ?_, ?_, ?_, ?_, ?_⟩
    · intro hne
      simp [GroupCache.GIDToName, hne, hname]
    · intro heq
      simp [GroupCache.GIDToName, heq]
    · intro name h; exact absurd h (by simp)
    · intro gid _; rfl
    · intro name _; rfl
  | some cached =>
    refine ⟨rfl, ?_, ?_, ?_, ?_, ?_⟩
    · intro hne
      simp [GroupCache.GIDToName, hne, Map.erase]
    · intro heq
      simp [GroupCache.GIDToName, heq]
    · intro name h
      have hn : name = cached := (Option.some.inj h).symm
      subst hn
      simp [GroupCache.NameToGID, Map.erase]
    · intro gid hne
      simp [Map.erase, hne]
    · intro name hne
      have hn : name ≠ cached := fun e => hne (by rw [e])
      simp [Map.erase, hn]

theorem Replicate_removes_only_the_lost_group_witness :
    ((5 : Int) ≠ -1 ∧ oneGroup.names 5 = some "old") ∧
    (oneGroup.Replicate (fun _ => QueryResult.found none)
      { type := 16, int := 5 }).2.GIDToName 5 = "unknown" ∧
    (oneGroup.Replicate (fun _ => QueryResult.found none)
      { type := 16, int := 5 }).2.NameToGID "old" = -1 :=
  ⟨⟨by decide, by decide⟩,
    (Replicate_removes_only_the_lost_group (fun _ => QueryResult.found none) oneGroup
      { type := 16, int := 5 } rfl rfl).2.1 (by decide),
    (Replicate_removes_only_the_lost_group (fun _ => QueryResult.found none) oneGroup
      { type := 16, int := 5 } rfl rfl).2.2.2.1 "old" (by decide)⟩

/-- Lemma: `Unserialize` reads each attribute from the key `Serialize` writes it under. -/
theorem Unserialize_keys (obj : BSONObj) (group : acl.Group)
    (h : Unserialize obj = some group) :
    obj.get "gid" = some (BSONValue.num group.id) ∧
    obj.get "name" = some (BSONValue.str group.name) ∧
    obj.get "description" = some (BSONValue.str group.description) ∧
    obj.get "comment" = some (BSONValue.str group.comment) ∧
    obj.get "slots" = some (BSONValue.num group.slots) ∧
    obj.get "leech slots" = some (BSONValue.num group.leechSlots) ∧
    obj.get "allotment slots" = some (BSONValue.num group.allotmentSlots) ∧
    obj.get "max allotment size" = some (BSONValue.num group.maxAllotmentSize) ∧
    obj.get "max logins" = some (BSONValue.num group.maxLogins) := by
  have hint : ∀ key n, obj.getInt key = some n → obj.get key = some (BSONValue.num n) := by
    intro key n hk
    unfold BSONObj.getInt at hk
    split at hk
    · rename_i m hm
      rw [hm, Option.some.inj hk]
    · exact absurd hk (by simp)
  have hstr : ∀ key s, obj.getString key = some s → obj.get key = some (BSONValue.str s) := by
    intro key s hk
    unfold BSONObj.getString at hk
    split at hk
    · rename_i m hm
      rw [hm, Option.some.inj hk]
    · exact absurd hk (by simp)
  simp only [Unserialize, Option.bind_eq_bind, Option.bind_eq_some, Option.pure_def,
    Option.some.injEq] at h
  obtain ⟨id, h1, name, h2, description, h3, comment, h4, _, _, leech, h6, allot, h7, size, h8,
    slots, h9, logins, h10, hg⟩ := h
  subst hg
  exact ⟨hint _ _ h1, hstr _ _ h2, hstr _ _ h3, hstr _ _ h4, hint _ _ h9, hint _ _ h6,
    hint _ _ h7, hint _ _ h8, hint _ _ h10⟩

/-- C25: each of the eight single-field save methods passes `SetField` a field name that is a
key of the object `Serialize` builds for the group, holding the attribute the method is named
after, and that `Unserialize` reads that same attribute from: whenever `Unserialize` yields a
group, the object holds that group's attribute under the key.  The save is on the collection
`groups` and the group's own gid, and a serialised group is read back as it was. -/
theorem save_fields_are_serialised_keys (group : acl.Group) :
    (∀ m ∈ saveMethods,
      (Serialize group).get (m.1 group).field = some (m.2 group) ∧
      (m.1 group).collection = "groups" ∧ (m.1 group).gid = group.id ∧
      ∀ obj read, Unserialize obj = some read → obj.get (m.1 group).field = some (m.2 read)) ∧
    saveMethods.map (fun m => (m.1 group).field) =
      ["name", "description", "comment", "slots", "leech slots", "allotment slots",
       "max allotment size", "max logins"] ∧
    Unserialize (Serialize group) = some group := by
  refine ⟨?_, rfl, rfl⟩
  intro m hm
  simp only [saveMethods, List.mem_cons, List.mem_singleton, List.not_mem_nil, or_false] at hm
  rcases hm with h | h | h | h | h | h | h | h <;> subst h
  · exact ⟨rfl, rfl, rfl, fun obj read hr => (Unserialize_keys obj read hr).2.1⟩
  · exact ⟨rfl, rfl, rfl, fun obj read hr => (Unserialize_keys obj read hr).2.2.1⟩
  · exact ⟨rfl, rfl, rfl, fun obj read hr => (Unserialize_keys obj read hr).2.2.2.1⟩
  · exact ⟨rfl, rfl, rfl, fun obj read hr => (Unserialize_keys obj read hr).2.2.2.2.1⟩
  · exact ⟨rfl, rfl, rfl, fun obj read hr => (Unserialize_keys obj read hr).2.2.2.2.2.1⟩
  · exact ⟨rfl, rfl, rfl, fun obj read hr => (Unserialize_keys obj read hr).2.2.2.2.2.2.1⟩
  · exact ⟨rfl, rfl, rfl, fun obj read hr => (Unserialize_keys obj read hr).2.2.2.2.2.2.2.1⟩
  · exact ⟨rfl, rfl, rfl, fun obj read hr => (Unserialize_keys obj read hr).2.2.2.2.2.2.2.2⟩

theorem save_fields_are_serialised_keys_witness :
    (Group.SaveLeechSlots, fun g : acl.Group => BSONValue.num g.leechSlots) ∈ saveMethods ∧
    (Serialize sampleGroup).get (Group.SaveLeechSlots sampleGroup).field =
      some (BSONValue.num 2) ∧
    (Unserialize (Serialize sampleGroup) = some sampleGroup ∧
      (Serialize sampleGroup).get (Group.SaveLeechSlots sampleGroup).field =
        some (BSONValue.num sampleGroup.leechSlots)) :=
  ⟨by simp [saveMethods],
    ((save_fields_are_serialised_keys sampleGroup).1
      (Group.SaveLeechSlots, fun g : acl.Group => BSONValue.num g.leechSlots)
      (by simp [saveMethods])).1,
    ⟨rfl,
      ((save_fields_are_serialised_keys sampleGroup).1
        (Group.SaveLeechSlots, fun g : acl.Group => BSONValue.num g.leechSlots)
        (by simp [saveMethods])).2.2.2 (Serialize sampleGroup) sampleGroup rfl⟩⟩

end db

/-! ## `SITE GIVE`: the `-s` flag, the range of the credits and a bad amount -/

namespace cmd.site

open boost

/-- Lemma: `Execute` with the flag `-s` and a section argument, case by case. -/
theorem Execute_flag (env : Env) (config : cfg.Config) (caller : User)
    (word flag sec : String) (rest : List String) (hflag : to_lower flag = "-s") :
    GIVECommand.Execute env config caller (word :: flag :: sec :: rest) =
      if rest.length < 2 then
        { thrown := some Thrown.SyntaxError, reply := none, caller := caller,
          recipient := none }
      else
        match config.sections.find? (fun kv => kv.1 = to_upper sec) with
        | none =>
          { thrown := none, reply := some (Reply.sectionMissing (to_upper sec)),
            caller := caller, recipient := none }
        | some kv =>
          if kv.2.separateCredits then
            GIVECommand.give env caller (to_upper sec) (word :: rest)
          else
            { thrown := none, reply := some (Reply.noSeparateCredits (to_upper sec)),
              caller := caller, recipient := none } := by
  have hlen : (word :: flag :: sec :: rest).length < 5 ↔ rest.length < 2 := by
    simp only [List.length_cons]; omega
  simp only [GIVECommand.Execute, List.get?_cons_succ, List.get?_cons_zero, hflag, if_true,
    hlen, List.take_succ_cons, List.take_zero, List.drop_succ_cons, List.drop_zero,
    List.singleton_append]
  try rfl

/-- C24: `SITE GIVE` with the flag `-s` (in either case) and a section argument looks the
section up under its upper-cased name, so two spellings that differ in case only give the same
result.  With fewer than five arguments the command raises `SyntaxError`.  With five or more,
when no section is declared under the upper-cased name, or the one declared has no separate
credits, the command replies with an error (`ActionNotOkay`), loads no user and leaves the
caller as it was; when the section has separate credits the command goes on with the upper-cased
name as section and the remaining arguments. -/
theorem GIVE_section_flag_is_checked (env : Env) (config : cfg.Config) (caller : User)
    (word flag sec : String) (rest : List String) (hflag : to_lower flag = "-s") :
    (∀ sec', to_upper sec' = to_upper sec →
      GIVECommand.Execute env config caller (word :: flag :: sec' :: rest) =
        GIVECommand.Execute env config caller (word :: flag :: sec :: rest)) ∧
    ((word :: flag :: sec :: rest).length < 5 →
      GIVECommand.Execute env config caller (word :: flag :: sec :: rest) =
        { thrown := some Thrown.SyntaxError, reply := none, caller := caller,
          recipient := none }) ∧
    (5 ≤ (word :: flag :: sec :: rest).length →
      config.sections.find? (fun kv => kv.1 = to_upper sec) = none →
      GIVECommand.Execute env config caller (word :: flag :: sec :: rest) =
        { thrown := none, reply := some (Reply.sectionMissing (to_upper sec)),
          caller := caller, recipient := none }) ∧
    (5 ≤ (word :: flag :: sec :: rest).length →
      ∀ kv, config.sections.find? (fun kv => kv.1 = to_upper sec) = some kv →
      kv.2.separateCredits = false →
      GIVECommand.Execute env config caller (word :: flag :: sec :: rest) =
        { thrown := none, reply := some (Reply.noSeparateCredits (to_upper sec)),
          caller := caller, recipient := none }) ∧
    (5 ≤ (word :: flag :: sec :: rest).length →
      ∀ kv, config.sections.find? (fun kv => kv.1 = to_upper sec) = some kv →
      kv.2.separateCredits = true →
      GIVECommand.Execute env config caller (word :: flag :: sec :: rest) =
        GIVECommand.give env caller (to_upper sec) (word :: rest)) ∧
    (Reply.sectionMissing (to_upper sec)).code = ReplyCode.ActionNotOkay ∧
    (Reply.noSeparateCredits (to_upper sec)).code = ReplyCode.ActionNotOkay := by
  have hlen : (word :: flag :: sec :: rest).length < 5 ↔ rest.length < 2 := by
    simp only [List.length_cons]; omega
  refine ⟨?_, ?_, ?_, ?_, ?_, rfl, rfl⟩
  · intro sec' hsec
    rw [Execute_flag env config caller word flag sec' rest hflag,
      Execute_flag env config caller word flag sec rest hflag, hsec]
  · intro h
    rw [Execute_flag env config caller word flag sec rest hflag, if_pos (hlen.mp h)]
  · intro h hfind
    have h2 : ¬ rest.length < 2 := fun hlt => absurd (hlen.mpr hlt) (by omega)
    rw [Execute_flag env config caller word flag sec rest hflag, if_neg h2, hfind]
  · intro h kv hfind hsep
    have h2 : ¬ rest.length < 2 := fun hlt => absurd (hlen.mpr hlt) (by omega)
    rw [Execute_flag env config caller word flag sec rest hflag, if_neg h2, hfind]
    simp [hsep]
  · intro h kv hfind hsep
    have h2 : ¬ rest.length < 2 := fun hlt => absurd (hlen.mpr hlt) (by omega)
    rw [Execute_flag env config caller word flag sec rest hflag, if_neg h2, hfind]
    simp [hsep]

set_option maxRecDepth 100000 in
theorem GIVE_section_flag_is_checked_witness :
    (to_lower "-S" = "-s" ∧ to_upper "a" = to_upper "A" ∧
      5 ≤ ["GIVE", "-S", "A", "bob", "5"].length ∧
      cfg.insideA.sections.find? (fun kv => kv.1 = to_upper "A") =
        some ("A", cfg.Section.new cfg.plainEnv "A") ∧
      (cfg.Section.new cfg.plainEnv "A").separateCredits = false) ∧
    GIVECommand.Execute plainEnv cfg.insideA siteop ["GIVE", "-S", "a", "bob", "5"] =
      GIVECommand.Execute plainEnv cfg.insideA siteop ["GIVE", "-S", "A", "bob", "5"] ∧
    GIVECommand.Execute plainEnv cfg.insideA siteop ["GIVE", "-S", "A", "bob", "5"] =
      { thrown := none, reply := some (Reply.noSeparateCredits (to_upper "A")),
        caller := siteop, recipient := none } :=
  ⟨⟨by decide, by decide, by decide, by decide, by decide⟩,
    (GIVE_section_flag_is_checked plainEnv cfg.insideA siteop "GIVE" "-S" "A" ["bob", "5"]
      (by decide)).1 "a" (by decide),
    (GIVE_section_flag_is_checked plainEnv cfg.insideA siteop "GIVE" "-S" "A" ["bob", "5"]
      (by decide)).2.2.2.1 (by decide) ("A", cfg.Section.new cfg.plainEnv "A") (by decide)
      (by decide)⟩

set_option maxRecDepth 100000 in
/-- C29, on the failing input: a caller who holds `give` gives `bob`, whose balance is 0, the
amount `8796093022208G`.  The amount is accepted (no exception, reply `CommandOkay`); the exact
product 8796093022208 × 1048576 is 9223372036854775808, one more than the largest signed 64-bit
value, and the credits the recipient is given are -9223372036854775808, so the balance is
lowered.  (A `long long` product out of range is undefined in C++ and taken to wrap.) -/
theorem GIVE_product_leaves_signed_range :
    (GIVECommand.Execute plainEnv (cfg.Config.initial 1 "ftpd.conf") siteop
      ["GIVE", "bob", "8796093022208G"]).thrown = none ∧
    (GIVECommand.Execute plainEnv (cfg.Config.initial 1 "ftpd.conf") siteop
      ["GIVE", "bob", "8796093022208G"]).reply.map Reply.code =
        some ReplyCode.CommandOkay ∧
    lexical_cast_ll "8796093022208" = some 8796093022208 ∧
    (8796093022208 : Int) * 1048576 = 9223372036854775808 ∧
    (plainEnv.Load "bob").map (fun u => u.sectionCredits "") = some 0 ∧
    (GIVECommand.Execute plainEnv (cfg.Config.initial 1 "ftpd.conf") siteop
      ["GIVE", "bob", "8796093022208G"]).recipient.map (fun u => u.sectionCredits "") =
        some (-9223372036854775808) := by
  decide

/-- Lemma: the unit and the numeric part of a non-empty amount. -/
theorem splitAmount_numericPart (amount : String) (h : amount ≠ "") :
    ∃ type, splitAmount amount = some (type, numericPart amount) := by
  unfold splitAmount numericPart
  cases hlast : amount.data.getLast? with
  | none =>
    have hnil : amount.data = [] := List.getLast?_eq_none_iff.mp hlast
    exact absurd (String.ext hnil) h
  | some last =>
    simp only []
    split
    · exact ⟨_, rfl⟩
    · exact ⟨_, rfl⟩

/-- Lemma: the credits are refused exactly for a numeric part that is empty, not an integer or
negative, whatever the unit. -/
theorem parseCredits_eq_none_iff (type amount : String) :
    parseCredits type amount = none ↔ badNumber amount = true := by
  unfold parseCredits badNumber
  cases lexical_cast_ll amount with
  | none => simp
  | some n =>
    simp only [decide_eq_true_eq]
    constructor
    · intro h
      by_contra hn
      rw [if_neg hn] at h
      split at h
      · exact absurd h (by simp)
      · split at h <;> exact absurd h (by simp)
    · intro hn
      rw [if_pos hn]

/-- Lemma: what the part of `Execute` after the `-s` block does with the amount once the
recipient is loaded: an empty amount throws `std::out_of_range`, a bad numeric part throws
`SyntaxError`, and in both cases nobody's credits change. -/
theorem give_of_bad_amount (env : Env) (caller : User) (section_ : String)
    (args : List String) (name amt : String) (user : User)
    (h1 : args.get? 1 = some name) (hload : env.Load name = some user)
    (h2 : args.get? 2 = some amt) :
    (amt = "" → GIVECommand.give env caller section_ args =
      { thrown := some Thrown.out_of_range, reply := none, caller := caller,
        recipient := some user }) ∧
    (amt ≠ "" → badNumber (numericPart amt) = true →
      GIVECommand.give env caller section_ args =
        { thrown := some Thrown.SyntaxError, reply := none, caller := caller,
          recipient := some user }) := by
  constructor
  · intro hempty
    subst hempty
    simp only [GIVECommand.give, h1, hload, h2]
    rfl
  · intro hne hbad
    obtain ⟨type, hsplit⟩ := splitAmount_numericPart amt hne
    have hnone := (parseCredits_eq_none_iff type (numericPart amt)).mpr hbad
    simp only [GIVECommand.give, h1, hload, h2, hsplit, hnone]

set_option maxRecDepth 100000 in
/-- C30, counterexample: the amount is the empty string, so its numeric part is empty.  The
command does not raise `SyntaxError`: `amount.at(amount.length()-1)` throws
`std::out_of_range`. -/
theorem GIVE_empty_amount_out_of_range :
    numericPart "" = "" ∧
    (GIVECommand.Execute plainEnv (cfg.Config.initial 1 "ftpd.conf") siteop
      ["GIVE", "bob", ""]).thrown = some Thrown.out_of_range ∧
    (GIVECommand.Execute plainEnv (cfg.Config.initial 1 "ftpd.conf") siteop
      ["GIVE", "bob", ""]).thrown ≠ some Thrown.SyntaxError := by
  decide

/-- C30, amended: once the recipient is loaded, `SITE GIVE` rejects a bad amount before touching
any balance.  If the amount is not empty and its numeric part (the amount after removing one
trailing letter, if any) is empty, not an integer, or negative, the command raises
`SyntaxError`; if the amount itself is empty the command raises `std::out_of_range`.  In both
cases no reply is sent and the caller's and the recipient's user objects, so their credits, are
as they were. -/
theorem GIVE_bad_amount_touches_no_balance (env : Env) (config : cfg.Config)
    (caller user : User) (args args' : List String) (section_ name amt : String)
    (hreach : GIVECommand.Execute env config caller args =
      GIVECommand.give env caller section_ args')
    (h1 : args'.get? 1 = some name) (hload : env.Load name = some user)
    (h2 : args'.get? 2 = some amt) :
    (amt ≠ "" → badNumber (numericPart amt) = true →
      (GIVECommand.Execute env config caller args).thrown = some Thrown.SyntaxError) ∧
    (amt = "" →
      (GIVECommand.Execute env config caller args).thrown = some Thrown.out_of_range) ∧
    (amt = "" ∨ badNumber (numericPart amt) = true →
      (GIVECommand.Execute env config caller args).reply = none ∧
      (GIVECommand.Execute env config caller args).caller = caller ∧
      (GIVECommand.Execute env config caller args).recipient = some user) := by
  obtain ⟨hempty, hbad⟩ :=
    give_of_bad_amount env caller section_ args' name amt user h1 hload h2
  rw [hreach]
  refine ⟨?_, ?_, ?_⟩
  · intro hne hb
    rw [hbad hne hb]
  · intro he
    rw [hempty he]
  · intro h
    by_cases he : amt = ""
    · rw [hempty he]; exact ⟨rfl, rfl, rfl⟩
    · rw [hbad he (h.resolve_left he)]; exact ⟨rfl, rfl, rfl⟩

set_option maxRecDepth 100000 in
theorem GIVE_bad_amount_touches_no_balance_witness :
    ("-5M" ≠ "" ∧ numericPart "-5M" = "-5" ∧ badNumber (numericPart "-5M") = true ∧
      numericPart "K" = "" ∧ badNumber (numericPart "K") = true) ∧
    (GIVECommand.Execute plainEnv (cfg.Config.initial 1 "ftpd.conf") alice
      ["GIVE", "bob", "-5M"]).thrown = some Thrown.SyntaxError ∧
    (GIVECommand.Execute plainEnv (cfg.Config.initial 1 "ftpd.conf") alice
      ["GIVE", "bob", "K"]).caller = alice :=
  ⟨⟨by decide, by decide, by decide, by decide, by decide⟩,
    (GIVE_bad_amount_touches_no_balance plainEnv (cfg.Config.initial 1 "ftpd.conf") alice
      { name := "bob", defaultRatio := 3, sectionRatio := fun _ => -1,
        sectionCredits := fun _ => 0 }
      ["GIVE", "bob", "-5M"] ["GIVE", "bob", "-5M"] "" "bob" "-5M" rfl rfl rfl rfl).1
      (by decide) (by decide),
    ((GIVE_bad_amount_touches_no_balance plainEnv (cfg.Config.initial 1 "ftpd.conf") alice
      { name := "bob", defaultRatio := 3, sectionRatio := fun _ => -1,
        sectionCredits := fun _ => 0 }
      ["GIVE", "bob", "K"] ["GIVE", "bob", "K"] "" "bob" "K" rfl rfl rfl rfl).2.2
      (Or.inr (by decide))).2.1⟩

end cmd.site

/-! ## The current configuration parser: ACL overrides and bouncer addresses -/

namespace cfg

open boost std

theorem field_ite {α : Type} (f : Config → α) (c : Config) (cond : Prop) [Decidable cond]
    (a b : Outcome) (ha : cond → SameField f c a.1) (hb : ¬cond → SameField f c b.1) :
    SameField f c (if cond then a else b).1 := by
  split
  · exact ha ‹_›
  · exact hb ‹_›

theorem field_checked {α : Type} (f : Config → α) (c : Config) (check : Option Thrown)
    (k : Outcome) (h : SameField f c k.1) : SameField f c (checked c check k).1 := by
  unfold checked; split
  · exact rfl
  · exact h

theorem field_built {α : Type} (f : Config → α) (c : Config) (t : Option Thrown)
    (c' : Config) (h : SameField f c c') : SameField f c (built c t c').1 := by
  unfold built; split
  · exact rfl
  · exact h

theorem field_stored {α : Type} (f : Config → α) (c : Config) (tok : String)
    (set : Int → Config) (h : ∀ n, SameField f c (set n)) :
    SameField f c (stored c tok set).1 := by
  unfold stored; split
  · exact h _
  · exact rfl

theorem field_storedNonNegative {α : Type} (f : Config → α) (c : Config) (tok : String)
    (set : Int → Config) (m : String) (h : ∀ n, SameField f c (set n)) :
    SameField f c (storedNonNegative c tok set m).1 := by
  unfold storedNonNegative; split
  · split <;> exact h _
  · exact rfl

theorem field_storedBool {α : Type} (f : Config → α) (env : Env) (c : Config) (tok : String)
    (set : Bool → Config) (h : ∀ b, SameField f c (set b)) :
    SameField f c (storedBool env c tok set).1 := by
  unfold storedBool; split
  · exact h _
  · exact rfl

/-- Lemma: a global option other than `bouncer_ip` leaves the list `bouncerIp` as it was. -/
theorem ParseGlobal_bouncerIp (env : Env) (c : Config) (opt : String) (toks : List String)
    (hne : opt ≠ "bouncer_ip") :
    SameField Config.bouncerIp c (ParseGlobal env c opt toks).1 := by
  unfold ParseGlobal
  repeat' first
    | (apply field_ite <;> intro _)
    | apply field_checked
    | apply field_built
    | (apply field_stored; intro _)
    | (apply field_storedNonNegative; intro _)
    | (apply field_storedBool; intro _)
    | exact rfl
    | exact absurd (by assumption) hne
    | split

/-- Lemma: a global option other than `site_cmd` leaves the list `siteCmd` as it was. -/
theorem ParseGlobal_siteCmd (env : Env) (c : Config) (opt : String) (toks : List String)
    (hne : opt ≠ "site_cmd") :
    SameField Config.siteCmd c (ParseGlobal env c opt toks).1 := by
  unfold ParseGlobal
  repeat' first
    | (apply field_ite <;> intro _)
    | apply field_checked
    | apply field_built
    | (apply field_stored; intro _)
    | (apply field_storedNonNegative; intro _)
    | (apply field_storedBool; intro _)
    | exact rfl
    | exact absurd (by assumption) hne
    | split

/-- Lemma: no option of a section block touches a member `f` that the assignments to `sections`
and `currentSection` leave alone. -/
theorem ParseSection_field {α : Type} (f : Config → α) (env : Env) (c : Config)
    (opt : String) (toks : List String)
    (hsec : ∀ (d : Config) v, f (d.setSections v) = f d)
    (hcur : ∀ (d : Config) v, f (d.setCurrentSection v) = f d) :
    SameField f c (ParseSection env c opt toks).1 := by
  unfold ParseSection
  repeat' first
    | (apply field_ite <;> intro _)
    | apply field_checked
    | apply field_built
    | (apply field_storedNonNegative; intro _)
    | (apply field_storedBool; intro _)
    | exact hsec _ _
    | exact hcur _ _
    | exact rfl
    | split

/-- Lemma: a string of length zero is the empty string. -/
theorem eq_empty_of_length_zero (s : String) (h : s.length = 0) : s = "" := by
  cases s with
  | mk data =>
    cases data with
    | nil => rfl
    | cons _ _ => simp [String.length] at h

/-- Lemma: once `okay` is cleared the loop over the lines never sets it again. -/
theorem parseLines_false (env : Env) (lines : List String) :
    ∀ (c c' : Config), parseLines env c false lines ≠ Except.ok (c', true) := by
  induction lines with
  | nil => intro c c' h; simp [parseLines] at h
  | cons line rest ih =>
    intro c c' h
    unfold parseLines at h
    split at h
    · exact ih c c' h
    · split at h
      · exact ih _ c' h
      · exact ih _ c' h
      · exact ih _ c' h
      · exact absurd h (by simp)

/-- Lemma: `SanityCheck` leaves the list `bouncerIp` as it was. -/
theorem SanityCheck_bouncerIp (env : Env) (c c' : Config)
    (h : SanityCheck env c = Except.ok c') : c'.bouncerIp = c.bouncerIp := by
  unfold SanityCheck at h
  split at h
  · exact absurd h (by simp)
  · simp only [Except.ok.injEq] at h
    rw [← h]
    split <;> split <;> rfl

/-- Lemma: a line that does not throw `ConfigError` appends to `bouncerIp` the tokens it gives
the option `bouncer_ip`, none when it is another option. -/
theorem Parse_bouncerIp (env : Env) (c : Config) (line : String)
    (hok : ∀ m, (Parse env c line).2 ≠ some (Thrown.ConfigError m)) :
    (Parse env c line).1.bouncerIp = c.bouncerIp ++ tokensOf "bouncer_ip" line := by
  unfold tokensOf
  cases htok : tokenize line with
  | nil =>
    have hP : Parse env c line = (c, none) := by unfold Parse; rw [htok]
    rw [hP]; simp
  | cons opt toks =>
    by_cases hlen : opt.length = 0
    · have hP : Parse env c line = (c, none) := by
        unfold Parse; rw [htok]; simp only []; rw [if_pos hlen]
      have hopt : to_lower opt ≠ "bouncer_ip" := by
        rw [eq_empty_of_length_zero opt hlen]; decide
      rw [hP]
      simp only [if_neg hopt, List.append_nil]
    · have hd := Parse_dispatch env c line opt toks htok hlen
      rw [hd] at hok ⊢
      simp only []
      cases hcur : c.currentSection with
      | some key =>
        simp only [hcur, Option.isSome_some, if_true] at hok ⊢
        have hframe : (ParseSection env (counted c opt) (to_lower opt) toks).1.bouncerIp =
            (counted c opt).bouncerIp :=
          ParseSection_field Config.bouncerIp env _ _ _ (fun _ _ => rfl) (fun _ _ => rfl)
        have hopt : to_lower opt ≠ "bouncer_ip" := by
          intro e
          rw [e, ParseSection_unknown env _ "bouncer_ip" toks (by decide)] at hok
          exact hok _ rfl
        rw [hframe, if_neg hopt, List.append_nil]
        rfl
      | none =>
        simp only [hcur, Option.isSome_none, Bool.false_eq_true, if_false] at hok ⊢
        by_cases hopt : to_lower opt = "bouncer_ip"
        · rw [hopt] at hok ⊢
          have hdef : ParseGlobal env (counted c opt) "bouncer_ip" toks =
              checked (counted c opt) (ParameterCheck "bouncer_ip" toks 1 (-1))
                ((counted c opt).setBouncerIp ((counted c opt).bouncerIp ++ toks), none) := rfl
          rw [hdef] at hok ⊢
          cases hcheck : ParameterCheck "bouncer_ip" toks 1 (-1) with
          | some e =>
            rw [hcheck] at hok
            rw [ParameterCheck_thrown "bouncer_ip" toks 1 (-1) e hcheck] at hok
            exact absurd rfl (hok _)
          | none =>
            simp only [if_true]
            rfl
        · rw [if_neg hopt, List.append_nil]
          exact ParseGlobal_bouncerIp env (counted c opt) _ toks hopt

/-- Lemma: when the loop over the lines ends with `okay` set, `bouncerIp` has grown by the
tokens of the `bouncer_ip` lines, in order. -/
theorem parseLines_bouncerIp (env : Env) (lines : List String) :
    ∀ (c : Config) (okay : Bool) (c' : Config),
      parseLines env c okay lines = Except.ok (c', true) →
      c'.bouncerIp = c.bouncerIp ++ (lines.map bouncerTokens).flatten := by
  induction lines with
  | nil =>
    intro c okay c' h
    simp only [parseLines, Except.ok.injEq, Prod.mk.injEq] at h
    rw [← h.1]; simp
  | cons line rest ih =>
    intro c okay c' h
    have step : ∀ (c1 : Config) (okay1 : Bool),
        parseLines env c1 okay1 rest = Except.ok (c', true) →
        c1.bouncerIp = c.bouncerIp ++ bouncerTokens line →
        c'.bouncerIp = c.bouncerIp ++ ((line :: rest).map bouncerTokens).flatten := by
      intro c1 okay1 h1 hc1
      rw [ih c1 okay1 c' h1, hc1, List.map_cons, List.flatten_cons, List.append_assoc]
    unfold parseLines at h
    split at h
    · rename_i hlen
      have hnil : bouncerTokens line = [] := by
        unfold bouncerTokens
        rw [eq_empty_of_length_zero _ hlen]
        decide
      exact step c okay h (by rw [hnil, List.append_nil])
    · split at h
      · rename_i c1 heq
        have hb := Parse_bouncerIp env c (stripComment line) (by rw [heq]; intro m; simp)
        rw [heq] at hb
        exact step c1 okay h hb
      · exact absurd h (parseLines_false env rest _ c')
      · rename_i c1 heq
        have hb := Parse_bouncerIp env c (stripComment line) (by rw [heq]; intro m; simp)
        rw [heq] at hb
        exact step c1 okay h hb
      · exact absurd h (by simp)

/-- Lemma: after a successful load `bouncerIp` holds the tokens of the `bouncer_ip` lines of the
file, in order. -/
theorem Config_new_bouncerIp (env : Env) (latestVersion : Int) (configFile text : String)
    (c : Config) (h : (Config.new env latestVersion configFile (some text)).2 = Except.ok c) :
    c.bouncerIp = ((getlines text).map bouncerTokens).flatten := by
  unfold Config.new at h
  simp only [] at h
  split at h
  · exact absurd h (by simp)
  · rename_i c1 okay hparse
    split at h
    · rename_i hok
      rw [hok] at hparse
      have h1 := parseLines_bouncerIp env (getlines text) _ _ _ hparse
      rw [SanityCheck_bouncerIp env c1 c h, h1]
      rfl
    · exact absurd h (by simp)

/-- Lemma: a line whose option keyword is not `bouncer_ip` gives no bouncer token. -/
theorem bouncerTokens_eq_nil (line : String) (h : optionKeyword line ≠ some "bouncer_ip") :
    bouncerTokens line = [] := by
  unfold bouncerTokens tokensOf
  cases htok : tokenize (stripComment line) with
  | nil => rfl
  | cons opt toks =>
    simp only []
    by_cases hopt : to_lower opt = "bouncer_ip"
    · exfalso
      apply h
      have hlen : opt.length ≠ 0 := by
        intro h0
        rw [eq_empty_of_length_zero opt h0] at hopt
        exact absurd hopt (by decide)
      have hstrip : (stripComment line).length ≠ 0 := by
        intro h0
        rw [eq_empty_of_length_zero _ h0] at htok
        have hempty : tokenize "" = [""] := by decide
        rw [hempty] at htok
        simp only [List.cons.injEq] at htok
        rw [← htok.1] at hlen
        exact hlen rfl
      unfold optionKeyword keywordOf
      rw [if_neg hstrip, htok]
      simp only []
      rw [if_neg hlen, hopt]
    · rw [if_neg hopt]

/-- C22: after a successful load, `IsBouncer ip` is true if and only if `ip` is, as an exact
string, one of the tokens given on a `bouncer_ip` line of the file (the keyword in any case, the
comment removed); the list `bouncerIp` holds the tokens of all such lines in order; and with no
`bouncer_ip` line `IsBouncer` is false for every ip. -/
theorem IsBouncer_iff_token_of_a_bouncer_ip_line (env : Env) (latestVersion : Int)
    (configFile text : String) (c : Config) (ip : String)
    (hload : (Config.new env latestVersion configFile (some text)).2 = Except.ok c) :
    c.bouncerIp = ((getlines text).map bouncerTokens).flatten ∧
    (IsBouncer c ip = true ↔ ∃ line ∈ getlines text, ip ∈ bouncerTokens line) ∧
    ((∀ line ∈ getlines text, optionKeyword line ≠ some "bouncer_ip") →
      ∀ ip', IsBouncer c ip' = false) := by
  have hb := Config_new_bouncerIp env latestVersion configFile text c hload
  have hmem : ∀ ip', IsBouncer c ip' = true ↔
      ∃ line ∈ getlines text, ip' ∈ bouncerTokens line := by
    intro ip'
    unfold IsBouncer
    rw [hb, List.any_eq_true]
    constructor
    · rintro ⟨bip, hbip, heq⟩
      have hip : ip' = bip := of_decide_eq_true heq
      obtain ⟨l, hl, hin⟩ := List.mem_flatten.mp hbip
      obtain ⟨line, hline, hlt⟩ := List.mem_map.mp hl
      exact ⟨line, hline, by rw [hlt, hip]; exact hin⟩
    · rintro ⟨line, hline, hin⟩
      exact ⟨ip', List.mem_flatten.mpr ⟨_, List.mem_map.mpr ⟨line, hline, rfl⟩, hin⟩,
        decide_eq_true rfl⟩
  refine ⟨hb, hmem ip, ?_⟩
  intro hnone ip'
  cases hval : IsBouncer c ip' with
  | false => rfl
  | true =>
    obtain ⟨line, hline, hin⟩ := (hmem ip').mp hval
    rw [bouncerTokens_eq_nil line (hnone line hline)] at hin
    exact absurd hin (List.not_mem_nil _)

set_option maxRecDepth 100000 in
theorem IsBouncer_iff_token_of_a_bouncer_ip_line_witness :
    (Config.new plainEnv 0 "ftpd.conf" (some bouncerText)).2 = Except.ok bouncerLoaded ∧
    bouncerLoaded.bouncerIp = ["10.0.0.2", "10.0.0.3", "10.0.0.4"] ∧
    (IsBouncer bouncerLoaded "10.0.0.4" = true ↔
      ∃ line ∈ getlines bouncerText, "10.0.0.4" ∈ bouncerTokens line) ∧
    IsBouncer bouncerLoaded "10.0.0.4" = true ∧ IsBouncer bouncerLoaded "10.0.0.40" = false :=
  ⟨by decide, by decide,
    (IsBouncer_iff_token_of_a_bouncer_ip_line plainEnv 0 "ftpd.conf" bouncerText bouncerLoaded
      "10.0.0.4" (by decide)).2.1,
    by decide, by decide⟩

/-- Lemma: the outcome of a `-<keyword>` line. -/
theorem ParseGlobal_keyword (env : Env) (c : Config) (opt : String) (toks : List String)
    (h : opt.data.head? = some '-') :
    ParseGlobal env c opt toks =
      checked c (ParameterCheck opt toks 1 (-1))
        (if ⟨opt.data.drop 1⟩ ∈ env.aclKeywords then
           built c (env.construct opt [join toks])
             (c.setCommandACLs
               (insertACL c.commandACLs ⟨opt.data.drop 1⟩ (Value.make [join toks])))
         else
           (c, some (Thrown.ConfigError
             ("Invalid command acl keyword: " ++ ⟨opt.data.drop 1⟩)))) := by
  unfold ParseGlobal
  rw [if_pos h]

/-- Lemma: the outcome of a `custom-<cmd>` line. -/
theorem ParseGlobal_custom (env : Env) (c : Config) (opt : String) (toks : List String)
    (h1 : opt.data.head? ≠ some '-') (h2 : "custom-".data.isPrefixOf opt.data = true) :
    ParseGlobal env c opt toks =
      checked c (ParameterCheck opt toks 1 (-1))
        (if c.siteCmd.all
              (fun sc => decide (to_upper ⟨opt.data.drop 7⟩ ≠ siteCommand env sc)) then
           (c, some (Thrown.ConfigError
             ("Invalid custom command acl keyword: " ++ to_upper ⟨opt.data.drop 7⟩)))
         else
           built c (env.construct opt [join toks])
             (c.setCommandACLs
               (insertACL c.commandACLs (to_lower opt) (Value.make [join toks])))) := by
  unfold ParseGlobal
  rw [if_neg h1, if_pos h2]

/-- Lemma: a checked step that stores with `built` and throws nothing has stored. -/
theorem checked_built_ok (c : Config) (check t : Option Thrown) (c' : Config)
    (h : (checked c check (built c t c')).2 = none) :
    (checked c check (built c t c')).1 = c' := by
  cases check with
  | some e => exact absurd h (by simp [checked])
  | none =>
    cases t with
    | some e => exact absurd h (by simp [checked, built])
    | none => rfl

/-- Lemma: a checked step that stores with `built` and throws has changed nothing. -/
theorem checked_built_thrown (c : Config) (check t : Option Thrown) (c' : Config)
    (h : (checked c check (built c t c')).2 ≠ none) :
    (checked c check (built c t c')).1 = c := by
  cases check with
  | some e => rfl
  | none =>
    cases t with
    | some e => rfl
    | none => exact absurd rfl h

/-- Lemma: a line whose keyword is not `site_cmd` leaves the list `siteCmd` as it was. -/
theorem Parse_siteCmd (env : Env) (c : Config) (line : String)
    (h : keywordOf line ≠ some "site_cmd") : (Parse env c line).1.siteCmd = c.siteCmd := by
  cases htok : tokenize line with
  | nil =>
    have hP : Parse env c line = (c, none) := by unfold Parse; rw [htok]
    rw [hP]
  | cons opt toks =>
    by_cases hlen : opt.length = 0
    · have hP : Parse env c line = (c, none) := by
        unfold Parse; rw [htok]; simp only []; rw [if_pos hlen]
      rw [hP]
    · have hopt : to_lower opt ≠ "site_cmd" := by
        intro e
        apply h
        unfold keywordOf
        rw [htok]
        simp only []
        rw [if_neg hlen, e]
      rw [Parse_dispatch env c line opt toks htok hlen]
      split
      · exact ParseSection_field Config.siteCmd env _ _ _ (fun _ _ => rfl) (fun _ _ => rfl)
      · exact ParseGlobal_siteCmd env (counted c opt) _ toks hopt

/-- Lemma: `insert` on `commandACLs` stores the value under a key that is absent and changes
nothing for a key that is present. -/
theorem insertACL_spec (m : List (String × Value)) (key : String) (v : Value) :
    (m.any (fun kv => kv.1 = key) = false →
      (insertACL m key v).find? (fun kv => kv.1 = key) = some (key, v)) ∧
    (m.any (fun kv => kv.1 = key) = true → insertACL m key v = m) := by
  unfold insertACL
  constructor
  · intro h
    rw [if_neg (by simp [h])]
    rw [List.find?_append]
    have hnone : m.find? (fun kv => decide (kv.1 = key)) = none := by
      rw [List.find?_eq_none]
      intro x hx hkey
      have hany : m.any (fun kv => decide (kv.1 = key)) = true :=
        List.any_eq_true.mpr ⟨x, hx, hkey⟩
      rw [h] at hany
      exact absurd hany (by simp)
    rw [hnone]
    simp
  · intro h
    rw [if_pos h]

set_option maxRecDepth 100000 in
/-- C21, counterexample: after the lines `site_cmd hello EXEC /bin/hello x` and
`custom-hello !*`, the line `custom-hello *` is accepted (nothing is thrown), yet the ACL `*` is
not stored: the map still holds the ACL of the earlier line under `custom-hello`. -/
theorem second_acl_override_not_stored :
    customHello.commandACLs = [("custom-hello", Value.make ["!*"])] ∧
    (Parse plainEnv customHello "custom-hello *").2 = none ∧
    (Parse plainEnv customHello "custom-hello *").1.commandACLs =
      [("custom-hello", Value.make ["!*"])] ∧
    ("custom-hello", Value.make ["*"]) ∉
      (Parse plainEnv customHello "custom-hello *").1.commandACLs := by
  decide

/-- C21, amended: a `-<keyword>` line is accepted only if the keyword is in the registered ACL
keyword set, and a `custom-<cmd>` line only if the list `siteCmd` has an entry whose command
equals `<cmd>` upper-cased, that list being changed by `site_cmd` lines only, which append to
it; otherwise `ParseGlobal` raises `ConfigError`, and whenever it throws the configuration, so
the map `commandACLs`, is unchanged.  On acceptance the ACL is inserted under the keyword,
respectively under the lower-cased `custom-<cmd>`: it is stored when the map has no entry under
that key, and the map is left as it was when it has one. -/
theorem acl_override_lines_are_validated (env : Env) (c : Config) (opt : String)
    (toks : List String) :
    (opt.data.head? = some '-' →
      ((ParseGlobal env c opt toks).2 = none →
        (⟨opt.data.drop 1⟩ : String) ∈ env.aclKeywords ∧
        (ParseGlobal env c opt toks).1 = c.setCommandACLs
          (insertACL c.commandACLs ⟨opt.data.drop 1⟩ (Value.make [join toks]))) ∧
      ((⟨opt.data.drop 1⟩ : String) ∉ env.aclKeywords →
        ∃ m, ParseGlobal env c opt toks = (c, some (Thrown.ConfigError m))) ∧
      ((ParseGlobal env c opt toks).2 ≠ none → (ParseGlobal env c opt toks).1 = c)) ∧
    (opt.data.head? ≠ some '-' → "custom-".data.isPrefixOf opt.data = true →
      ((ParseGlobal env c opt toks).2 = none →
        (∃ sc ∈ c.siteCmd, siteCommand env sc = to_upper ⟨opt.data.drop 7⟩) ∧
        (ParseGlobal env c opt toks).1 = c.setCommandACLs
          (insertACL c.commandACLs (to_lower opt) (Value.make [join toks]))) ∧
      ((∀ sc ∈ c.siteCmd, siteCommand env sc ≠ to_upper ⟨opt.data.drop 7⟩) →
        ∃ m, ParseGlobal env c opt toks = (c, some (Thrown.ConfigError m))) ∧
      ((ParseGlobal env c opt toks).2 ≠ none → (ParseGlobal env c opt toks).1 = c)) ∧
    (∀ line, keywordOf line ≠ some "site_cmd" → (Parse env c line).1.siteCmd = c.siteCmd) ∧
    ParseGlobal env c "site_cmd" toks =
      checked c (ParameterCheck "site_cmd" toks 4 5)
        (built c (env.construct "site_cmd" toks)
          (c.setSiteCmd (c.siteCmd ++ [Value.make toks]))) ∧
    (∀ (m : List (String × Value)) (key : String) (v : Value),
      (m.any (fun kv => kv.1 = key) = false →
        (insertACL m key v).find? (fun kv => kv.1 = key) = some (key, v)) ∧
      (m.any (fun kv => kv.1 = key) = true → insertACL m key v = m)) := by
  refine ⟨?_, ?_, fun line h => Parse_siteCmd env c line h, rfl, insertACL_spec⟩
  · intro hdash
    rw [ParseGlobal_keyword env c opt toks hdash]
    by_cases hkw : (⟨opt.data.drop 1⟩ : String) ∈ env.aclKeywords
    · rw [if_pos hkw]
      exact ⟨fun hok => ⟨hkw, checked_built_ok _ _ _ _ hok⟩, fun hno => absurd hkw hno,
        fun hthrown => checked_built_thrown _ _ _ _ hthrown⟩
    · rw [if_neg hkw]
      have hrej : ∃ m, checked c (ParameterCheck opt toks 1 (-1))
          (c, some (Thrown.ConfigError ("Invalid command acl keyword: " ++ ⟨opt.data.drop 1⟩)))
            = (c, some (Thrown.ConfigError m)) := by
        cases hcheck : ParameterCheck opt toks 1 (-1) with
        | some e =>
          rw [ParameterCheck_thrown opt toks 1 (-1) e hcheck]
          exact ⟨_, rfl⟩
        | none => exact ⟨_, rfl⟩
      obtain ⟨m, hm⟩ := hrej
      rw [hm]
      exact ⟨fun hok => absurd hok (by simp), fun _ => ⟨m, rfl⟩, fun _ => rfl⟩
  · intro hdash hcustom
    rw [ParseGlobal_custom env c opt toks hdash hcustom]
    by_cases hall : c.siteCmd.all
        (fun sc => decide (to_upper ⟨opt.data.drop 7⟩ ≠ siteCommand env sc)) = true
    · rw [if_pos hall]
      have hrej : ∃ m, checked c (ParameterCheck opt toks 1 (-1))
          (c, some (Thrown.ConfigError
            ("Invalid custom command acl keyword: " ++ to_upper ⟨opt.data.drop 7⟩)))
            = (c, some (Thrown.ConfigError m)) := by
        cases hcheck : ParameterCheck opt toks 1 (-1) with
        | some e =>
          rw [ParameterCheck_thrown opt toks 1 (-1) e hcheck]
          exact ⟨_, rfl⟩
        | none => exact ⟨_, rfl⟩
      obtain ⟨m, hm⟩ := hrej
      rw [hm]
      exact ⟨fun hok => absurd hok (by simp), fun _ => ⟨m, rfl⟩, fun _ => rfl⟩
    · rw [if_neg hall]
      refine ⟨fun hok => ⟨?_, checked_built_ok _ _ _ _ hok⟩, ?_,
        fun hthrown => checked_built_thrown _ _ _ _ hthrown⟩
      · by_contra hno
        apply hall
        rw [List.all_eq_true]
        intro sc hsc
        apply decide_eq_true
        intro e
        exact hno ⟨sc, hsc, e.symm⟩
      · intro hno
        exfalso
        apply hall
        rw [List.all_eq_true]
        intro sc hsc
        apply decide_eq_true
        intro e
        exact hno sc hsc e.symm

set_option maxRecDepth 100000 in
theorem acl_override_lines_are_validated_witness :
    ("custom-hello".data.head? ≠ some '-' ∧
      "custom-".data.isPrefixOf "custom-hello".data = true ∧
      (ParseGlobal plainEnv customHello "custom-hello" ["*"]).2 = none ∧
      customHello.commandACLs.any (fun kv => kv.1 = "custom-hello") = true) ∧
    (∃ sc ∈ customHello.siteCmd,
      siteCommand plainEnv sc = to_upper ⟨"custom-hello".data.drop 7⟩) ∧
    insertACL customHello.commandACLs "custom-hello" (Value.make ["*"]) =
      customHello.commandACLs :=
  ⟨⟨by decide, by decide, by decide, by decide⟩,
    (((acl_override_lines_are_validated plainEnv customHello "custom-hello" ["*"]).2.1
      (by decide) (by decide)).1 (by decide)).1,
    ((acl_override_lines_are_validated plainEnv customHello "custom-hello" ["*"]).2.2.2.2
      customHello.commandACLs "custom-hello" (Value.make ["*"])).2 (by decide)⟩

end cfg

namespace legacy

open boost std

/-- C26: in the first parser, for a `site_cmd` line with at least three tokens after the keyword
(command, method, path), the method stored is decided from the second of them, lower-cased:
`TEXT` exactly when it is `text`, `IS` exactly when it is `is`, and `EXEC` for every other
token; with fewer than three tokens `toks.at` throws and nothing is stored. -/
theorem site_cmd_method_is_EXEC_TEXT_or_IS (env : Env) (c : Config)
    (command method path : String) (rest toks : List String) :
    (∃ method_ : SiteCmdMethod,
      SetSetting env c "site_cmd" (command :: method :: path :: rest) =
        InsertSetting env c (Setting.SiteCmdOpt command method_ path rest) "site_cmd" ∧
      (method_ = SiteCmdMethod.TEXT ↔ to_lower method = "text") ∧
      (method_ = SiteCmdMethod.IS ↔ to_lower method = "is") ∧
      (method_ = SiteCmdMethod.EXEC ↔
        to_lower method ≠ "text" ∧ to_lower method ≠ "is")) ∧
    (toks.length < 3 →
      SetSetting env c "site_cmd" toks = Except.error Exception.out_of_range) := by
  constructor
  · have hdef : SetSetting env c "site_cmd" (command :: method :: path :: rest) =
        InsertSetting env c (Setting.SiteCmdOpt command
          (if to_lower method = "text" then SiteCmdMethod.TEXT
           else if to_lower method = "is" then SiteCmdMethod.IS
           else SiteCmdMethod.EXEC) path rest) "site_cmd" := rfl
    refine ⟨_, hdef, ?_, ?_, ?_⟩
    · by_cases h1 : to_lower method = "text"
      · simp [h1]
      · by_cases h2 : to_lower method = "is" <;> simp [h1, h2]
    · by_cases h1 : to_lower method = "text"
      · have h2 : to_lower method ≠ "is" := by rw [h1]; decide
        simp [h1]
      · by_cases h2 : to_lower method = "is" <;> simp [h1, h2]
    · by_cases h1 : to_lower method = "text"
      · simp [h1]
      · by_cases h2 : to_lower method = "is" <;> simp [h1, h2]
  · intro hlen
    have hdef : SetSetting env c "site_cmd" toks =
        (do
          let command ← at_ toks 0
          let method ← at_ toks 1
          let method_ : SiteCmdMethod :=
            if to_lower method = "text" then SiteCmdMethod.TEXT
            else if to_lower method = "is" then SiteCmdMethod.IS
            else SiteCmdMethod.EXEC
          let path ← at_ toks 2
          InsertSetting env c (Setting.SiteCmdOpt command method_ path (toks.drop 3))
            "site_cmd") := rfl
    rw [hdef]
    match toks, hlen with
    | [], _ => rfl
    | [_], _ => rfl
    | [_, _], _ => rfl
    | _ :: _ :: _ :: _, h => exact absurd h (by simp)

theorem site_cmd_method_is_EXEC_TEXT_or_IS_witness :
    ["hello", "TEXT"].length < 3 ∧
    SetSetting plainEnv { version := 1, config := "ftpd.conf", settings := [] } "site_cmd"
      ["hello", "TEXT"] = Except.error Exception.out_of_range ∧
    SetSetting plainEnv { version := 1, config := "ftpd.conf", settings := [] } "site_cmd"
      ["hello", "Text", "/bin/hello", "x"] =
        InsertSetting plainEnv { version := 1, config := "ftpd.conf", settings := [] }
          (Setting.SiteCmdOpt "hello" SiteCmdMethod.TEXT "/bin/hello" ["x"]) "site_cmd" :=
  ⟨by decide,
    (site_cmd_method_is_EXEC_TEXT_or_IS plainEnv
      { version := 1, config := "ftpd.conf", settings := [] } "hello" "Text" "/bin/hello" ["x"]
      ["hello", "TEXT"]).2 (by decide),
    by decide⟩

end legacy

/-! ## The group cache when it cannot refresh, and the round trip of a serialised group -/

namespace db

/-- C35: `Replicate` leaves the caches untouched when it cannot refresh.  When the id element is
not of BSON type 16 (a 32-bit integer) it returns true and both maps are as they were, whatever
the store would answer; when the element is of type 16 and the store query raises `DBError` it
returns false and both maps are as they were. -/
theorem Replicate_untouched_when_it_cannot_refresh (query : Int → QueryResult)
    (cache : GroupCache) (id : BSONElement) :
    (id.type ≠ 16 →
      (cache.Replicate query id).1 = true ∧
      (cache.Replicate query id).2.names = cache.names ∧
      (cache.Replicate query id).2.gids = cache.gids) ∧
    (id.type = 16 → query id.int = QueryResult.DBError →
      (cache.Replicate query id).1 = false ∧
      (cache.Replicate query id).2.names = cache.names ∧
      (cache.Replicate query id).2.gids = cache.gids) := by
  constructor
  · intro htype
    unfold GroupCache.Replicate
    rw [if_pos htype]
    exact ⟨rfl, rfl, rfl⟩
  · intro htype hq
    unfold GroupCache.Replicate
    rw [if_neg (by simp [htype]), hq]
    exact ⟨rfl, rfl, rfl⟩

theorem Replicate_untouched_when_it_cannot_refresh_witness :
    ((17 : Int) ≠ 16 ∧
      (oneGroup.Replicate (fun _ => QueryResult.found (some { gid := 5, name := "new" }))
        { type := 17, int := 5 }).1 = true ∧
      (oneGroup.Replicate (fun _ => QueryResult.found (some { gid := 5, name := "new" }))
        { type := 17, int := 5 }).2.names = oneGroup.names) ∧
    ((oneGroup.Replicate (fun _ => QueryResult.DBError) { type := 16, int := 5 }).1 = false ∧
      (oneGroup.Replicate (fun _ => QueryResult.DBError) { type := 16, int := 5 }).2.gids =
        oneGroup.gids) :=
  ⟨⟨by decide,
      ((Replicate_untouched_when_it_cannot_refresh
        (fun _ => QueryResult.found (some { gid := 5, name := "new" })) oneGroup
        { type := 17, int := 5 }).1 (by decide)).1,
      ((Replicate_untouched_when_it_cannot_refresh
        (fun _ => QueryResult.found (some { gid := 5, name := "new" })) oneGroup
        { type := 17, int := 5 }).1 (by decide)).2.1⟩,
    ⟨((Replicate_untouched_when_it_cannot_refresh (fun _ => QueryResult.DBError) oneGroup
        { type := 16, int := 5 }).2 rfl rfl).1,
      ((Replicate_untouched_when_it_cannot_refresh (fun _ => QueryResult.DBError) oneGroup
        { type := 16, int := 5 }).2 rfl rfl).2.2⟩⟩

/-- Lemma: `Unserialize` fails when a string it reads is not there. -/
theorem getString_of_missing (obj : BSONObj) (key : String) (h : obj.get key = none) :
    obj.getString key = none := by
  unfold BSONObj.getString
  rw [h]

/-- Lemma: `Unserialize` fails when a number it reads is not there. -/
theorem getInt_of_missing (obj : BSONObj) (key : String) (h : obj.get key = none) :
    obj.getInt key = none := by
  unfold BSONObj.getInt
  rw [h]

/-- Lemma: `Unserialize` yields a group only when all nine reads succeed. -/
theorem Unserialize_reads (obj : BSONObj) (group : acl.Group)
    (h : Unserialize obj = some group) :
    obj.getInt "gid" ≠ none ∧ obj.getString "name" ≠ none ∧
    obj.getString "description" ≠ none ∧ obj.getString "comment" ≠ none ∧
    obj.getInt "slots" ≠ none ∧ obj.getInt "leech slots" ≠ none ∧
    obj.getInt "allotment slots" ≠ none ∧ obj.getInt "max allotment size" ≠ none ∧
    obj.getInt "max logins" ≠ none := by
  simp only [Unserialize, Option.bind_eq_bind, Option.bind_eq_some, Option.pure_def,
    Option.some.injEq] at h
  obtain ⟨_, h1, _, h2, _, h3, _, h4, _, h5, _, h6, _, h7, _, h8, _, _, _, h10, _⟩ := h
  refine ⟨?_, ?_, ?_, ?_, ?_, ?_, ?_, ?_, ?_⟩ <;> simp [*]

/-- The keys of a serialised group. -/
theorem Serialize_keys (group : acl.Group) :
    (Serialize group).map (fun kv => kv.1) =
      ["name", "gid", "description", "slots", "leech slots", "allotment slots",
       "max allotment size", "max logins", "comment"] := rfl

/-- C32: group serialisation round-trips.  For every group, `Unserialize (Serialize group)`
yields the group itself, equal in all of its members (id, name, description, comment, slots,
leech slots, allotment slots, maximum allotment size, maximum logins); and for every document in
which one of the nine keys `Serialize` writes is missing, `Unserialize` fails. -/
theorem group_serialisation_round_trips (group : acl.Group) (obj : BSONObj) (key : String) :
    Unserialize (Serialize group) = some group ∧
    (key ∈ (Serialize group).map (fun kv => kv.1) → obj.get key = none →
      Unserialize obj = none) := by
  refine ⟨rfl, ?_⟩
  intro hkey hmissing
  rw [Serialize_keys] at hkey
  simp only [List.mem_cons, List.mem_singleton, List.not_mem_nil, or_false] at hkey
  cases hres : Unserialize obj with
  | none => rfl
  | some read =>
    exfalso
    obtain ⟨h1, h2, h3, h4, h5, h6, h7, h8, h9⟩ := Unserialize_reads obj read hres
    rcases hkey with h | h | h | h | h | h | h | h | h <;> subst h
    · exact h2 (getString_of_missing obj _ hmissing)
    · exact h1 (getInt_of_missing obj _ hmissing)
    · exact h3 (getString_of_missing obj _ hmissing)
    · exact h5 (getInt_of_missing obj _ hmissing)
    · exact h6 (getInt_of_missing obj _ hmissing)
    · exact h7 (getInt_of_missing obj _ hmissing)
    · exact h8 (getInt_of_missing obj _ hmissing)
    · exact h9 (getInt_of_missing obj _ hmissing)
    · exact h4 (getString_of_missing obj _ hmissing)

theorem group_serialisation_round_trips_witness :
    ("comment" ∈ (Serialize sampleGroup).map (fun kv => kv.1) ∧
      BSONObj.get ((Serialize sampleGroup).filter (fun kv => kv.1 ≠ "comment")) "comment" =
        none) ∧
    Unserialize ((Serialize sampleGroup).filter (fun kv => kv.1 ≠ "comment")) = none ∧
    Unserialize (Serialize sampleGroup) = some sampleGroup :=
  ⟨⟨by decide, by decide⟩,
    (group_serialisation_round_trips sampleGroup
      ((Serialize sampleGroup).filter (fun kv => kv.1 ≠ "comment")) "comment").2
      (by decide) (by decide),
    (group_serialisation_round_trips sampleGroup [] "comment").1⟩

end db

/-! ## `SITE GIVE`: a unit letter it does not know -/

namespace cmd.site

open boost

/-- Lemma: with a unit that is neither `G` nor `M`, the credits are the numeral itself. -/
theorem parseCredits_other_unit (type : String) (ds : List Char) (hds : ds ≠ [])
    (hdig : ds.all Char.isDigit = true) (hG : type ≠ "G") (hM : type ≠ "M")
    (hrange : numeral ds ≤ 9223372036854775807) :
    parseCredits type ⟨ds⟩ = some (numeral ds : Int) := by
  have hlex := lexical_cast_ll_digits ds hds hdig
  rw [if_pos hrange] at hlex
  have hnn : ¬ ((numeral ds : Int) < 0) := by omega
  unfold parseCredits
  rw [hlex]
  simp only []
  rw [if_neg hnn, if_neg hG, if_neg hM]

set_option maxRecDepth 100000 in
/-- C31, counterexample: for n = 9223372036854775808 and the unknown unit letter `T`, the amount
is refused with `SyntaxError` and the recipient, whose balance is 0, is credited nothing. -/
theorem GIVE_unknown_unit_large_amount_refused :
    ("9223372036854775808".data.all Char.isDigit = true ∧
      numeral "9223372036854775808".data = 9223372036854775808 ∧ isalpha 'T' = true) ∧
    (GIVECommand.Execute plainEnv (cfg.Config.initial 1 "ftpd.conf") siteop
      ["GIVE", "bob", "9223372036854775808T"]).thrown = some Thrown.SyntaxError ∧
    (GIVECommand.Execute plainEnv (cfg.Config.initial 1 "ftpd.conf") siteop
      ["GIVE", "bob", "9223372036854775808T"]).recipient.map (fun u => u.sectionCredits "") =
        some 0 := by
  decide

/-- C31, amended: `SITE GIVE` does not reject an unknown unit letter.  For every amount made of a
numeral (a non-empty string of decimal digits) with value n at most 9223372036854775807 and a
trailing letter other than K, M or G in either case (for example `5T`): once the recipient is
loaded, whoever the caller is and with or without `-s`, nothing is thrown, the letter is dropped
and whenever the command credits the recipient it credits exactly n kilobytes in the section of
the command.  It does so for every caller who is not restricted to `giveown`, and for a caller
restricted to `giveown` exactly when the caller's own ratio is not zero and the debit of n
succeeds.  The recipient's balance grows by exactly n when the sum stays within the signed
64-bit range. -/
theorem GIVE_unknown_unit_counts_kilobytes (env : Env) (config : cfg.Config)
    (caller user : User) (args args' : List String) (section_ name : String)
    (ds : List Char) (u : Char)
    (hreach : GIVECommand.Execute env config caller args =
      GIVECommand.give env caller section_ args')
    (h1 : args'.get? 1 = some name) (hload : env.Load name = some user)
    (h2 : args'.get? 2 = some ⟨ds ++ [u]⟩)
    (hds : ds ≠ []) (hdig : ds.all Char.isDigit = true) (hu : isalpha u = true)
    (hletter : to_upper ⟨[u]⟩ ∉ ["K", "M", "G"])
    (hrange : numeral ds ≤ 9223372036854775807) :
    splitAmount ⟨ds ++ [u]⟩ = some (to_upper ⟨[u]⟩, ⟨ds⟩) ∧
    (GIVECommand.Execute env config caller args).thrown = none ∧
    (∀ taken given name', (GIVECommand.Execute env config caller args).reply =
        some (Reply.given taken given name') →
      given = (numeral ds : Int) ∧
      (GIVECommand.Execute env config caller args).recipient =
        some (user.IncrSectionCredits section_ (numeral ds : Int))) ∧
    (¬ (env.AllowSiteCmd caller "giveown" = true ∧ env.AllowSiteCmd caller "give" = false) →
      (GIVECommand.Execute env config caller args).reply =
        some (Reply.given false (numeral ds : Int) user.name)) ∧
    (env.AllowSiteCmd caller "giveown" = true → env.AllowSiteCmd caller "give" = false →
      ((GIVECommand.Execute env config caller args).reply =
          some (Reply.given true (numeral ds : Int) user.name) ↔
        ownRatio caller section_ ≠ 0 ∧
          (caller.DecrSectionCredits section_ (numeral ds : Int)).1 = true)) ∧
    (-9223372036854775808 ≤ user.sectionCredits section_ + (numeral ds : Int) →
      user.sectionCredits section_ + (numeral ds : Int) ≤ 9223372036854775807 →
      (user.IncrSectionCredits section_ (numeral ds : Int)).sectionCredits section_ =
        user.sectionCredits section_ + (numeral ds : Int)) := by
  have hG : to_upper ⟨[u]⟩ ≠ "G" := fun e => hletter (by rw [e]; decide)
  have hM : to_upper ⟨[u]⟩ ≠ "M" := fun e => hletter (by rw [e]; decide)
  rw [hreach]
  obtain ⟨g1, g2, g3, g4⟩ := give_credited env caller section_ args' name ⟨ds ++ [u]⟩
    (to_upper ⟨[u]⟩) ⟨ds⟩ user _ h1 hload h2 (splitAmount_letter ds u hu)
    (parseCredits_other_unit _ ds hds hdig hG hM hrange)
  exact ⟨splitAmount_letter ds u hu, g1, g2, g3, g4,
    IncrSectionCredits_in_range user section_ _⟩

set_option maxRecDepth 100000 in
theorem GIVE_unknown_unit_counts_kilobytes_witness :
    (["GIVE", "bob", "5T"].get? 2 = some ⟨"5".data ++ ['T']⟩ ∧ isalpha 'T' = true ∧
      to_upper ⟨['T']⟩ ∉ ["K", "M", "G"] ∧ numeral "5".data = 5 ∧
      plainEnv.AllowSiteCmd alice "giveown" = true ∧
      plainEnv.AllowSiteCmd alice "give" = false ∧ ownRatio alice "S" ≠ 0 ∧
      (alice.DecrSectionCredits "S" (numeral "5".data : Int)).1 = true) ∧
    (GIVECommand.Execute plainEnv leechSection alice ["GIVE", "-s", "s", "bob", "5T"]).reply =
      some (Reply.given true (numeral "5".data : Int) "bob") ∧
    (GIVECommand.Execute plainEnv leechSection alice
      ["GIVE", "-s", "s", "bob", "5T"]).recipient.map (fun r => r.sectionCredits "S") =
        some 5 :=
  ⟨⟨by decide, by decide, by decide, by decide, by decide, by decide, by decide, by decide⟩,
    ((GIVE_unknown_unit_counts_kilobytes plainEnv leechSection alice
      { name := "bob", defaultRatio := 3, sectionRatio := fun _ => -1,
        sectionCredits := fun _ => 0 }
      ["GIVE", "-s", "s", "bob", "5T"] ["GIVE", "bob", "5T"] "S" "bob" "5".data 'T'
      rfl rfl rfl (by decide) (by decide) (by decide) (by decide) (by decide)
      (by decide)).2.2.2.2.1 (by decide) (by decide)).mpr ⟨by decide, by decide⟩,
    by decide⟩

end cmd.site

/-! ## The current configuration parser: comments and blank lines -/

namespace cfg

open boost std

/-- Lemma: taking the longest run that satisfies a test twice is taking it once. -/
theorem takeWhile_idem {α : Type} (p : α → Bool) (l : List α) :
    (l.takeWhile p).takeWhile p = l.takeWhile p := by
  induction l with
  | nil => rfl
  | cons a t ih =>
    rw [List.takeWhile_cons]
    cases hp : p a with
    | true => simp only [if_true]; rw [List.takeWhile_cons, hp]; simp only [if_true]; rw [ih]
    | false => rfl

/-- Lemma: on a line without its comment there is no comment to delete. -/
theorem stripComment_idem (line : String) :
    stripComment (stripComment line) = stripComment line := by
  unfold stripComment
  congr 1
  exact takeWhile_idem _ _

/-- Lemma: a blank line has no comment. -/
theorem stripComment_blank (line : String) (h : blank line = true) :
    stripComment line = line := by
  unfold stripComment
  have hall : ∀ ch ∈ line.data, ch ≠ '#' := by
    intro ch hch e
    have := List.all_eq_true.mp h ch hch
    rw [e] at this
    exact absurd this (by decide)
  have htake : line.data.takeWhile (fun ch => decide (ch ≠ '#')) = line.data := by
    rw [List.takeWhile_eq_self_iff]
    intro ch hch
    exact decide_eq_true (hall ch hch)
  rw [htake]

/-- Lemma: the tokens of a blank line are one empty token. -/
theorem tokenize_blank (line : String) (h : blank line = true) : tokenize line = [""] := by
  have hspace : ∀ ch ∈ line.data, isspace ch = true := by
    intro ch hch
    have := List.all_eq_true.mp h ch hch
    simp only [Bool.or_eq_true, decide_eq_true_eq] at this
    rcases this with e | e <;> rw [e] <;> decide
  have hdrop : line.data.dropWhile isspace = [] := by
    rw [List.dropWhile_eq_nil_iff]
    exact hspace
  have htrim : trim line.data = [] := by
    unfold trim
    rw [hdrop]
    rfl
  unfold tokenize
  rw [htrim]
  decide

/-- Lemma: `Parse` does nothing on a blank line. -/
theorem Parse_blank (env : Env) (c : Config) (line : String) (h : blank line = true) :
    Parse env c line = (c, none) := by
  unfold Parse
  rw [tokenize_blank line h]
  rfl

/-- Lemma: the loop over the lines gives the same result on the lines without their
comments. -/
theorem parseLines_stripComment (env : Env) (lines : List String) :
    ∀ (c : Config) (okay : Bool),
      parseLines env c okay (lines.map stripComment) = parseLines env c okay lines := by
  induction lines with
  | nil => intro c okay; rfl
  | cons line rest ih =>
    intro c okay
    rw [List.map_cons]
    unfold parseLines
    rw [stripComment_idem]
    simp only [ih]

/-- Lemma: the loop over the lines gives the same result without the blank lines. -/
theorem parseLines_blank (env : Env) (lines : List String) :
    ∀ (c : Config) (okay : Bool),
      parseLines env c okay (lines.filter (fun line => !blank line)) =
        parseLines env c okay lines := by
  induction lines with
  | nil => intro c okay; rfl
  | cons line rest ih =>
    intro c okay
    by_cases hb : blank line = true
    · have hfilter : (line :: rest).filter (fun line => !blank line) =
          rest.filter (fun line => !blank line) := by
        simp [List.filter_cons, hb]
      have hskip : parseLines env c okay (line :: rest) = parseLines env c okay rest := by
        conv => lhs; unfold parseLines
        split
        · rfl
        · rw [stripComment_blank line hb, Parse_blank env c line hb]
      rw [hfilter, hskip, ih]
    · have hfilter : (line :: rest).filter (fun line => !blank line) =
          line :: rest.filter (fun line => !blank line) := by
        simp [List.filter_cons, hb]
      rw [hfilter]
      unfold parseLines
      simp only [ih]

/-- Lemma: the loop over the lines gives the same result on the significant lines. -/
theorem parseLines_significant (env : Env) (lines : List String) (c : Config) (okay : Bool) :
    parseLines env c okay (significant lines) = parseLines env c okay lines := by
  unfold significant
  rw [parseLines_blank, parseLines_stripComment]

/-- Lemma: constructing a configuration depends on the text through the result of the loop over
its lines only. -/
theorem Config_new_congr (env : Env) (latestVersion : Int) (configFile text text' : String)
    (h : ∀ (c : Config) (okay : Bool),
      parseLines env c okay (getlines text') = parseLines env c okay (getlines text)) :
    Config.new env latestVersion configFile (some text') =
      Config.new env latestVersion configFile (some text) := by
  unfold Config.new
  simp only [h]

/-- C36: comments and blank lines are insignificant in the current parser.  For every
configuration text, a text whose lines are those of the first with everything from the first
`#` onward deleted on each line, or with the lines deleted that are empty or consist only of
spaces and tabs, or both, is loaded with the same outcome: the same counter, the same exception
or the same configuration in every member, the cache of seen settings included. -/
theorem comments_and_blank_lines_insignificant (env : Env) (latestVersion : Int)
    (configFile text text' : String)
    (h : getlines text' = (getlines text).map stripComment ∨
      getlines text' = (getlines text).filter (fun line => !blank line) ∨
      getlines text' = significant (getlines text)) :
    Config.new env latestVersion configFile (some text') =
      Config.new env latestVersion configFile (some text) := by
  apply Config_new_congr
  intro c okay
  rcases h with h | h | h <;> rw [h]
  · exact parseLines_stripComment env _ c okay
  · exact parseLines_blank env _ c okay
  · exact parseLines_significant env _ c okay

set_option maxRecDepth 100000 in
theorem comments_and_blank_lines_insignificant_witness :
    getlines plainText = significant (getlines commentedText) ∧
    Config.new plainEnv 0 "ftpd.conf" (some plainText) =
      Config.new plainEnv 0 "ftpd.conf" (some commentedText) ∧
    ((Config.new plainEnv 0 "ftpd.conf" (some commentedText)).2.toOption.map
      (fun c => c.port)) = some 21 :=
  ⟨by decide,
    comments_and_blank_lines_insignificant plainEnv 0 "ftpd.conf" commentedText plainText
      (Or.inr (Or.inr (by decide))),
    by decide⟩

end cfg

/-! ## The current configuration parser: defaults of the sanity check, and section names -/

namespace cfg

open boost std

/-- Lemma: a global option other than `allow_fxp` leaves the list `allowFxp` as it was. -/
theorem ParseGlobal_allowFxp (env : Env) (c : Config) (opt : String) (toks : List String)
    (hne : opt ≠ "allow_fxp") :
    SameField Config.allowFxp c (ParseGlobal env c opt toks).1 := by
  unfold ParseGlobal
  repeat' first
    | (apply field_ite <;> intro _)
    | apply field_checked
    | apply field_built
    | (apply field_stored; intro _)
    | (apply field_storedNonNegative; intro _)
    | (apply field_storedBool; intro _)
    | exact rfl
    | exact absurd (by assumption) hne
    | split

/-- Lemma: a global option other than `login_prompt` leaves `loginPrompt` as it was. -/
theorem ParseGlobal_loginPrompt (env : Env) (c : Config) (opt : String) (toks : List String)
    (hne : opt ≠ "login_prompt") :
    SameField Config.loginPrompt c (ParseGlobal env c opt toks).1 := by
  unfold ParseGlobal
  repeat' first
    | (apply field_ite <;> intro _)
    | apply field_checked
    | apply field_built
    | (apply field_stored; intro _)
    | (apply field_storedNonNegative; intro _)
    | (apply field_storedBool; intro _)
    | exact rfl
    | exact absurd (by assumption) hne
    | split

/-- Lemma: a line whose keyword is not `keyword` leaves a member as it was, when the member is
assigned by the global option `keyword` only. -/
theorem Parse_field {α : Type} (f : Config → α) (env : Env) (c : Config)
    (line keyword : String)
    (hcache : ∀ (d : Config) v, f (d.setSettingsCache v) = f d)
    (hsec : ∀ (d : Config) v, f (d.setSections v) = f d)
    (hcur : ∀ (d : Config) v, f (d.setCurrentSection v) = f d)
    (hglobal : ∀ (d : Config) opt toks, opt ≠ keyword →
      SameField f d (ParseGlobal env d opt toks).1)
    (h : keywordOf line ≠ some keyword) : f (Parse env c line).1 = f c := by
  cases htok : tokenize line with
  | nil =>
    have hP : Parse env c line = (c, none) := by unfold Parse; rw [htok]
    rw [hP]
  | cons opt toks =>
    by_cases hlen : opt.length = 0
    · have hP : Parse env c line = (c, none) := by
        unfold Parse; rw [htok]; simp only []; rw [if_pos hlen]
      rw [hP]
    · have hopt : to_lower opt ≠ keyword := by
        intro e
        apply h
        unfold keywordOf
        rw [htok]
        simp only []
        rw [if_neg hlen, e]
      rw [Parse_dispatch env c line opt toks htok hlen]
      have hc : f (counted c opt) = f c := hcache c _
      split
      · exact (ParseSection_field f env _ _ _ hsec hcur).trans hc
      · exact (hglobal (counted c opt) _ toks hopt).trans hc

/-- Lemma: the loop over lines none of which has the option keyword `keyword` leaves a member as
it was, when the member is assigned by the global option `keyword` only. -/
theorem parseLines_field {α : Type} (f : Config → α) (env : Env) (keyword : String)
    (hcache : ∀ (d : Config) v, f (d.setSettingsCache v) = f d)
    (hsec : ∀ (d : Config) v, f (d.setSections v) = f d)
    (hcur : ∀ (d : Config) v, f (d.setCurrentSection v) = f d)
    (hglobal : ∀ (d : Config) opt toks, opt ≠ keyword →
      SameField f d (ParseGlobal env d opt toks).1)
    (lines : List String) :
    ∀ (c : Config) (okay : Bool) (c' : Config) (okay' : Bool),
      parseLines env c okay lines = Except.ok (c', okay') →
      (∀ line ∈ lines, optionKeyword line ≠ some keyword) → f c' = f c := by
  induction lines with
  | nil =>
    intro c okay c' okay' h _
    simp only [parseLines, Except.ok.injEq, Prod.mk.injEq] at h
    rw [← h.1]
  | cons line rest ih =>
    intro c okay c' okay' h hno
    have hrest : ∀ l ∈ rest, optionKeyword l ≠ some keyword :=
      fun l hl => hno l (List.mem_cons_of_mem _ hl)
    unfold parseLines at h
    split at h
    · exact ih c okay c' okay' h hrest
    · rename_i hlen
      have hkw : keywordOf (stripComment line) ≠ some keyword := by
        have := hno line (List.mem_cons_self _ _)
        unfold optionKeyword at this
        rw [if_neg hlen] at this
        exact this
      have hP := Parse_field f env c (stripComment line) keyword hcache hsec hcur hglobal hkw
      split at h
      · rename_i c1 heq
        rw [heq] at hP
        exact (ih c1 okay c' okay' h hrest).trans hP
      · rename_i c1 m heq
        rw [heq] at hP
        exact (ih c1 false c' okay' h hrest).trans hP
      · rename_i c1 heq
        rw [heq] at hP
        exact (ih c1 okay c' okay' h hrest).trans hP
      · exact absurd h (by simp)

/-- Lemma: what `SanityCheck` leaves in `loginPrompt` and `allowFxp` when it succeeds. -/
theorem SanityCheck_defaults (env : Env) (c c' : Config)
    (h : SanityCheck env c = Except.ok c') :
    c'.loginPrompt =
      (if c.loginPrompt.length = 0 then
        c.sitenameLong ++ ": " ++ env.programFullname ++ " connected."
       else c.loginPrompt) ∧
    c'.allowFxp = (if c.allowFxp.length = 0 then c.allowFxp ++ [Value.default] else c.allowFxp) ∧
    c'.sitenameLong = c.sitenameLong := by
  have key2 : ∀ (d : Config),
      (if d.allowFxp.length = 0 then d.setAllowFxp (d.allowFxp ++ [Value.default])
        else d).loginPrompt = d.loginPrompt ∧
      (if d.allowFxp.length = 0 then d.setAllowFxp (d.allowFxp ++ [Value.default])
        else d).allowFxp =
        (if d.allowFxp.length = 0 then d.allowFxp ++ [Value.default] else d.allowFxp) ∧
      (if d.allowFxp.length = 0 then d.setAllowFxp (d.allowFxp ++ [Value.default])
        else d).sitenameLong = d.sitenameLong := by
    intro d
    by_cases hd : d.allowFxp.length = 0
    · refine ⟨?_, ?_, ?_⟩ <;> simp only [hd, if_true, if_false] <;> try rfl
    · refine ⟨?_, ?_, ?_⟩ <;> simp only [hd, if_true, if_false] <;> try rfl
  have key1 : ∀ (p : String),
      (if c.loginPrompt.length = 0 then c.setLoginPrompt p else c).loginPrompt =
        (if c.loginPrompt.length = 0 then p else c.loginPrompt) ∧
      (if c.loginPrompt.length = 0 then c.setLoginPrompt p else c).allowFxp = c.allowFxp ∧
      (if c.loginPrompt.length = 0 then c.setLoginPrompt p else c).sitenameLong =
        c.sitenameLong := by
    intro p
    by_cases hd : c.loginPrompt.length = 0
    · refine ⟨?_, ?_, ?_⟩ <;> simp only [hd, if_true, if_false] <;> try rfl
    · refine ⟨?_, ?_, ?_⟩ <;> simp only [hd, if_true, if_false] <;> try rfl
  unfold SanityCheck at h
  split at h
  · exact absurd h (by simp)
  · simp only [Except.ok.injEq] at h
    rw [← h]
    obtain ⟨a1, a2, a3⟩ :=
      key1 (c.sitenameLong ++ ": " ++ env.programFullname ++ " connected.")
    obtain ⟨b1, b2, b3⟩ := key2
      (if c.loginPrompt.length = 0 then
        c.setLoginPrompt (c.sitenameLong ++ ": " ++ env.programFullname ++ " connected.")
       else c)
    refine ⟨b1.trans a1, ?_, b3.trans a3⟩
    rw [b2, a2]

/-- Lemma: the prompt `SanityCheck` builds is not empty. -/
theorem built_prompt_length (a b : String) : (a ++ ": " ++ b ++ " connected.").length ≠ 0 := by
  simp only [String.length_append]
  have : (": " : String).length = 2 := by decide
  omega

/-- Lemma: the configuration a successful load yields is what `SanityCheck` makes of the
configuration the loop over the lines ends with. -/
theorem Config_new_parts (env : Env) (latestVersion : Int) (configFile text : String)
    (c : Config) (h : (Config.new env latestVersion configFile (some text)).2 = Except.ok c) :
    ∃ c1, parseLines env (Config.initial (preIncrement latestVersion) configFile) true
        (getlines text) = Except.ok (c1, true) ∧ SanityCheck env c1 = Except.ok c := by
  unfold Config.new at h
  simp only [] at h
  split at h
  · exact absurd h (by simp)
  · rename_i c1 okay hparse
    split at h
    · rename_i hok
      rw [hok] at hparse
      exact ⟨c1, hparse, h⟩
    · exact absurd h (by simp)

/-- C34: after every successful load the configuration has a non-empty `allowFxp` list and a
non-empty login prompt; when no line of the file has the option keyword `allow_fxp` the list is
the single default-constructed entry, and when no line has the keyword `login_prompt` the prompt
is the long site name followed by a colon, the program name and the word connected. -/
theorem load_fills_allow_fxp_and_login_prompt (env : Env) (latestVersion : Int)
    (configFile text : String) (c : Config)
    (hload : (Config.new env latestVersion configFile (some text)).2 = Except.ok c) :
    c.allowFxp ≠ [] ∧ c.loginPrompt ≠ "" ∧
    ((∀ line ∈ getlines text, optionKeyword line ≠ some "allow_fxp") →
      c.allowFxp = [Value.default]) ∧
    ((∀ line ∈ getlines text, optionKeyword line ≠ some "login_prompt") →
      c.loginPrompt = c.sitenameLong ++ ": " ++ env.programFullname ++ " connected.") := by
  obtain ⟨c1, hparse, hsanity⟩ := Config_new_parts env latestVersion configFile text c hload
  obtain ⟨hprompt, hfxp, hname⟩ := SanityCheck_defaults env c1 c hsanity
  refine ⟨?_, ?_, ?_, ?_⟩
  · rw [hfxp]
    split
    · simp
    · rename_i hlen
      intro hnil
      rw [hnil] at hlen
      exact hlen rfl
  · rw [hprompt]
    split
    · intro hempty
      have := built_prompt_length c1.sitenameLong env.programFullname
      rw [hempty] at this
      exact this rfl
    · rename_i hlen
      intro hempty
      rw [hempty] at hlen
      exact hlen rfl
  · intro hno
    have h0 : c1.allowFxp = (Config.initial (preIncrement latestVersion) configFile).allowFxp :=
      parseLines_field Config.allowFxp env "allow_fxp" (fun _ _ => rfl) (fun _ _ => rfl)
        (fun _ _ => rfl) (fun d opt toks hne => ParseGlobal_allowFxp env d opt toks hne)
        (getlines text) _ _ _ _ hparse hno
    have hnil : c1.allowFxp = [] := h0
    rw [hfxp, hnil]
    rfl
  · intro hno
    have h0 : c1.loginPrompt =
        (Config.initial (preIncrement latestVersion) configFile).loginPrompt :=
      parseLines_field Config.loginPrompt env "login_prompt" (fun _ _ => rfl) (fun _ _ => rfl)
        (fun _ _ => rfl) (fun d opt toks hne => ParseGlobal_loginPrompt env d opt toks hne)
        (getlines text) _ _ _ _ hparse hno
    have hempty : c1.loginPrompt = "" := h0
    rw [hprompt, hempty, hname]
    rfl

set_option maxRecDepth 100000 in
theorem load_fills_allow_fxp_and_login_prompt_witness :
    ((Config.new plainEnv 0 "ftpd.conf" (some bouncerText)).2 = Except.ok bouncerLoaded ∧
      (∀ line ∈ getlines bouncerText, optionKeyword line ≠ some "allow_fxp") ∧
      (∀ line ∈ getlines bouncerText, optionKeyword line ≠ some "login_prompt")) ∧
    bouncerLoaded.allowFxp = [Value.default] ∧
    bouncerLoaded.loginPrompt =
      bouncerLoaded.sitenameLong ++ ": " ++ plainEnv.programFullname ++ " connected." ∧
    bouncerLoaded.loginPrompt = "SITE NAME: ebftpd connected." :=
  ⟨⟨by decide, by decide, by decide⟩,
    (load_fills_allow_fxp_and_login_prompt plainEnv 0 "ftpd.conf" bouncerText bouncerLoaded
      (by decide)).2.2.1 (by decide),
    (load_fills_allow_fxp_and_login_prompt plainEnv 0 "ftpd.conf" bouncerText bouncerLoaded
      (by decide)).2.2.2 (by decide),
    by decide⟩

end cfg

namespace cfg

open boost std

/-- Lemma: the outcome of a `section` line. -/
theorem ParseGlobal_section_def (env : Env) (c : Config) (toks : List String) :
    ParseGlobal env c "section" toks =
      checked c (ParameterCheck3 env "section" toks 1)
        (if c.sections.any (fun kv => kv.1 = to_upper (first toks)) then
           (c, some (Thrown.ConfigError
              ("Section " ++ to_upper (first toks) ++ " already exists.")))
         else
           ((c.setSections (env.sectionMap.insert c.sections
               (to_upper (first toks), Section.new env (to_upper (first toks))))
              ).setCurrentSection (some (to_upper (first toks))), none)) := rfl

/-- Lemma: a `section` line naming a section that is already declared throws `ConfigError` and
changes nothing. -/
theorem ParseGlobal_section_declared (env : Env) (c : Config) (toks : List String)
    (h : c.sections.any (fun kv => kv.1 = to_upper (first toks)) = true) :
    ∃ m, ParseGlobal env c "section" toks = (c, some (Thrown.ConfigError m)) := by
  rw [ParseGlobal_section_def, if_pos h]
  exact checked_rejects env c _ _ _ _ ⟨_, rfl⟩

/-- Lemma: a `section` line that throws nothing names a section that was not declared and
inserts a fresh section under the upper-cased name. -/
theorem ParseGlobal_section_fresh (env : Env) (c : Config) (toks : List String)
    (hok : (ParseGlobal env c "section" toks).2 = none) :
    c.sections.any (fun kv => kv.1 = to_upper (first toks)) = false ∧
    (ParseGlobal env c "section" toks).1.sections =
      env.sectionMap.insert c.sections
        (to_upper (first toks), Section.new env (to_upper (first toks))) := by
  rw [ParseGlobal_section_def] at hok ⊢
  generalize ParameterCheck3 env "section" toks 1 = check at hok ⊢
  cases check with
  | some e => exact absurd hok (by simp [checked])
  | none =>
    simp only [checked] at hok ⊢
    by_cases hany : (c.sections.any (fun kv => kv.1 = to_upper (first toks))) = true
    · rw [if_pos hany] at hok
      exact absurd hok (by simp)
    · rw [if_neg hany]
      exact ⟨Bool.eq_false_iff.mpr hany, rfl⟩

/-- Lemma: no option of a section block changes the keys of `sections`. -/
theorem ParseSection_keys (env : Env) (c : Config) (opt : String) (toks : List String) :
    (ParseSection env c opt toks).1.sections.map (fun kv => kv.1) =
      c.sections.map (fun kv => kv.1) := by
  by_cases hs : opt ∈ sectionSettings
  · cases hcur : c.currentSection with
    | some key => exact (ParseSection_only env c key opt toks hcur hs).2.2.1
    | none =>
      have hcases : opt = "path" ∨ opt = "ratio" ∨ opt = "separate_credits" := by
        simpa [sectionSettings] using hs
      have hsame : (ParseSection env c opt toks).1 = c := by
        rcases hcases with h | h | h <;> subst h
        · unfold ParseSection
          rw [if_pos rfl, hcur]
          cases ParameterCheck3 env "path" toks 1 <;> rfl
        · unfold ParseSection
          rw [if_neg (by decide), if_neg (by decide), if_pos rfl, hcur]
          cases ParameterCheck3 env "ratio" toks 1 <;> rfl
        · unfold ParseSection
          rw [if_neg (by decide), if_pos rfl, hcur]
          cases ParameterCheck3 env "separate_credits" toks 1 <;> rfl
      rw [hsame]
  · by_cases he : opt = "endsection"
    · subst he
      rfl
    · have hno : opt ∉ sectionOptions := by
        simp only [sectionSettings, List.mem_cons, List.mem_singleton, List.not_mem_nil,
          or_false] at hs
        simp only [sectionOptions, List.mem_cons, List.mem_singleton, List.not_mem_nil,
          or_false]
        tauto
      rw [ParseSection_unknown env c opt toks hno]

/-- Lemma: a line keeps the keys of `sections` pairwise distinct and upper-cased. -/
theorem Parse_sectionKeys (env : Env) (c : Config) (line : String) (h : SectionKeys c) :
    SectionKeys (Parse env c line).1 := by
  have hsame : ∀ d : Config,
      d.sections.map (fun kv => kv.1) = c.sections.map (fun kv => kv.1) → SectionKeys d := by
    intro d hd
    refine ⟨hd ▸ h.1, ?_⟩
    intro kv hkv
    have hk : kv.1 ∈ d.sections.map (fun kv => kv.1) := List.mem_map.mpr ⟨kv, hkv, rfl⟩
    rw [hd] at hk
    obtain ⟨kv0, hkv0, he⟩ := List.mem_map.mp hk
    obtain ⟨name, hname⟩ := h.2 kv0 hkv0
    exact ⟨name, he ▸ hname⟩
  cases htok : tokenize line with
  | nil =>
    have hP : Parse env c line = (c, none) := by unfold Parse; rw [htok]
    rw [hP]; exact h
  | cons opt toks =>
    by_cases hlen : opt.length = 0
    · have hP : Parse env c line = (c, none) := by
        unfold Parse; rw [htok]; simp only []; rw [if_pos hlen]
      rw [hP]; exact h
    · rw [Parse_dispatch env c line opt toks htok hlen]
      split
      · exact hsame _ (ParseSection_keys env (counted c opt) _ toks)
      · by_cases hsec : to_lower opt = "section"
        · rw [hsec]
          cases hres : (ParseGlobal env (counted c opt) "section" toks).2 with
          | some e =>
            rw [ParseGlobal_section_thrown env _ toks (by rw [hres]; simp)]
            exact h
          | none =>
            obtain ⟨hany, hins⟩ := ParseGlobal_section_fresh env (counted c opt) toks hres
            have hperm := env.sectionMap.perm (counted c opt).sections
              (to_upper (first toks), Section.new env (to_upper (first toks)))
            have hcs : (counted c opt).sections = c.sections := rfl
            rw [hcs] at hany hins hperm
            have hnew : to_upper (first toks) ∉ c.sections.map (fun kv => kv.1) := by
              intro hmem
              obtain ⟨kv0, hkv0, he⟩ := List.mem_map.mp hmem
              have : c.sections.any (fun kv => decide (kv.1 = to_upper (first toks))) = true :=
                List.any_eq_true.mpr ⟨kv0, hkv0, decide_eq_true he⟩
              rw [hany] at this
              exact absurd this (by simp)
            constructor
            · rw [hins]
              have hp := hperm.map (fun kv => kv.1)
              rw [hp.nodup_iff, List.map_append, List.map_singleton]
              exact List.Nodup.append h.1 (List.nodup_singleton _)
                (by
                  intro x hx hx'
                  rw [List.mem_singleton] at hx'
                  have hx2 : x = to_upper (first toks) := hx'
                  rw [hx2] at hx
                  exact hnew hx)
            · intro kv hkv
              rw [hins] at hkv
              rcases List.mem_append.mp (hperm.mem_iff.mp hkv) with h1 | h1
              · exact h.2 kv h1
              · rw [List.mem_singleton] at h1
                exact ⟨first toks, by rw [h1]⟩
        · exact hsame _
            (congrArg (List.map (fun kv => kv.1))
              (ParseGlobal_sections env (counted c opt) _ toks hsec).2)

/-- Lemma: the loop over the lines keeps the keys of `sections` pairwise distinct and
upper-cased. -/
theorem parseLines_sectionKeys (env : Env) (lines : List String) :
    ∀ (c : Config) (okay : Bool) (c' : Config) (okay' : Bool),
      parseLines env c okay lines = Except.ok (c', okay') → SectionKeys c → SectionKeys c' := by
  induction lines with
  | nil =>
    intro c okay c' okay' h hc
    simp only [parseLines, Except.ok.injEq, Prod.mk.injEq] at h
    exact h.1 ▸ hc
  | cons line rest ih =>
    intro c okay c' okay' h hc
    unfold parseLines at h
    split at h
    · exact ih c okay c' okay' h hc
    · have hP := Parse_sectionKeys env c (stripComment line) hc
      split at h
      · rename_i c1 heq
        rw [heq] at hP
        exact ih c1 okay c' okay' h hP
      · rename_i c1 m heq
        rw [heq] at hP
        exact ih c1 false c' okay' h hP
      · rename_i c1 heq
        rw [heq] at hP
        exact ih c1 okay c' okay' h hP
      · exact absurd h (by simp)

/-- Lemma: `SanityCheck` leaves `sections` as it was. -/
theorem SanityCheck_sections (env : Env) (c c' : Config)
    (h : SanityCheck env c = Except.ok c') : c'.sections = c.sections := by
  unfold SanityCheck at h
  split at h
  · exact absurd h (by simp)
  · simp only [Except.ok.injEq] at h
    rw [← h]
    split <;> split <;> rfl

/-- C33: section names are unique ignoring case.  A `section` line that succeeds stores the
section under its upper-cased name, with that name.  A `section` line outside a block whose
name, upper-cased, is the key of a section already declared raises `ConfigError`, leaves
`sections` exactly as it was and opens no block.  So after every successful load the keys of
`sections` are pairwise distinct and each is the upper-cased form of a name. -/
theorem section_names_unique_ignoring_case (env : Env) (c : Config) (line opt : String)
    (toks : List String) (htok : tokenize line = opt :: toks)
    (hopt : to_lower opt = "section") (hglobal : c.currentSection = none) :
    (c.sections.any (fun kv => kv.1 = to_upper (first toks)) = true →
      (∃ m, (Parse env c line).2 = some (Thrown.ConfigError m)) ∧
      (Parse env c line).1.sections = c.sections ∧
      (Parse env c line).1.currentSection = none) ∧
    ((Parse env c line).2 = none →
      c.sections.any (fun kv => kv.1 = to_upper (first toks)) = false ∧
      (Parse env c line).1.currentSection = some (to_upper (first toks)) ∧
      (Parse env c line).1.sections = env.sectionMap.insert c.sections
        (to_upper (first toks), Section.new env (to_upper (first toks))) ∧
      (Section.new env (to_upper (first toks))).name = to_upper (first toks)) ∧
    (∀ (latestVersion : Int) (configFile text : String) (loaded : Config),
      (Config.new env latestVersion configFile (some text)).2 = Except.ok loaded →
      SectionKeys loaded) := by
  have hlen : opt.length ≠ 0 := by
    intro h0
    rw [eq_empty_of_length_zero opt h0] at hopt
    exact absurd hopt (by decide)
  have hP : Parse env c line = ParseGlobal env (counted c opt) "section" toks := by
    rw [Parse_dispatch env c line opt toks htok hlen, hglobal, hopt]
    rfl
  refine ⟨?_, ?_, ?_⟩
  · intro hany
    obtain ⟨m, hm⟩ := ParseGlobal_section_declared env (counted c opt) toks hany
    rw [hP, hm]
    exact ⟨⟨m, rfl⟩, rfl, hglobal⟩
  · intro hok
    rw [hP] at hok ⊢
    obtain ⟨hany, hins⟩ := ParseGlobal_section_fresh env (counted c opt) toks hok
    exact ⟨hany, (ParseGlobal_section env (counted c opt) toks hok).1, hins, rfl⟩
  · intro latestVersion configFile text loaded hload
    obtain ⟨c1, hparse, hsanity⟩ :=
      Config_new_parts env latestVersion configFile text loaded hload
    have hinit : SectionKeys (Config.initial (preIncrement latestVersion) configFile) :=
      ⟨List.nodup_nil, fun kv hkv => absurd hkv (List.not_mem_nil _)⟩
    have h1 := parseLines_sectionKeys env (getlines text) _ _ _ _ hparse hinit
    unfold SectionKeys
    rw [SanityCheck_sections env c1 loaded hsanity]
    exact h1

set_option maxRecDepth 100000 in
theorem section_names_unique_ignoring_case_witness :
    (tokenize "Section a" = "Section" :: ["a"] ∧ to_lower "Section" = "section" ∧
      afterA.currentSection = none ∧
      afterA.sections.any (fun kv => kv.1 = to_upper (first ["a"])) = true ∧
      afterA.sections.map (fun kv => kv.1) = ["A"]) ∧
    (∃ m, (Parse plainEnv afterA "Section a").2 = some (Thrown.ConfigError m)) ∧
    (Parse plainEnv afterA "Section a").1.sections = afterA.sections ∧
    (Parse plainEnv afterA "Section a").2 =
      some (Thrown.ConfigError "Section A already exists.") :=
  ⟨⟨by decide, by decide, by decide, by decide, by decide⟩,
    ((section_names_unique_ignoring_case plainEnv afterA "Section a" "Section" ["a"]
      (by decide) (by decide) (by decide)).1 (by decide)).1,
    ((section_names_unique_ignoring_case plainEnv afterA "Section a" "Section" ["a"]
      (by decide) (by decide) (by decide)).1 (by decide)).2.1,
    by decide⟩

end cfg
